import Mathlib

/-!
Label resolution and branch legality (lib/semantics/resolve-labels.cc).

A shallow embedding of the label checker of the f18 semantic analysis:
the scope table, the statement classification, the label collector and the
constraint checks that run once the parse tree has been walked.

Conventions of the embedding

* `parser::Label` (an unsigned 64-bit integer) and `ProxyForScope`
  (`unsigned`) are natural numbers.
* `parser::CharBlock` is a start address together with the characters it
  covers; only `begin()`, `end()`, `size()` and indexing are used by the
  source.
* `parser::Messages` is the list of the messages said so far; `Say` appends.
* `std::map<Label, ...>` is a key-unique association list; the source only
  uses `emplace` and `find`, never the iteration order.
* A C++ loop that may fail to return (a cyclic scope table) or that would
  read a vector out of bounds yields `none`.
-/

namespace ResolveLabels

/-! ## Positions and messages (declared in lib/parser, used by the source) -/

/-- Modelled from the spec: `parser::CharBlock` (lib/parser/char-block.h), a
comparable source position: the address of its first character and the
characters themselves. -/
structure CharBlock where
  begin : Nat
  text : List Char
deriving DecidableEq, Repr

/-- Number of characters covered, `CharBlock::size()`. -/
def CharBlock.size (b : CharBlock) : Nat := b.text.length

/-- One past the last character, `CharBlock::end()`. -/
def CharBlock.end_ (b : CharBlock) : Nat := b.begin + b.size

/-- The block built from `nullptr`; the source never reads its extent. -/
def CharBlock.null : CharBlock := ⟨0, []⟩

/-- Arguments of a formatted message. -/
inductive MessageArg where
  | unsignedArg (n : Nat)
  | stringArg (s : String)
deriving DecidableEq, Repr

/-- Modelled from the spec: the text of a diagnostic with its severity
(`"..."_err_en_US` is fatal, `"..."_en_US` is not), lib/parser/message.h. -/
structure MessageFormattedText where
  isFatal : Bool
  format : String
  args : List MessageArg
deriving DecidableEq, Repr

/-- Fatal text, the `_err_en_US` literal suffix. -/
def err_en_US (format : String) (args : List MessageArg) : MessageFormattedText :=
  ⟨true, format, args⟩

/-- Non-fatal text, the `_en_US` literal suffix. -/
def en_US (format : String) (args : List MessageArg) : MessageFormattedText :=
  ⟨false, format, args⟩

/-- Modelled from the spec: a diagnostic is a primary location, a message with
its severity, and an optional attached location and message. -/
structure Message where
  location : CharBlock
  text : MessageFormattedText
  attachment : Option (CharBlock × MessageFormattedText)
deriving DecidableEq, Repr

/-- Severity of a diagnostic: that of its own text. -/
def Message.IsFatal (m : Message) : Bool := m.text.isFatal

/-- The diagnostic sink, `parser::Messages`. -/
abbrev Messages := List Message

/-- Modelled from the spec: `Messages::Say(location, text)` appends. -/
def Messages.Say (errorHandler : Messages) (location : CharBlock)
    (text : MessageFormattedText) : Messages :=
  errorHandler ++ [⟨location, text, none⟩]

/-- Modelled from the spec: `Say(location, text).Attach(at, note)` appends one
diagnostic carrying the attached location and message. -/
def Messages.SayAttach (errorHandler : Messages) (location : CharBlock)
    (text : MessageFormattedText) (attachedAt : CharBlock)
    (note : MessageFormattedText) : Messages :=
  errorHandler ++ [⟨location, text, some (attachedAt, note)⟩]

/-- Modelled from the spec: `Messages::AnyFatalError()`. -/
def Messages.AnyFatalError (errorHandler : Messages) : Bool :=
  errorHandler.any Message.IsFatal

/-! ## Data model of resolve-labels.cc -/

/-- The enumeration `TargetStatementEnum`. -/
inductive TargetStatementEnum where
  | Do | Branch | Format | CompatibleDo | CompatibleBranch
deriving DecidableEq, Repr

/-- The bit set `common::EnumSet<TargetStatementEnum, 5>`: one bit per
enumerator. -/
structure LabeledStmtClassificationSet where
  bitDo : Bool
  bitBranch : Bool
  bitFormat : Bool
  bitCompatibleDo : Bool
  bitCompatibleBranch : Bool
deriving DecidableEq, Repr

/-- The empty set, `LabeledStmtClassificationSet{}`. -/
def LabeledStmtClassificationSet.empty : LabeledStmtClassificationSet :=
  ⟨false, false, false, false, false⟩

/-- Membership test, `EnumSet::test`. -/
def LabeledStmtClassificationSet.test (s : LabeledStmtClassificationSet) :
    TargetStatementEnum → Bool
  | .Do => s.bitDo
  | .Branch => s.bitBranch
  | .Format => s.bitFormat
  | .CompatibleDo => s.bitCompatibleDo
  | .CompatibleBranch => s.bitCompatibleBranch

/-- Insertion, `EnumSet::set`. -/
def LabeledStmtClassificationSet.set (s : LabeledStmtClassificationSet) :
    TargetStatementEnum → LabeledStmtClassificationSet
  | .Do => { s with bitDo := true }
  | .Branch => { s with bitBranch := true }
  | .Format => { s with bitFormat := true }
  | .CompatibleDo => { s with bitCompatibleDo := true }
  | .CompatibleBranch => { s with bitCompatibleBranch := true }

/-- Statement labels, `parser::Label`. -/
abbrev Label := Nat

/-- Integral proxy for a Fortran scope; `0` is the sentinel. -/
abbrev ProxyForScope := Nat

/-- A pair of positions delimiting a loop body, an element of `IndexList`. -/
abbrev IndexList := List (CharBlock × CharBlock)

/-- What is recorded for a labelled statement. -/
structure LabeledStatementInfoTuplePOD where
  proxyForScope : ProxyForScope
  parserCharBlock : CharBlock
  labeledStmtClassificationSet : LabeledStmtClassificationSet
deriving DecidableEq, Repr

/-- The definitions of one program unit, `std::map<Label, ...>`. -/
abbrev TargetStmtMap := List (Label × LabeledStatementInfoTuplePOD)

/-- What is recorded for a statement that refers to a label. -/
structure SourceStatementInfoTuplePOD where
  parserLabel : Label
  proxyForScope : ProxyForScope
  parserCharBlock : CharBlock
deriving DecidableEq, Repr

/-- A list of label references. -/
abbrev SourceStmtList := List SourceStatementInfoTuplePOD

/-- Three-valued legality of a statement in some role. -/
inductive Legality where
  | never | always | formerly
deriving DecidableEq, Repr

/-- A scope handle denotes a scope unless it is the sentinel. -/
def HasScope (scope : ProxyForScope) : Bool := scope != 0

/-! ## Statement classification -/

/-- The alternatives of `parser::ActionStmt` that the source tells apart; any
other alternative is `Other`. -/
inductive ActionStmtAlt where
  | ContinueStmt | ArithmeticIfStmt | CycleStmt | ExitStmt | StopStmt
  | GotoStmt | ReturnStmt | AssignStmt | AssignedGotoStmt | PauseStmt
  | Other (tag : Nat)
deriving DecidableEq, Repr

/-- The type argument `A` of `parser::Statement<A>`: the types the source
tells apart (the `Indirection<...>` wrappers are types of their own), an
action statement with its alternative, or any other statement type. -/
inductive StmtType where
  | AssociateStmt | EndAssociateStmt | IfThenStmt | EndIfStmt
  | SelectCaseStmt | EndSelectStmt | SelectRankStmt | SelectTypeStmt
  | IndirectionLabelDoStmt | NonLabelDoStmt | EndDoStmt | IndirectionEndDoStmt
  | BlockStmt | EndBlockStmt | CriticalStmt | EndCriticalStmt
  | ForallConstructStmt | ForallStmt | WhereConstructStmt
  | EndFunctionStmt | EndMpSubprogramStmt | EndProgramStmt | EndSubroutineStmt
  | IndirectionFormatStmt
  | ActionStmt (u : ActionStmtAlt)
  | Other (tag : Nat)
deriving DecidableEq, Repr

/-- A statement of the parse tree: position, optional label, and its kind. -/
structure Statement where
  source : CharBlock
  label : Option Label
  statement : StmtType
deriving DecidableEq, Repr

/-- F18:R1131, with the specialisation for action statements. -/
def IsLegalDoTerm : StmtType → Legality
  | .ActionStmt u =>
    if u = .ContinueStmt then .always
    else if !(u = .ArithmeticIfStmt || u = .CycleStmt || u = .ExitStmt ||
        u = .StopStmt || u = .GotoStmt || u = .ReturnStmt) then .formerly
    else .never
  | .IndirectionEndDoStmt => .always
  | .EndDoStmt => .always
  | _ => .never

/-- Only `Statement<Indirection<FormatStmt>>` is a FORMAT. -/
def IsFormat : StmtType → Bool
  | .IndirectionFormatStmt => true
  | _ => false

/-- Legality as a branch target, with the specialisation for action
statements. -/
def IsLegalBranchTarget : StmtType → Legality
  | .ActionStmt u =>
    if !(u = .ArithmeticIfStmt || u = .AssignStmt || u = .AssignedGotoStmt ||
        u = .PauseStmt) then .always
    else .formerly
  | .AssociateStmt | .EndAssociateStmt | .IfThenStmt | .EndIfStmt
  | .SelectCaseStmt | .EndSelectStmt | .SelectRankStmt | .SelectTypeStmt
  | .IndirectionLabelDoStmt | .NonLabelDoStmt | .EndDoStmt
  | .IndirectionEndDoStmt | .BlockStmt | .EndBlockStmt | .CriticalStmt
  | .EndCriticalStmt | .ForallConstructStmt | .ForallStmt
  | .WhereConstructStmt | .EndFunctionStmt | .EndMpSubprogramStmt
  | .EndProgramStmt | .EndSubroutineStmt => .always
  | _ => .never

/-- The classification set of a statement. -/
def constructBranchTargetFlags (statement : Statement) :
    LabeledStmtClassificationSet :=
  let s0 := LabeledStmtClassificationSet.empty
  let s1 :=
    if IsLegalDoTerm statement.statement = .always then s0.set .Do
    else if IsLegalDoTerm statement.statement = .formerly then s0.set .CompatibleDo
    else s0
  let s2 :=
    if IsLegalBranchTarget statement.statement = .always then s1.set .Branch
    else if IsLegalBranchTarget statement.statement = .formerly then
      s1.set .CompatibleBranch
    else s1
  if IsFormat statement.statement then s2.set .Format else s2

/-- The label as printed by `%u`: `static_cast<unsigned>(label)`. -/
def SayLabel (label : Label) : Nat := label % 2 ^ 32

/-! ## The label collector -/

/-- The tables of one program unit. -/
structure UnitAnalysis where
  doStmtSources : SourceStmtList
  formatStmtSources : SourceStmtList
  otherStmtSources : SourceStmtList
  targetStmts : TargetStmtMap
  scopeModel : List ProxyForScope
deriving DecidableEq, Repr

/-- The constructor `UnitAnalysis()`: empty tables, the scope table seeded
with the sentinel. -/
def UnitAnalysis.new : UnitAnalysis := ⟨[], [], [], [], [0]⟩

/-- The state of the visitor `ParseTreeAnalyzer`. -/
structure ParseTreeAnalyzer where
  programUnits_ : List UnitAnalysis
  errorHandler_ : Messages
  currentPosition_ : CharBlock
  currentScope_ : ProxyForScope
  constructNames_ : List String
deriving DecidableEq, Repr

/-- The analyzer as constructed from a diagnostic sink. -/
def ParseTreeAnalyzer.new (errorHandler : Messages) : ParseTreeAnalyzer :=
  ⟨[], errorHandler, CharBlock.null, 0, []⟩

/-- Update of `programUnits_.back()`; there is no result when the vector is
empty. -/
def modifyBack (f : UnitAnalysis → UnitAnalysis) (units : List UnitAnalysis) :
    Option (List UnitAnalysis) :=
  match units.getLast? with
  | none => none
  | some unit => some (units.dropLast ++ [f unit])

/-- 6.2.5, paragraph 2: labels are between 1 and 99999. -/
def CheckLabelInRange (a : ParseTreeAnalyzer) (label : Label) : ParseTreeAnalyzer :=
  if label < 1 || label > 99999 then
    let said := a.errorHandler_.Say a.currentPosition_
      (err_en_US "label '%u' is out of range" [.unsignedArg (SayLabel label)])
    { a with errorHandler_ := said }
  else a

/-- The call `std::map::emplace`: the new value is inserted only when the key
is absent; the flag tells whether it was. -/
def TargetStmtMap.emplace (labels : TargetStmtMap) (label : Label)
    (info : LabeledStatementInfoTuplePOD) : TargetStmtMap × Bool :=
  match labels.lookup label with
  | some _ => (labels, false)
  | none => (labels ++ [(label, info)], true)

/-- Records the definition of a label at the current statement. -/
def addTargetLabelDefinition (a : ParseTreeAnalyzer) (label : Label)
    (labeledStmtClassificationSet : LabeledStmtClassificationSet) :
    Option ParseTreeAnalyzer :=
  let a1 := CheckLabelInRange a label
  match a1.programUnits_.getLast? with
  | none => none
  | some unit =>
    let pair := unit.targetStmts.emplace label
      ⟨a1.currentScope_, a1.currentPosition_, labeledStmtClassificationSet⟩
    let a2 := { a1 with programUnits_ :=
      a1.programUnits_.dropLast ++ [{ unit with targetStmts := pair.1 }] }
    if !pair.2 then
      let said := a2.errorHandler_.Say a2.currentPosition_
        (err_en_US "label '%u' is not distinct" [.unsignedArg (SayLabel label)])
      some { a2 with errorHandler_ := said }
    else some a2

/-- Records the terminal label of a labelled DO statement. -/
def addLabelReferenceFromDoStmt (a : ParseTreeAnalyzer) (label : Label) :
    Option ParseTreeAnalyzer :=
  let a1 := CheckLabelInRange a label
  match modifyBack (fun unit => { unit with doStmtSources :=
      unit.doStmtSources ++ [⟨label, a1.currentScope_, a1.currentPosition_⟩] })
      a1.programUnits_ with
  | none => none
  | some units => some { a1 with programUnits_ := units }

/-- Records a reference to a FORMAT statement by label. -/
def addLabelReferenceToFormatStmt (a : ParseTreeAnalyzer) (label : Label) :
    Option ParseTreeAnalyzer :=
  let a1 := CheckLabelInRange a label
  match modifyBack (fun unit => { unit with formatStmtSources :=
      unit.formatStmtSources ++ [⟨label, a1.currentScope_, a1.currentPosition_⟩] })
      a1.programUnits_ with
  | none => none
  | some units => some { a1 with programUnits_ := units }

/-- Records any other reference to a label. -/
def addLabelReference (a : ParseTreeAnalyzer) (label : Label) :
    Option ParseTreeAnalyzer :=
  let a1 := CheckLabelInRange a label
  match modifyBack (fun unit => { unit with otherStmtSources :=
      unit.otherStmtSources ++ [⟨label, a1.currentScope_, a1.currentPosition_⟩] })
      a1.programUnits_ with
  | none => none
  | some units => some { a1 with programUnits_ := units }

/-- Records one reference per label of a list, in order. -/
def addLabelReferences : ParseTreeAnalyzer → List Label → Option ParseTreeAnalyzer
  | a, [] => some a
  | a, label :: labels =>
    match addLabelReference a label with
    | none => none
    | some a1 => addLabelReferences a1 labels

/-- The visitor entering a statement: the position is noted and a label, when
there is one, is recorded with the classification of the statement. -/
def PreStatement (a : ParseTreeAnalyzer) (statement : Statement) :
    Option ParseTreeAnalyzer :=
  let a1 := { a with currentPosition_ := statement.source }
  match statement.label with
  | some label => addTargetLabelDefinition a1 label (constructBranchTargetFlags statement)
  | none => some a1

/-! ## The walk: scopes -/

/-- A new scope, child of the current one, becomes current. The handle is
`scopeModel.size() - 1`; the conversion to `unsigned` is not modelled (a table
of 2^32 entries is out of reach). -/
def pushSubscope (a : ParseTreeAnalyzer) : Option ParseTreeAnalyzer :=
  match a.programUnits_.getLast? with
  | none => none
  | some unit =>
    let scopeModel := unit.scopeModel ++ [a.currentScope_]
    some { a with
      programUnits_ := a.programUnits_.dropLast ++ [{ unit with scopeModel := scopeModel }]
      currentScope_ := scopeModel.length - 1 }

/-- A new program unit starts: fresh tables, then a first scope. -/
def PushNewScope (a : ParseTreeAnalyzer) : Option ParseTreeAnalyzer :=
  pushSubscope { a with programUnits_ := a.programUnits_ ++ [UnitAnalysis.new] }

/-- The parent of the current scope becomes current; there is no result when
`scopeModel[currentScope_]` is out of bounds. -/
def PopScope (a : ParseTreeAnalyzer) : Option ParseTreeAnalyzer :=
  match a.programUnits_.getLast? with
  | none => none
  | some unit =>
    match unit.scopeModel[a.currentScope_]? with
    | none => none
    | some parent => some { a with currentScope_ := parent }

/-- A sibling of the current scope becomes current. -/
def switchToNewScope (a : ParseTreeAnalyzer) : Option ParseTreeAnalyzer :=
  match PopScope a with
  | none => none
  | some a1 => pushSubscope a1

/-! ## The walk: construct names -/

/-- The constructs the visitor enters and leaves. -/
inductive ConstructKind where
  | Associate | Block | ChangeTeam | Critical | Do | If | Case | SelectRank
  | SelectType | Where | Forall
deriving DecidableEq, Repr

/-- What the visitor reads of a construct: the position and optional name of
its opening statement, the optional name of its closing statement, the
optional names of its interior statements in order (ELSE IF statements, CASE,
RANK or TYPE statements, masked ELSEWHERE statements), and the optional name
of its ELSE or ELSEWHERE statement when the construct has one. -/
structure Construct where
  kind : ConstructKind
  source : CharBlock
  name : Option String
  endName : Option String
  parts : List (Option String)
  last : Option (Option String)
deriving DecidableEq, Repr

/-- Both names are present and equal, or both are absent. -/
def namesBothEqualOrBothNone (name_a name_b : Option String) : Bool :=
  match name_a with
  | some a =>
    match name_b with
    | some b => a == b
    | none => false
  | none => !name_b.isSome

/-- The first name is absent, or both are present and equal. -/
def firstNameNoneOrBothEqual (name_a name_b : Option String) : Bool :=
  match name_a with
  | none => true
  | some a =>
    match name_b with
    | some b => a == b
    | none => false

/-- A mismatch said at the current position, with the opening statement of the
construct attached. -/
def sayMismatch (a : ParseTreeAnalyzer) (text : MessageFormattedText) (c : Construct)
    (note : MessageFormattedText) : ParseTreeAnalyzer :=
  { a with errorHandler_ := a.errorHandler_.SayAttach a.currentPosition_ text c.source note }

/-- The loop over the interior statements of a construct: a mismatch for each
name that is present and is not the name of the construct. -/
def CheckName_parts (c : Construct) (text note : MessageFormattedText) :
    List (Option String) → ParseTreeAnalyzer → ParseTreeAnalyzer
  | [], a => a
  | part :: rest, a =>
    if !firstNameNoneOrBothEqual part c.name then
      CheckName_parts c text note rest (sayMismatch a text c note)
    else CheckName_parts c text note rest a

/-- The name check of the ELSE or ELSEWHERE statement, when there is one. -/
def CheckName_last (c : Construct) (text note : MessageFormattedText)
    (a : ParseTreeAnalyzer) : ParseTreeAnalyzer :=
  match c.last with
  | some part =>
    if !firstNameNoneOrBothEqual part c.name then sayMismatch a text c note else a
  | none => a

/-- The template `CheckName(constructTag, a)` (C1106, C1117, C1131, C1035). -/
def CheckName_tag (a : ParseTreeAnalyzer) (constructTag : String) (c : Construct) :
    ParseTreeAnalyzer :=
  if !namesBothEqualOrBothNone c.name c.endName then
    sayMismatch a (err_en_US "%s construct name mismatch" [.stringArg constructTag]) c
      (en_US "mismatched construct" [])
  else a

/-- C1109. -/
def CheckName_Block (a : ParseTreeAnalyzer) (c : Construct) : ParseTreeAnalyzer :=
  if !namesBothEqualOrBothNone c.name c.endName then
    sayMismatch a (err_en_US "BLOCK construct name mismatch" []) c
      (en_US "mismatched BLOCK" [])
  else a

/-- C1112. -/
def CheckName_ChangeTeam (a : ParseTreeAnalyzer) (c : Construct) : ParseTreeAnalyzer :=
  if !namesBothEqualOrBothNone c.name c.endName then
    sayMismatch a (err_en_US "CHANGE TEAM construct name mismatch" []) c
      (en_US "mismatched CHANGE TEAM" [])
  else a

/-- C1142. -/
def CheckName_If (a : ParseTreeAnalyzer) (c : Construct) : ParseTreeAnalyzer :=
  let a1 :=
    if !namesBothEqualOrBothNone c.name c.endName then
      sayMismatch a (err_en_US "IF construct name mismatch" []) c (en_US "mismatched IF" [])
    else a
  let a2 := CheckName_parts c (err_en_US "ELSE IF statement name mismatch" [])
    (en_US "mismatched IF" []) c.parts a1
  CheckName_last c (err_en_US "ELSE statement name mismatch" [])
    (en_US "mismatched IF" []) a2

/-- The template `CheckName(a, selectTag, selectSubTag)` (C1144, C1154, C1156,
C1165). -/
def CheckName_select (a : ParseTreeAnalyzer) (c : Construct)
    (selectTag selectSubTag : String) : ParseTreeAnalyzer :=
  let a1 :=
    if !namesBothEqualOrBothNone c.name c.endName then
      sayMismatch a (err_en_US "SELECT %s construct name mismatch" [.stringArg selectTag]) c
        (en_US "mismatched %s" [.stringArg selectTag])
    else a
  CheckName_parts c (err_en_US "%sCASE statement name mismatch" [.stringArg selectSubTag])
    (en_US "mismatched %s" [.stringArg selectTag]) c.parts a1

/-- C1033. -/
def CheckName_Where (a : ParseTreeAnalyzer) (c : Construct) : ParseTreeAnalyzer :=
  let a1 :=
    if !namesBothEqualOrBothNone c.name c.endName then
      sayMismatch a (err_en_US "WHERE construct name mismatch" []) c
        (en_US "mismatched WHERE" [])
    else a
  let a2 := CheckName_parts c (err_en_US "ELSEWHERE (<mask>) statement name mismatch" [])
    (en_US "mismatched WHERE" []) c.parts a1
  CheckName_last c (err_en_US "ELSEWHERE statement name mismatch" [])
    (en_US "mismatched WHERE" []) a2

/-- The overloads of `CheckName`, by kind of construct. -/
def CheckName (a : ParseTreeAnalyzer) (c : Construct) : ParseTreeAnalyzer :=
  match c.kind with
  | .Associate => CheckName_tag a "ASSOCIATE" c
  | .Critical => CheckName_tag a "CRITICAL" c
  | .Do => CheckName_tag a "DO" c
  | .Forall => CheckName_tag a "FORALL" c
  | .Block => CheckName_Block a c
  | .ChangeTeam => CheckName_ChangeTeam a c
  | .If => CheckName_If a c
  | .Case => CheckName_select a c "CASE" ""
  | .SelectRank => CheckName_select a c "RANK" "RANK "
  | .SelectType => CheckName_select a c "TYPE" "TYPE "
  | .Where => CheckName_Where a c

/-- The name of the opening statement, when there is one, is pushed; then a
new scope is entered. -/
def pushConstructName (a : ParseTreeAnalyzer) (c : Construct) : Option ParseTreeAnalyzer :=
  match c.name with
  | some name => pushSubscope { a with constructNames_ := a.constructNames_ ++ [name] }
  | none => pushSubscope a

/-- The name of the opening statement, when there is one, is pushed; no scope
is entered. -/
def pushConstructNameWithoutBlock (a : ParseTreeAnalyzer) (c : Construct) :
    Option ParseTreeAnalyzer :=
  match c.name with
  | some name => some { a with constructNames_ := a.constructNames_ ++ [name] }
  | none => some a

/-- The call `constructNames_.pop_back()` when the opening statement is named;
there is no result on an empty stack. -/
def popConstructNameIfPresent (a : ParseTreeAnalyzer) (c : Construct) :
    Option ParseTreeAnalyzer :=
  match c.name with
  | some _ =>
    match a.constructNames_ with
    | [] => none
    | _ :: _ => some { a with constructNames_ := a.constructNames_.dropLast }
  | none => some a

/-- Leaving a WHERE or FORALL construct. -/
def popConstructNameWithoutBlock (a : ParseTreeAnalyzer) (c : Construct) :
    Option ParseTreeAnalyzer :=
  popConstructNameIfPresent (CheckName a c) c

/-- Leaving a construct that introduced a scope. -/
def popConstructName (a : ParseTreeAnalyzer) (c : Construct) : Option ParseTreeAnalyzer :=
  match PopScope (CheckName a c) with
  | none => none
  | some a1 => popConstructNameIfPresent a1 c

/-- The visitor entering a construct: WHERE and FORALL constructs introduce no
scope, the others do. -/
def PreConstruct (a : ParseTreeAnalyzer) (c : Construct) : Option ParseTreeAnalyzer :=
  match c.kind with
  | .Where => pushConstructNameWithoutBlock a c
  | .Forall => pushConstructNameWithoutBlock a c
  | _ => pushConstructName a c

/-- The visitor leaving a construct. -/
def PostConstruct (a : ParseTreeAnalyzer) (c : Construct) : Option ParseTreeAnalyzer :=
  match c.kind with
  | .Where => popConstructNameWithoutBlock a c
  | .Forall => popConstructNameWithoutBlock a c
  | _ => popConstructName a c

/-- C1134, C1166: the construct named by a CYCLE or EXIT statement is searched
in the stack of construct names, from the innermost. -/
def CheckLabelContext (a : ParseTreeAnalyzer) (stmtString constructName : String) :
    ParseTreeAnalyzer :=
  if (a.constructNames_.reverse.find? fun name => name == constructName).isNone then
    let said := a.errorHandler_.Say a.currentPosition_
      (err_en_US "%s construct-name '%s' is not in scope"
        [.stringArg stmtString, .stringArg constructName])
    { a with errorHandler_ := said }
  else a

/-- The visitor leaving a CYCLE statement with its optional construct name. -/
def PostCycleStmt (a : ParseTreeAnalyzer) (v : Option String) : ParseTreeAnalyzer :=
  match v with
  | some name => CheckLabelContext a "CYCLE" name
  | none => a

/-- The visitor leaving an EXIT statement with its optional construct name. -/
def PostExitStmt (a : ParseTreeAnalyzer) (v : Option String) : ParseTreeAnalyzer :=
  match v with
  | some name => CheckLabelContext a "EXIT" name
  | none => a

/-! ## The walk: statements that refer to labels -/

/-- The visitor leaving a labelled DO statement. -/
def PostLabelDoStmt (a : ParseTreeAnalyzer) (label : Label) : Option ParseTreeAnalyzer :=
  addLabelReferenceFromDoStmt a label

/-- The visitor leaving a GOTO statement. -/
def PostGotoStmt (a : ParseTreeAnalyzer) (label : Label) : Option ParseTreeAnalyzer :=
  addLabelReference a label

/-- The visitor leaving a computed GOTO statement. -/
def PostComputedGotoStmt (a : ParseTreeAnalyzer) (labels : List Label) :
    Option ParseTreeAnalyzer :=
  addLabelReferences a labels

/-- The visitor leaving an arithmetic IF statement with its three labels. -/
def PostArithmeticIfStmt (a : ParseTreeAnalyzer) (label1 label2 label3 : Label) :
    Option ParseTreeAnalyzer :=
  match addLabelReference a label1 with
  | none => none
  | some a1 =>
    match addLabelReference a1 label2 with
    | none => none
    | some a2 => addLabelReference a2 label3

/-- The visitor leaving an ASSIGN statement. -/
def PostAssignStmt (a : ParseTreeAnalyzer) (label : Label) : Option ParseTreeAnalyzer :=
  addLabelReference a label

/-- The visitor leaving an assigned GOTO statement. -/
def PostAssignedGotoStmt (a : ParseTreeAnalyzer) (labels : List Label) :
    Option ParseTreeAnalyzer :=
  addLabelReferences a labels

/-- The visitor leaving an alternate return specifier. -/
def PostAltReturnSpec (a : ParseTreeAnalyzer) (label : Label) : Option ParseTreeAnalyzer :=
  addLabelReference a label

/-- The visitor leaving an `ERR=` specifier. -/
def PostErrLabel (a : ParseTreeAnalyzer) (label : Label) : Option ParseTreeAnalyzer :=
  addLabelReference a label

/-- The visitor leaving an `END=` specifier. -/
def PostEndLabel (a : ParseTreeAnalyzer) (label : Label) : Option ParseTreeAnalyzer :=
  addLabelReference a label

/-- The visitor leaving an `EOR=` specifier. -/
def PostEorLabel (a : ParseTreeAnalyzer) (label : Label) : Option ParseTreeAnalyzer :=
  addLabelReference a label

/-- The visitor leaving a format specifier: only the label alternative of the
variant records a reference. -/
def PostFormat (a : ParseTreeAnalyzer) (labelPointer : Option Label) :
    Option ParseTreeAnalyzer :=
  match labelPointer with
  | some label => addLabelReferenceToFormatStmt a label
  | none => some a

/-! ## The walk: the events of a program unit -/

/-- The three operations of the visitor on the scope table. -/
inductive ScopeOp where
  | pushSubscope | PopScope | switchToNewScope
deriving DecidableEq, Repr

/-- One operation on the scope table. -/
def ScopeOp.apply (a : ParseTreeAnalyzer) : ScopeOp → Option ParseTreeAnalyzer
  | .pushSubscope => ResolveLabels.pushSubscope a
  | .PopScope => ResolveLabels.PopScope a
  | .switchToNewScope => ResolveLabels.switchToNewScope a

/-- A sequence of operations on the scope table, in order. -/
def runScopeOps : List ScopeOp → ParseTreeAnalyzer → Option ParseTreeAnalyzer
  | [], a => some a
  | op :: rest, a =>
    match op.apply a with
    | none => none
    | some a1 => runScopeOps rest a1

/-- Modelled from the spec: what `Walk` (lib/parser/parse-tree-visitor.h) meets
between `Pre(ProgramUnit)` and `Post(ProgramUnit)`, in the order of the parse
tree, as far as the visitor has an overload for it: the `Pre` and `Post` of a
construct, the `Pre` of an ELSE IF, ELSE, CASE, RANK or TYPE block, the `Pre`
of a statement, and the `Post` of the statements and specifiers that refer to
labels or name a construct. The `Post` overloads for the END statements of
program units only write to the sink and are left out. -/
inductive WalkEvent where
  | enterConstruct (c : Construct)
  | siblingBlock
  | leaveConstruct (c : Construct)
  | statement (s : Statement)
  | labelDo (label : Label)
  | format (labelPointer : Option Label)
  | branch (labels : List Label)
  | cycle (name : Option String)
  | exit (name : Option String)
deriving DecidableEq, Repr

/-- The overload of the visitor that an event calls. -/
def visit (a : ParseTreeAnalyzer) : WalkEvent → Option ParseTreeAnalyzer
  | .enterConstruct c => PreConstruct a c
  | .siblingBlock => switchToNewScope a
  | .leaveConstruct c => PostConstruct a c
  | .statement s => PreStatement a s
  | .labelDo label => PostLabelDoStmt a label
  | .format labelPointer => PostFormat a labelPointer
  | .branch labels => addLabelReferences a labels
  | .cycle name => some (PostCycleStmt a name)
  | .exit name => some (PostExitStmt a name)

/-- Modelled from the spec: `Walk` calls the visitor on the events in the order
of the parse tree. -/
def visitAll : List WalkEvent → ParseTreeAnalyzer → Option ParseTreeAnalyzer
  | [], a => some a
  | event :: rest, a =>
    match visit a event with
    | none => none
    | some a1 => visitAll rest a1

/-- Modelled from the spec: `Walk` on one program unit, that is
`Pre(ProgramUnit)`, the events of the unit, `Post(ProgramUnit)`. -/
def walkUnit (events : List WalkEvent) (a : ParseTreeAnalyzer) : Option ParseTreeAnalyzer :=
  match PushNewScope a with
  | none => none
  | some a1 =>
    match visitAll events a1 with
    | none => none
    | some a2 => PopScope a2

/-! ## Lookups used by the checks -/

/-- The loop of `InInclusiveScope`, bounded by `fuel` iterations: `none` when
the bound is reached or when `scopes[tail]` is out of bounds. -/
def InInclusiveScopeLoop : Nat → List ProxyForScope → ProxyForScope → ProxyForScope →
    Option Bool
  | 0, _, _, _ => none
  | fuel + 1, scopes, tail, head =>
    if tail != head then
      if !HasScope tail then some false
      else
        match scopes[tail]? with
        | none => none
        | some parent => InInclusiveScopeLoop fuel scopes parent head
    else some true

/-- The function `InInclusiveScope`. An iteration that goes on has a `tail`
that is a valid index, not the sentinel and not `head`; a run of more than
`scopes.length` iterations therefore repeats a `tail` and never ends, so this
bound loses no result of the source. -/
def InInclusiveScope (scopes : List ProxyForScope) (tail head : ProxyForScope) :
    Option Bool :=
  InInclusiveScopeLoop (scopes.length + 1) scopes tail head

/-- The indices at which the loop of `InInclusiveScope` evaluates
`scopes[tail]`, in order, within `fuel` iterations. -/
def InInclusiveScopeReads : Nat → List ProxyForScope → ProxyForScope → ProxyForScope →
    List ProxyForScope
  | 0, _, _, _ => []
  | fuel + 1, scopes, tail, head =>
    if tail != head then
      if !HasScope tail then []
      else
        tail :: (match scopes[tail]? with
          | none => []
          | some parent => InInclusiveScopeReads fuel scopes parent head)
    else []

/-- Whether a position starts inside a loop body. -/
def InBody (position : CharBlock) (pair : CharBlock × CharBlock) : Bool :=
  if position.begin ≥ pair.1.begin then
    if position.begin < pair.2.end_ then true else false
  else false

/-- The definition of a label, or a record with the sentinel scope. -/
def GetLabel (labels : TargetStmtMap) (label : Label) : LabeledStatementInfoTuplePOD :=
  match labels.lookup label with
  | none => ⟨0, CharBlock.null, LabeledStmtClassificationSet.empty⟩
  | some info => info

/-! ## The constraint checks -/

/-- The inner loop of `CheckBranchesIntoDoBody`: one branch against every
recorded loop body. -/
def CheckBranchesIntoDoBody_bodies (fromPosition toPosition : CharBlock) :
    IndexList → Messages → Messages
  | [], errorHandler => errorHandler
  | body :: rest, errorHandler =>
    if !InBody fromPosition body && InBody toPosition body then
      CheckBranchesIntoDoBody_bodies fromPosition toPosition rest
        (errorHandler.SayAttach fromPosition
          (en_US "branch into loop body from outside" [])
          body.1 (en_US "the loop branched into" []))
    else CheckBranchesIntoDoBody_bodies fromPosition toPosition rest errorHandler

/-- 11.1.7.3: branches from outside a loop body to a statement inside it. The
scope table is a parameter of the source that the body never reads. -/
def CheckBranchesIntoDoBody : SourceStmtList → TargetStmtMap → List ProxyForScope →
    IndexList → Messages → Messages
  | [], _, _, _, errorHandler => errorHandler
  | branch :: rest, labels, scopes, loopBodies, errorHandler =>
    let branchTarget := GetLabel labels branch.parserLabel
    if HasScope branchTarget.proxyForScope then
      CheckBranchesIntoDoBody rest labels scopes loopBodies
        (CheckBranchesIntoDoBody_bodies branch.parserCharBlock
          branchTarget.parserCharBlock loopBodies errorHandler)
    else CheckBranchesIntoDoBody rest labels scopes loopBodies errorHandler

/-- The inner loop of `CheckDoNesting`: the loop body `v1` against every later
one. -/
def CheckDoNesting_inner (v1 : CharBlock × CharBlock) : IndexList → Messages → Messages
  | [], errorHandler => errorHandler
  | v2 :: rest, errorHandler =>
    if v2.1.begin < v1.2.end_ && v1.2.begin < v2.2.begin then
      CheckDoNesting_inner v1 rest
        (errorHandler.SayAttach v1.1 (err_en_US "DO loop doesn't properly nest" [])
          v2.1 (en_US "DO loop conflicts" []))
    else CheckDoNesting_inner v1 rest errorHandler

/-- Every loop body against every later one. -/
def CheckDoNesting : IndexList → Messages → Messages
  | [], errorHandler => errorHandler
  | v1 :: rest, errorHandler =>
    CheckDoNesting rest (CheckDoNesting_inner v1 rest errorHandler)

/-- The character test `parser::IsDecimalDigit`. -/
def IsDecimalDigit (ch : Char) : Bool := decide ('0' ≤ ch) && decide (ch ≤ '9')

/-- The character test `std::isspace` of the C locale: space, tab, line feed,
vertical tab, form feed, carriage return. -/
def isspace (ch : Char) : Bool :=
  ch.toNat = 32 || (decide (9 ≤ ch.toNat) && decide (ch.toNat ≤ 13))

/-- The loop `for (; i < maxPosition && p(position[i]); ++i)`: the index after
the run of characters satisfying `p` that starts at `i`. -/
def advanceWhile (p : Char → Bool) (text : List Char) (i : Nat) : Nat :=
  i + ((text.drop i).takeWhile p).length

/-- The position with a leading label (digits, then white space) removed. -/
def SkipLabel (position : CharBlock) : CharBlock :=
  let maxPosition := position.size
  if maxPosition != 0 && (position.text.head?.map IsDecimalDigit).getD false then
    let i := advanceWhile isspace position.text
      (advanceWhile IsDecimalDigit position.text 1)
    ⟨position.begin + i, position.text.drop i⟩
  else position

/-- The body of the loop of `CheckLabelDoConstraints` for one DO statement:
the recorded loop bodies and the sink after it. -/
def CheckLabelDoConstraints_stmt (stmt : SourceStatementInfoTuplePOD)
    (labels : TargetStmtMap) (scopes : List ProxyForScope)
    (loopBodies : IndexList) (errorHandler : Messages) : Option (IndexList × Messages) :=
  let label := stmt.parserLabel
  let scope := stmt.proxyForScope
  let position := stmt.parserCharBlock
  let doTarget := GetLabel labels label
  if !HasScope doTarget.proxyForScope then
    some (loopBodies, errorHandler.Say position
      (err_en_US "label '%u' cannot be found" [.unsignedArg (SayLabel label)]))
  else if doTarget.parserCharBlock.begin < position.begin then
    some (loopBodies, errorHandler.Say position
      (err_en_US "label '%u' doesn't lexically follow DO stmt"
        [.unsignedArg (SayLabel label)]))
  else
    match InInclusiveScope scopes scope doTarget.proxyForScope with
    | none => none
    | some inScope =>
      if !inScope then
        some (loopBodies, errorHandler.Say position
          (en_US "label '%u' is not in scope" [.unsignedArg (SayLabel label)]))
      else if !doTarget.labeledStmtClassificationSet.test .Do &&
          !doTarget.labeledStmtClassificationSet.test .CompatibleDo then
        some (loopBodies, errorHandler.Say doTarget.parserCharBlock
          (err_en_US "'%u' invalid DO terminal statement"
            [.unsignedArg (SayLabel label)]))
      else if !doTarget.labeledStmtClassificationSet.test .Do then
        some (loopBodies, errorHandler.Say doTarget.parserCharBlock
          (en_US "'%u' invalid DO terminal statement"
            [.unsignedArg (SayLabel label)]))
      else
        some (loopBodies ++ [(SkipLabel position, doTarget.parserCharBlock)],
          errorHandler)

/-- The first loop of `CheckLabelDoConstraints`, over all DO statements. -/
def CheckLabelDoConstraints_loop : SourceStmtList → TargetStmtMap →
    List ProxyForScope → IndexList → Messages → Option (IndexList × Messages)
  | [], _, _, loopBodies, errorHandler => some (loopBodies, errorHandler)
  | stmt :: rest, labels, scopes, loopBodies, errorHandler =>
    match CheckLabelDoConstraints_stmt stmt labels scopes loopBodies errorHandler with
    | none => none
    | some (loopBodies1, errorHandler1) =>
      CheckLabelDoConstraints_loop rest labels scopes loopBodies1 errorHandler1

/-- The DO-terminator check, then the branches into loop bodies and the
nesting of the loop bodies it recorded. -/
def CheckLabelDoConstraints (dos branches : SourceStmtList) (labels : TargetStmtMap)
    (scopes : List ProxyForScope) (errorHandler : Messages) : Option Messages :=
  match CheckLabelDoConstraints_loop dos labels scopes [] errorHandler with
  | none => none
  | some (loopBodies, errorHandler1) =>
    some (CheckDoNesting loopBodies
      (CheckBranchesIntoDoBody branches labels scopes loopBodies errorHandler1))

/-- 6.2.5: every referenced label is defined and in scope. -/
def CheckScopeConstraints : SourceStmtList → TargetStmtMap → List ProxyForScope →
    Messages → Option Messages
  | [], _, _, errorHandler => some errorHandler
  | stmt :: rest, labels, scopes, errorHandler =>
    let label := stmt.parserLabel
    let scope := stmt.proxyForScope
    let position := stmt.parserCharBlock
    let target := GetLabel labels label
    if !HasScope target.proxyForScope then
      CheckScopeConstraints rest labels scopes (errorHandler.Say position
        (err_en_US "label '%u' was not found" [.unsignedArg (SayLabel label)]))
    else
      match InInclusiveScope scopes scope target.proxyForScope with
      | none => none
      | some inScope =>
        if !inScope then
          CheckScopeConstraints rest labels scopes (errorHandler.Say position
            (en_US "label '%u' is not in scope" [.unsignedArg (SayLabel label)]))
        else CheckScopeConstraints rest labels scopes errorHandler

/-- The classification of the target of every branch. -/
def CheckBranchTargetConstraints : SourceStmtList → TargetStmtMap → Messages → Messages
  | [], _, errorHandler => errorHandler
  | stmt :: rest, labels, errorHandler =>
    let label := stmt.parserLabel
    let branchTarget := GetLabel labels label
    if HasScope branchTarget.proxyForScope then
      if !branchTarget.labeledStmtClassificationSet.test .Branch &&
          !branchTarget.labeledStmtClassificationSet.test .CompatibleBranch then
        CheckBranchTargetConstraints rest labels
          (errorHandler.SayAttach branchTarget.parserCharBlock
            (err_en_US "'%u' not a branch target" [.unsignedArg (SayLabel label)])
            stmt.parserCharBlock
            (en_US "control flow use of '%u'" [.unsignedArg (SayLabel label)]))
      else if !branchTarget.labeledStmtClassificationSet.test .Branch then
        CheckBranchTargetConstraints rest labels
          (errorHandler.SayAttach branchTarget.parserCharBlock
            (en_US "'%u' not a branch target" [.unsignedArg (SayLabel label)])
            stmt.parserCharBlock
            (en_US "control flow use of '%u'" [.unsignedArg (SayLabel label)]))
      else CheckBranchTargetConstraints rest labels errorHandler
    else CheckBranchTargetConstraints rest labels errorHandler

/-- The scope check, then the classification check, over all branches. -/
def CheckBranchConstraints (branches : SourceStmtList) (labels : TargetStmtMap)
    (scopes : List ProxyForScope) (errorHandler : Messages) : Option Messages :=
  match CheckScopeConstraints branches labels scopes errorHandler with
  | none => none
  | some errorHandler1 =>
    some (CheckBranchTargetConstraints branches labels errorHandler1)

/-- The target of every FORMAT reference is a FORMAT statement. -/
def CheckDataXferTargetConstraints : SourceStmtList → TargetStmtMap → Messages → Messages
  | [], _, errorHandler => errorHandler
  | stmt :: rest, labels, errorHandler =>
    let label := stmt.parserLabel
    let ioTarget := GetLabel labels label
    if HasScope ioTarget.proxyForScope then
      if !ioTarget.labeledStmtClassificationSet.test .Format then
        CheckDataXferTargetConstraints rest labels
          (errorHandler.SayAttach ioTarget.parserCharBlock
            (err_en_US "'%u' not a FORMAT" [.unsignedArg (SayLabel label)])
            stmt.parserCharBlock
            (en_US "data transfer use of '%u'" [.unsignedArg (SayLabel label)]))
      else CheckDataXferTargetConstraints rest labels errorHandler
    else CheckDataXferTargetConstraints rest labels errorHandler

/-- The scope check, then the FORMAT check, over all data transfers. -/
def CheckDataTransferConstraints (dataTransfers : SourceStmtList)
    (labels : TargetStmtMap) (scopes : List ProxyForScope) (errorHandler : Messages) :
    Option Messages :=
  match CheckScopeConstraints dataTransfers labels scopes errorHandler with
  | none => none
  | some errorHandler1 =>
    some (CheckDataXferTargetConstraints dataTransfers labels errorHandler1)

/-- The body of the loop of `CheckConstraints`: the checks of one program
unit, in the order of the source. -/
def CheckConstraints_unit (programUnit : UnitAnalysis) (errorHandler : Messages) :
    Option Messages :=
  let dos := programUnit.doStmtSources
  let branches := programUnit.otherStmtSources
  let labels := programUnit.targetStmts
  let scopes := programUnit.scopeModel
  match CheckLabelDoConstraints dos branches labels scopes errorHandler with
  | none => none
  | some errorHandler1 =>
    match CheckBranchConstraints branches labels scopes errorHandler1 with
    | none => none
    | some errorHandler2 =>
      CheckDataTransferConstraints programUnit.formatStmtSources labels scopes
        errorHandler2

/-- The loop of `CheckConstraints` over the program units. -/
def CheckConstraints_loop : List UnitAnalysis → Messages → Option Messages
  | [], errorHandler => some errorHandler
  | programUnit :: rest, errorHandler =>
    match CheckConstraints_unit programUnit errorHandler with
    | none => none
    | some errorHandler1 => CheckConstraints_loop rest errorHandler1

/-- The checks of every program unit; the result is whether the sink holds no
fatal message, together with the sink. -/
def CheckConstraints (parseTreeAnalysis : ParseTreeAnalyzer) : Option (Bool × Messages) :=
  match CheckConstraints_loop parseTreeAnalysis.programUnits_
      parseTreeAnalysis.errorHandler_ with
  | none => none
  | some errorHandler => some (!errorHandler.AnyFatalError, errorHandler)

/-! ## Properties of scope tables used to state the results -/

/-- A scope table as the walk builds it: entry 0 is the sentinel and every
other entry is smaller than its index. -/
def ScopeTableWF (scopes : List ProxyForScope) : Bool :=
  scopes.head? == some 0 &&
    (List.range scopes.length).all (fun i => i == 0 || decide (scopes.getD i 0 < i))

/-- The parent of a scope handle in a table (the sentinel outside it). -/
def parentOf (scopes : List Nat) (scope : Nat) : Nat :=
  scopes.getD scope 0

/-! ## Loop bodies as intervals, in the words of the specification -/

/-- Start of the half-open interval of a loop body: where the DO statement
begins once its label is skipped. -/
def bodyStart (body : CharBlock × CharBlock) : Nat := body.1.begin

/-- End of the half-open interval of a loop body: the end of the terminator. -/
def bodyEnd (body : CharBlock × CharBlock) : Nat := body.2.end_

/-- A position lies inside a loop body, as the specification words it. -/
def PositionInside (position : CharBlock) (body : CharBlock × CharBlock) : Bool :=
  decide (bodyStart body ≤ position.begin ∧ position.begin < bodyEnd body)

/-- Two loop bodies overlap: some position belongs to both intervals. -/
def BodiesOverlap (v1 v2 : CharBlock × CharBlock) : Bool :=
  decide (max (bodyStart v1) (bodyStart v2) < min (bodyEnd v1) (bodyEnd v2))

/-- The first loop body fully contains the second. -/
def BodyContains (v1 v2 : CharBlock × CharBlock) : Bool :=
  decide (bodyStart v1 ≤ bodyStart v2 ∧ bodyEnd v2 ≤ bodyEnd v1)

/-- Two loop bodies overlap but neither fully contains the other. -/
def ImproperlyNested (v1 v2 : CharBlock × CharBlock) : Bool :=
  BodiesOverlap v1 v2 && !BodyContains v1 v2 && !BodyContains v2 v1

/-- The layout assumed of two recorded loop bodies, the first recorded before
the second: the first DO statement starts before the second, and the two
terminator statements are the same statement or do not overlap. -/
def LexicallyOrdered (v1 v2 : CharBlock × CharBlock) : Bool :=
  decide (v1.1.begin < v2.1.begin ∧
    (v1.2 = v2.2 ∨ v1.2.end_ ≤ v2.2.begin ∨ v2.2.end_ ≤ v1.2.begin))

/-- The diagnostic of the nesting check for a pair of loop bodies. -/
def nestingDiagnostic (v1 v2 : CharBlock × CharBlock) : Message :=
  ⟨v1.1, err_en_US "DO loop doesn't properly nest" [],
    some (v2.1, en_US "DO loop conflicts" [])⟩

/-- The nesting diagnostics as the specification words them: one for every
pair of loop bodies (an earlier one with a later one) that overlap without
either containing the other. -/
def specNestingDiagnostics : IndexList → List Message
  | [] => []
  | v1 :: rest =>
    (rest.filter (ImproperlyNested v1)).map (nestingDiagnostic v1) ++
      specNestingDiagnostics rest

/-- The diagnostic of the branch-into-loop check for a branch and a loop
body. -/
def branchIntoBodyDiagnostic (fromPosition : CharBlock)
    (body : CharBlock × CharBlock) : Message :=
  ⟨fromPosition, en_US "branch into loop body from outside" [],
    some (body.1, en_US "the loop branched into" [])⟩

/-- The branch-into-loop diagnostics of one branch as the specification words
them: one for every loop body that has the branch outside and the target
inside. -/
def specBranchIntoBodyDiagnostics (fromPosition toPosition : CharBlock)
    (loopBodies : IndexList) : List Message :=
  (loopBodies.filter fun body =>
    !PositionInside fromPosition body && PositionInside toPosition body).map
    (branchIntoBodyDiagnostic fromPosition)

/-! ## Name checks and sibling scopes, in the words of the specification -/

/-- The diagnostic of the check of the opening name against the closing name,
with the text each kind of construct has in the source. -/
def constructMismatch (position : CharBlock) (c : Construct) : Message :=
  match c.kind with
  | .Associate => ⟨position, err_en_US "%s construct name mismatch" [.stringArg "ASSOCIATE"],
      some (c.source, en_US "mismatched construct" [])⟩
  | .Critical => ⟨position, err_en_US "%s construct name mismatch" [.stringArg "CRITICAL"],
      some (c.source, en_US "mismatched construct" [])⟩
  | .Do => ⟨position, err_en_US "%s construct name mismatch" [.stringArg "DO"],
      some (c.source, en_US "mismatched construct" [])⟩
  | .Forall => ⟨position, err_en_US "%s construct name mismatch" [.stringArg "FORALL"],
      some (c.source, en_US "mismatched construct" [])⟩
  | .Block => ⟨position, err_en_US "BLOCK construct name mismatch" [],
      some (c.source, en_US "mismatched BLOCK" [])⟩
  | .ChangeTeam => ⟨position, err_en_US "CHANGE TEAM construct name mismatch" [],
      some (c.source, en_US "mismatched CHANGE TEAM" [])⟩
  | .If => ⟨position, err_en_US "IF construct name mismatch" [],
      some (c.source, en_US "mismatched IF" [])⟩
  | .Case => ⟨position, err_en_US "SELECT %s construct name mismatch" [.stringArg "CASE"],
      some (c.source, en_US "mismatched %s" [.stringArg "CASE"])⟩
  | .SelectRank => ⟨position,
      err_en_US "SELECT %s construct name mismatch" [.stringArg "RANK"],
      some (c.source, en_US "mismatched %s" [.stringArg "RANK"])⟩
  | .SelectType => ⟨position,
      err_en_US "SELECT %s construct name mismatch" [.stringArg "TYPE"],
      some (c.source, en_US "mismatched %s" [.stringArg "TYPE"])⟩
  | .Where => ⟨position, err_en_US "WHERE construct name mismatch" [],
      some (c.source, en_US "mismatched WHERE" [])⟩

/-- An interior name is accepted when it is absent, or when the construct is
named and the two names are equal. -/
def InteriorNameAccepted (interior outer : Option String) : Bool :=
  decide (interior = none ∨ ∃ x, interior = some x ∧ outer = some x)

/-- The diagnostic for an offending interior statement (ELSE IF, CASE, RANK or
TYPE statement, masked ELSEWHERE), by kind of construct. -/
def partMismatch (position : CharBlock) (c : Construct) : Message :=
  match c.kind with
  | .If => ⟨position, err_en_US "ELSE IF statement name mismatch" [],
      some (c.source, en_US "mismatched IF" [])⟩
  | .Case => ⟨position, err_en_US "%sCASE statement name mismatch" [.stringArg ""],
      some (c.source, en_US "mismatched %s" [.stringArg "CASE"])⟩
  | .SelectRank => ⟨position, err_en_US "%sCASE statement name mismatch" [.stringArg "RANK "],
      some (c.source, en_US "mismatched %s" [.stringArg "RANK"])⟩
  | .SelectType => ⟨position, err_en_US "%sCASE statement name mismatch" [.stringArg "TYPE "],
      some (c.source, en_US "mismatched %s" [.stringArg "TYPE"])⟩
  | _ => ⟨position, err_en_US "ELSEWHERE (<mask>) statement name mismatch" [],
      some (c.source, en_US "mismatched WHERE" [])⟩

/-- The diagnostic for an offending ELSE or ELSEWHERE statement. -/
def lastMismatch (position : CharBlock) (c : Construct) : Message :=
  match c.kind with
  | .If => ⟨position, err_en_US "ELSE statement name mismatch" [],
      some (c.source, en_US "mismatched IF" [])⟩
  | _ => ⟨position, err_en_US "ELSEWHERE statement name mismatch" [],
      some (c.source, en_US "mismatched WHERE" [])⟩

/-- The interior statements of a construct whose names are checked: those of
IF, SELECT CASE, SELECT RANK, SELECT TYPE and WHERE constructs. -/
def checkedParts (c : Construct) : List (Option String) :=
  match c.kind with
  | .If => c.parts
  | .Case => c.parts
  | .SelectRank => c.parts
  | .SelectType => c.parts
  | .Where => c.parts
  | _ => []

/-- The ELSE or ELSEWHERE statement of an IF or WHERE construct, when it has
one. -/
def checkedLast (c : Construct) : Option (Option String) :=
  match c.kind with
  | .If => c.last
  | .Where => c.last
  | _ => none

/-- The interior name diagnostics as the specification words them: one for
every interior statement whose name is not accepted, in order, then one for
the ELSE or ELSEWHERE statement if its name is not accepted. -/
def specInteriorMismatches (position : CharBlock) (c : Construct) : List Message :=
  ((checkedParts c).filter fun part => !InteriorNameAccepted part c.name).map
      (fun _ => partMismatch position c) ++
    match checkedLast c with
    | some part => if InteriorNameAccepted part c.name then [] else [lastMismatch position c]
    | none => []

/-- The number of interior statements whose name is not accepted. -/
def offendingParts (c : Construct) : Nat :=
  (checkedParts c).countP (fun part => !InteriorNameAccepted part c.name) +
    match checkedLast c with
    | some part => if InteriorNameAccepted part c.name then 0 else 1
    | none => 0

/-- The state of the visitor once more diagnostics are said; nothing else
changes. -/
def ParseTreeAnalyzer.saying (a : ParseTreeAnalyzer) (messages : List Message) :
    ParseTreeAnalyzer :=
  { a with errorHandler_ := a.errorHandler_ ++ messages }

/-- The tables of a unit as the walk leaves them: a well-formed scope table,
and every recorded reference in a scope of that table. -/
def UnitTablesValid (programUnit : UnitAnalysis) : Bool :=
  ScopeTableWF programUnit.scopeModel &&
    (programUnit.doStmtSources ++ programUnit.otherStmtSources ++
      programUnit.formatStmtSources).all
      fun stmt => decide (stmt.proxyForScope < programUnit.scopeModel.length)

/-- A run of `k` sibling switches. -/
def switchToNewScopeTimes : Nat → ParseTreeAnalyzer → Option ParseTreeAnalyzer
  | 0, a => some a
  | k + 1, a =>
    match switchToNewScope a with
    | none => none
    | some a1 => switchToNewScopeTimes k a1

/-! ## The walk of a program unit, in the words of the specification -/

/-- The constructs whose blocks are sibling scopes: IF, SELECT CASE, SELECT
RANK and SELECT TYPE. -/
def hasSiblingBlocks : ConstructKind → Bool
  | .If | .Case | .SelectRank | .SelectType => true
  | _ => false

/-- The constructs that introduce a scope: all but WHERE and FORALL. -/
def opensScope (c : Construct) : Bool :=
  match c.kind with
  | .Where | .Forall => false
  | _ => true

/-- The open constructs after one more event, innermost first; `none` when the
event does not fit: leaving a construct that is not the innermost open one, or
a sibling block outside an IF or SELECT construct. -/
def wellNestedStep (stack : List Construct) : WalkEvent → Option (List Construct)
  | .enterConstruct c => some (c :: stack)
  | .leaveConstruct c =>
    match stack with
    | top :: below => if c = top then some below else none
    | [] => none
  | .siblingBlock =>
    match stack with
    | top :: _ => if hasSiblingBlocks top.kind then some stack else none
    | [] => none
  | _ => some stack

/-- A sequence of events is well nested under the open constructs `stack`: each
construct that is left is the innermost open one, sibling blocks occur directly
inside an IF or SELECT construct, and at the end every construct is closed. -/
def wellNested : List Construct → List WalkEvent → Bool
  | stack, [] => stack.isEmpty
  | stack, event :: rest =>
    match wellNestedStep stack event with
    | none => false
    | some stack1 => wellNested stack1 rest

/-- The number of open constructs that introduced a scope. -/
def scopeDepth (stack : List Construct) : Nat := (stack.filter opensScope).length

/-- The names of the open constructs, outermost first. -/
def stackNames (stack : List Construct) : List String :=
  stack.reverse.filterMap fun c => c.name

/-- No definition and no reference of a unit carries the sentinel scope. -/
def UnitScopesNonzero (programUnit : UnitAnalysis) : Bool :=
  programUnit.targetStmts.all (fun definition => HasScope definition.2.proxyForScope) &&
    (programUnit.doStmtSources ++ programUnit.otherStmtSources ++
      programUnit.formatStmtSources).all fun stmt => HasScope stmt.proxyForScope

/-- The state of the visitor inside the last program unit, `stack` being the
open constructs and `unit0` the unit as it was at some earlier point: the
tables of the unit are those the checks terminate on, the scope table of
`unit0` is still the beginning of the scope table, the host scope `H` is
reached from the current scope by leaving the open constructs, the names of
the open constructs are on top of the names `base`, and no record carries the
sentinel scope if `H` is not the sentinel and no record of `unit0` did. -/
def WalkState (init : List UnitAnalysis) (base : List String) (H : Nat) (unit0 : UnitAnalysis)
    (stack : List Construct) (a : ParseTreeAnalyzer) : Prop :=
  ∃ u, a.programUnits_ = init ++ [u] ∧ UnitTablesValid u = true ∧
    unit0.scopeModel <+: u.scopeModel ∧ a.currentScope_ < u.scopeModel.length ∧
    (parentOf u.scopeModel)^[scopeDepth stack] a.currentScope_ = H ∧
    a.constructNames_ = base ++ stackNames stack ∧
    (H ≠ 0 → UnitScopesNonzero unit0 = true → UnitScopesNonzero u = true)

/-- The position of a statement with its leading label digits and the white
space that follows them removed; a statement that does not start with a digit
is left as it is. -/
def stripLeadingLabel (position : CharBlock) : CharBlock :=
  let digits := position.text.takeWhile IsDecimalDigit
  if digits.isEmpty then position
  else
    let afterDigits := position.text.dropWhile IsDecimalDigit
    let blanks := afterDigits.takeWhile isspace
    ⟨position.begin + (digits.length + blanks.length), afterDigits.dropWhile isspace⟩

/-- What the DO-terminator check says for one DO statement on its own. -/
def doReferenceSaid (stmt : SourceStatementInfoTuplePOD) (labels : TargetStmtMap)
    (scopes : List ProxyForScope) : List Message :=
  match CheckLabelDoConstraints_stmt stmt labels scopes [] [] with
  | none => []
  | some r => r.2

/-- The loop body of a DO statement: from the DO statement with its label
removed to its terminator. -/
def doReferenceBody (stmt : SourceStatementInfoTuplePOD) (labels : TargetStmtMap) :
    CharBlock × CharBlock :=
  (stripLeadingLabel stmt.parserCharBlock, (GetLabel labels stmt.parserLabel).parserCharBlock)

/-! ## Sample inputs

The tables of small program units, used to instantiate the results below. -/

/-- Position of `DO 10 I=1,5`, at offset 0. -/
def sampleDoPosition : CharBlock := ⟨0, "DO 10 I=1,5".toList⟩

/-- Position of the statement `10 CONTINUE`, at offset 20. -/
def sampleTargetPosition : CharBlock := ⟨20, "10 CONTINUE".toList⟩

/-- Position of a statement `10 GOTO 20`, at offset 20. -/
def sampleGotoTargetPosition : CharBlock := ⟨20, "10 GOTO 20".toList⟩

/-- Position of a statement `10 X = 1`, at offset 20. -/
def sampleAssignmentPosition : CharBlock := ⟨20, "10 X = 1".toList⟩

/-- Position of a `GOTO 10` statement, at offset 40. -/
def sampleGotoPosition : CharBlock := ⟨40, "GOTO 10".toList⟩

/-- The reference recorded for `DO 10 I=1,5` in scope 1. -/
def sampleDoReference : SourceStatementInfoTuplePOD := ⟨10, 1, sampleDoPosition⟩

/-- The reference recorded for a `DO 10 J=1,3` at offset 40, in scope 1. -/
def sampleLateDoReference : SourceStatementInfoTuplePOD :=
  ⟨10, 1, ⟨40, "DO 10 J=1,3".toList⟩⟩

/-- The reference recorded for `GOTO 10` in scope 1. -/
def sampleGotoReference : SourceStatementInfoTuplePOD := ⟨10, 1, sampleGotoPosition⟩

/-- The record of label 10 defined in scope `scope` at `position` for a
statement of type `kind`. -/
def sampleTarget (scope : ProxyForScope) (position : CharBlock) (kind : StmtType) :
    LabeledStatementInfoTuplePOD :=
  ⟨scope, position, constructBranchTargetFlags ⟨position, some 10, kind⟩⟩

/-- The definition map holding only label 10. -/
def sampleLabels (scope : ProxyForScope) (position : CharBlock) (kind : StmtType) :
    TargetStmtMap :=
  [(10, sampleTarget scope position kind)]

/-- The unit `DO 10 I=1,5 ... 10 CONTINUE`. -/
def sampleDoContinueUnit : UnitAnalysis :=
  ⟨[sampleDoReference], [], [],
    sampleLabels 1 sampleTargetPosition (.ActionStmt .ContinueStmt), [0, 0]⟩

/-- The reference recorded for `WRITE (*, 10) X` at offset 40, in scope 1. -/
def sampleFormatReference : SourceStatementInfoTuplePOD :=
  ⟨10, 1, ⟨40, "WRITE (*, 10) X".toList⟩⟩

/-- Position of a statement `10 FORMAT (I5)`, at offset 20. -/
def sampleFormatPosition : CharBlock := ⟨20, "10 FORMAT (I5)".toList⟩

/-- A block of `size` blanks at offset `start`, standing for a statement. -/
def sampleBlock (start size : Nat) : CharBlock := ⟨start, List.replicate size ' '⟩

/-- Two loop bodies that overlap without nesting: a DO at 0 ended at 40..50
and a DO at 20 ended at 60..70. -/
def sampleCrossingBodies : IndexList :=
  [(sampleBlock 0 10, sampleBlock 40 10), (sampleBlock 20 10, sampleBlock 60 10)]

/-- Two loop bodies properly nested: a DO at 0 ended at 60..70 and a DO at 20
ended at 40..50. -/
def sampleNestedBodies : IndexList :=
  [(sampleBlock 0 10, sampleBlock 60 10), (sampleBlock 20 10, sampleBlock 40 10)]

/-- The loop body recorded for `DO 10 I=1,5 ... 10 CONTINUE`: from offset 0 to
the end of the terminator at offset 31. -/
def sampleLoopBody : CharBlock × CharBlock := (SkipLabel sampleDoPosition, sampleTargetPosition)

/-- The reference recorded for a `GOTO 10` at offset 12, inside the loop. -/
def sampleInnerGotoReference : SourceStatementInfoTuplePOD :=
  ⟨10, 1, ⟨12, "GOTO 10".toList⟩⟩

/-- The visitor in scope 1 of a fresh program unit. -/
def sampleFreshAnalyzer : ParseTreeAnalyzer :=
  ⟨[⟨[], [], [], [], [0, 0]⟩], [], sampleBlock 0 10, 1, []⟩

/-- An IF construct named `X`, closed by `END IF X`, with an unnamed ELSE IF, an
ELSE IF named `Y`, and an ELSE named `Z`. -/
def sampleIfConstruct : Construct :=
  ⟨.If, sampleBlock 0 10, some "X", some "X", [none, some "Y"], some (some "Z")⟩

/-- A WHERE construct named `W`, closed by an unnamed END WHERE. -/
def sampleWhereConstruct : Construct :=
  ⟨.Where, sampleBlock 0 10, some "W", none, [], none⟩

/-- The visitor after a program unit that holds two statements labelled 10:
`10 CONTINUE` at offset 20 and again at offset 60. -/
def sampleDuplicateWalk : Option ParseTreeAnalyzer :=
  (PushNewScope (ParseTreeAnalyzer.new [])).bind fun a1 =>
    (PreStatement a1 ⟨sampleTargetPosition, some 10, .ActionStmt .ContinueStmt⟩).bind fun a2 =>
      PreStatement a2 ⟨⟨60, "10 CONTINUE".toList⟩, some 10, .ActionStmt .ContinueStmt⟩

/-- A unit with `DO 10`, `GOTO 10` and `WRITE (*, 10)`, label 10 being on a
GOTO statement. -/
def sampleMixedUnit : UnitAnalysis :=
  ⟨[sampleDoReference], [sampleFormatReference], [sampleGotoReference],
    sampleLabels 1 sampleGotoTargetPosition (.ActionStmt .GotoStmt), [0, 0]⟩

/-- An analyzer with one program unit, in scope 1 at the `GOTO 10`. -/
def sampleAnalyzer (programUnit : UnitAnalysis) : ParseTreeAnalyzer :=
  ⟨[programUnit], [], sampleGotoPosition, 1, []⟩

/-- Two DO statements in scope 1: `DO 10 I=1,5` at offset 0 and `DO 20 J=1,3`
at offset 12. -/
def sampleTwoDoReferences : SourceStmtList :=
  [sampleDoReference, ⟨20, 1, ⟨12, "DO 20 J=1,3".toList⟩⟩]

/-- Label 10 on `10 CONTINUE` at offset 40 and label 20 on the assignment
`20 X = 1` at offset 60, both in scope 1. -/
def sampleTwoDoLabels : TargetStmtMap :=
  [(10, sampleTarget 1 ⟨40, "10 CONTINUE".toList⟩ (.ActionStmt .ContinueStmt)),
    (20, sampleTarget 1 ⟨60, "20 X = 1".toList⟩ (.ActionStmt (.Other 0)))]

/-- Position of a DO statement that has a label of its own, `20 DO 10 I=1,5`,
at offset 0. -/
def sampleLabelledDoPosition : CharBlock := ⟨0, "20 DO 10 I=1,5".toList⟩

/-- A statement `0 CONTINUE` at offset 20, whose label is out of range. -/
def sampleZeroLabelStatement : Statement :=
  ⟨⟨20, "0 CONTINUE".toList⟩, some 0, .ActionStmt .ContinueStmt⟩

/-- The events of `X: DO`, `X: IF`, `END IF X`, `CYCLE X`, `END DO X`. -/
def sampleShadowedNameEvents : List WalkEvent :=
  [.enterConstruct ⟨.Do, sampleBlock 0 10, some "X", some "X", [], none⟩,
    .enterConstruct ⟨.If, sampleBlock 10 10, some "X", some "X", [], none⟩,
    .leaveConstruct ⟨.If, sampleBlock 10 10, some "X", some "X", [], none⟩,
    .statement ⟨sampleBlock 40 7, none, .ActionStmt .CycleStmt⟩,
    .cycle (some "X"),
    .leaveConstruct ⟨.Do, sampleBlock 0 10, some "X", some "X", [], none⟩]

/-- The events of a unit: `DO 10 I=1,5`, an IF construct with a `GOTO 10` in its
first block and an ELSE block, a `WRITE (*, 10) X`, and `10 CONTINUE`. -/
def sampleUnitEvents : List WalkEvent :=
  [.statement ⟨sampleDoPosition, none, .IndirectionLabelDoStmt⟩,
    .labelDo 10,
    .enterConstruct ⟨.If, sampleBlock 12 4, none, none, [], some none⟩,
    .statement ⟨⟨16, "GOTO 10".toList⟩, none, .ActionStmt .GotoStmt⟩,
    .branch [10],
    .siblingBlock,
    .statement ⟨⟨24, "WRITE (*, 10) X".toList⟩, none, .ActionStmt (.Other 0)⟩,
    .format (some 10),
    .leaveConstruct ⟨.If, sampleBlock 12 4, none, none, [], some none⟩,
    .statement ⟨⟨40, "10 CONTINUE".toList⟩, some 10, .ActionStmt .ContinueStmt⟩]

/-- A DO construct named `X` whose END DO carries the name `Y`. -/
def sampleMisnamedDoConstruct : Construct :=
  ⟨.Do, sampleBlock 0 10, some "X", some "Y", [], none⟩

/-! ## Lemmas on scope tables and lookups -/

theorem ScopeTableWF_zero {scopes : List Nat} (hwf : ScopeTableWF scopes = true) :
    scopes[0]? = some 0 := by
  unfold ScopeTableWF at hwf
  simp only [Bool.and_eq_true, beq_iff_eq] at hwf
  cases scopes with
  | nil => simp at hwf
  | cons x xs => simpa using hwf.1

theorem ScopeTableWF_lt {scopes : List Nat} (hwf : ScopeTableWF scopes = true)
    {i p : Nat} (hi : i ≠ 0) (hp : scopes[i]? = some p) : p < i := by
  unfold ScopeTableWF at hwf
  simp only [Bool.and_eq_true, List.all_eq_true, List.mem_range, Bool.or_eq_true,
    beq_iff_eq, decide_eq_true_eq] at hwf
  have hlen : i < scopes.length := by
    by_contra h
    rw [List.getElem?_eq_none (by omega)] at hp
    cases hp
  have := hwf.2 i hlen
  rcases this with h | h
  · exact absurd h hi
  · simpa [List.getD, hp] using h

theorem parentOf_zero {scopes : List Nat} (hwf : ScopeTableWF scopes = true) :
    parentOf scopes 0 = 0 := by
  simp [parentOf, List.getD, ScopeTableWF_zero hwf]

theorem parentOf_iterate_zero {scopes : List Nat}
    (hwf : ScopeTableWF scopes = true) (k : Nat) : (parentOf scopes)^[k] 0 = 0 := by
  induction k with
  | zero => rfl
  | succ k ih => rw [Function.iterate_succ_apply, parentOf_zero hwf, ih]

theorem InInclusiveScopeLoop_spec {scopes : List Nat}
    (hwf : ScopeTableWF scopes = true) (head : Nat) :
    ∀ (tail fuel : Nat), tail < scopes.length → tail < fuel →
      ∃ b, InInclusiveScopeLoop fuel scopes tail head = some b ∧
        (b = true ↔ ∃ k, (parentOf scopes)^[k] tail = head) := by
  intro tail
  induction tail using Nat.strong_induction_on with
  | _ tail ih =>
    intro fuel hlen hfuel
    obtain ⟨fuel, rfl⟩ : ∃ f, fuel = f + 1 := ⟨fuel - 1, by omega⟩
    unfold InInclusiveScopeLoop
    by_cases hth : tail = head
    · subst hth
      exact ⟨true, by simp, by simp; exact ⟨0, rfl⟩⟩
    · by_cases h0 : tail = 0
      · subst h0
        refine ⟨false, by simp [hth, HasScope], ?_⟩
        simp only [Bool.false_eq_true, false_iff, not_exists]
        intro k
        rw [parentOf_iterate_zero hwf]
        exact hth
      · obtain ⟨p, hget⟩ : ∃ p : Nat, scopes[tail]? = some p :=
          ⟨scopes[tail], List.getElem?_eq_getElem hlen⟩
        have hp : (p : Nat) < tail := ScopeTableWF_lt hwf h0 hget
        obtain ⟨b, hb, hiff⟩ := ih p hp fuel (by omega) (by omega)
        refine ⟨b, by simp [hth, HasScope, h0, hget, hb], ?_⟩
        rw [hiff]
        have hpar : parentOf scopes tail = p := by
          simp [parentOf, List.getD, hget]
        constructor
        · rintro ⟨k, hk⟩
          exact ⟨k + 1, by rw [Function.iterate_succ_apply, hpar]; exact hk⟩
        · rintro ⟨k, hk⟩
          cases k with
          | zero => exact absurd hk hth
          | succ k =>
            rw [Function.iterate_succ_apply, hpar] at hk
            exact ⟨k, hk⟩

theorem parentOf_lt_length {scopes : List Nat} (hwf : ScopeTableWF scopes = true)
    {tail : Nat} (ht : tail < scopes.length) : parentOf scopes tail < scopes.length := by
  by_cases h0 : tail = 0
  · subst h0
    rw [parentOf_zero hwf]; exact ht
  · have hget : scopes[tail]? = some scopes[tail] := List.getElem?_eq_getElem ht
    have hp : (scopes[tail] : Nat) < tail := ScopeTableWF_lt hwf h0 hget
    have : parentOf scopes tail = scopes[tail] := by simp [parentOf, List.getD, hget]
    omega

theorem parentOf_le_pred {scopes : List Nat} (hwf : ScopeTableWF scopes = true)
    {tail : Nat} (ht : tail < scopes.length) : parentOf scopes tail ≤ tail - 1 := by
  by_cases h0 : tail = 0
  · subst h0
    rw [parentOf_zero hwf]
  · have hget : scopes[tail]? = some scopes[tail] := List.getElem?_eq_getElem ht
    have hp : (scopes[tail] : Nat) < tail := ScopeTableWF_lt hwf h0 hget
    have : parentOf scopes tail = scopes[tail] := by simp [parentOf, List.getD, hget]
    omega

theorem parentOf_iterate_le {scopes : List Nat} (hwf : ScopeTableWF scopes = true) :
    ∀ (k tail : Nat), tail < scopes.length → (parentOf scopes)^[k] tail ≤ tail - k := by
  intro k
  induction k with
  | zero => intro tail _; simp
  | succ k ih =>
    intro tail ht
    rw [Function.iterate_succ_apply]
    have h1 := ih (parentOf scopes tail) (parentOf_lt_length hwf ht)
    have h2 := parentOf_le_pred hwf ht
    omega

theorem parentOf_iterate_self {scopes : List Nat} (hwf : ScopeTableWF scopes = true)
    {tail : Nat} (ht : tail < scopes.length) : (parentOf scopes)^[tail] tail = 0 := by
  have := parentOf_iterate_le hwf tail tail ht
  omega

/-- C1, as stated, fails: in the well-formed table of a fresh program unit the
lookup from scope 1 to the sentinel 0 answers true, although the claim wants
false whenever the target is the sentinel. -/
theorem InInclusiveScope_sentinel_counterexample :
    ScopeTableWF [0, 0] = true ∧ InInclusiveScope [0, 0] 1 0 = some true ∧
      ¬ ((0 : ProxyForScope) ≠ 0 ∧ ∃ k, (parentOf [0, 0])^[k] 1 = 0) := by
  refine ⟨by decide, by decide, ?_⟩
  rintro ⟨h, _⟩
  exact h rfl

/-- C1, amended: on a well-formed scope table and for a handle `tail` inside
it, `InInclusiveScope` returns, and it answers true exactly when `head` is
`tail` or is reached by following the parent chain of `tail`; the sentinel 0
ends every chain, so the answer for `head = 0` is true for every `tail`. -/
theorem InInclusiveScope_iff_chain (scopes : List ProxyForScope)
    (tail head : ProxyForScope) (hwf : ScopeTableWF scopes = true)
    (htail : tail < scopes.length) :
    (∃ b, InInclusiveScope scopes tail head = some b) ∧
    (InInclusiveScope scopes tail head = some true ↔
      ∃ k, (parentOf scopes)^[k] tail = head) ∧
    InInclusiveScope scopes tail 0 = some true := by
  have key : ∀ h : ProxyForScope, ∃ b, InInclusiveScope scopes tail h = some b ∧
      (b = true ↔ ∃ k, (parentOf scopes)^[k] tail = h) := fun h =>
    InInclusiveScopeLoop_spec hwf h tail (scopes.length + 1) htail (Nat.lt_succ_of_lt htail)
  obtain ⟨b, hb, hiff⟩ := key head
  refine ⟨⟨b, hb⟩, ?_, ?_⟩
  · rw [hb, ← hiff]; simp
  · obtain ⟨b0, hb0, hiff0⟩ := key 0
    have : b0 = true := hiff0.2 ⟨tail, parentOf_iterate_self hwf htail⟩
    rw [hb0, this]

/-- Witness for C1: the table of a unit with two sibling scopes under scope 1. -/
theorem InInclusiveScope_iff_chain_witness :
    (∃ b, InInclusiveScope [0, 0, 1, 1] 3 1 = some b) ∧
    (InInclusiveScope [0, 0, 1, 1] 3 1 = some true ↔
      ∃ k, (parentOf [0, 0, 1, 1])^[k] 3 = 1) ∧
    InInclusiveScope [0, 0, 1, 1] 3 0 = some true :=
  InInclusiveScope_iff_chain [0, 0, 1, 1] 3 1 (by decide) (by decide)

theorem CheckBranchesIntoDoBody_nil_bodies (branches : SourceStmtList)
    (labels : TargetStmtMap) (scopes : List ProxyForScope) (errorHandler : Messages) :
    CheckBranchesIntoDoBody branches labels scopes [] errorHandler = errorHandler := by
  induction branches with
  | nil => rfl
  | cons b rest ih =>
    unfold CheckBranchesIntoDoBody
    simp only [CheckBranchesIntoDoBody_bodies, ih, ite_self]

theorem GetLabel_of_lookup {labels : TargetStmtMap} {label : Label}
    {info : LabeledStatementInfoTuplePOD} (h : labels.lookup label = some info) :
    GetLabel labels label = info := by
  simp [GetLabel, h]

theorem GetLabel_of_lookup_none {labels : TargetStmtMap} {label : Label}
    (h : labels.lookup label = none) :
    GetLabel labels label = ⟨0, CharBlock.null, LabeledStmtClassificationSet.empty⟩ := by
  simp [GetLabel, h]

/-- C2: a program unit whose only label reference is the DO-terminator
reference of `DO L ... L CONTINUE` (the label defined not before the DO, in a
scope the DO is in inclusive scope of, classified as a CONTINUE statement,
which is both a DO terminator and a branch target) adds no diagnostic at all,
and `CheckConstraints` returns true when the sink held no fatal message. -/
theorem CheckConstraints_do_continue_silent (a : ParseTreeAnalyzer)
    (programUnit : UnitAnalysis) (rest : List UnitAnalysis) (errorHandler : Messages)
    (L : Label) (s : ProxyForScope) (p : CharBlock)
    (target : LabeledStatementInfoTuplePOD) (stmt : Statement)
    (hdos : programUnit.doStmtSources = [⟨L, s, p⟩])
    (hformats : programUnit.formatStmtSources = [])
    (hothers : programUnit.otherStmtSources = [])
    (hdef : programUnit.targetStmts.lookup L = some target)
    (hscope : HasScope target.proxyForScope = true)
    (hpos : ¬ target.parserCharBlock.begin < p.begin)
    (hin : InInclusiveScope programUnit.scopeModel s target.proxyForScope = some true)
    (hstmt : stmt.statement = .ActionStmt .ContinueStmt)
    (hflags : target.labeledStmtClassificationSet = constructBranchTargetFlags stmt)
    (hunits : a.programUnits_ = [programUnit]) :
    (constructBranchTargetFlags stmt).test .Do = true ∧
    (constructBranchTargetFlags stmt).test .Branch = true ∧
    CheckConstraints_unit programUnit errorHandler = some errorHandler ∧
    CheckConstraints_loop (programUnit :: rest) errorHandler =
      CheckConstraints_loop rest errorHandler ∧
    CheckConstraints a = some (!a.errorHandler_.AnyFatalError, a.errorHandler_) ∧
    (a.errorHandler_.AnyFatalError = false → CheckConstraints a = some (true, a.errorHandler_)) := by
  have hDo : (constructBranchTargetFlags stmt).test .Do = true := by
    simp [constructBranchTargetFlags, hstmt, IsLegalDoTerm, IsLegalBranchTarget, IsFormat,
      LabeledStmtClassificationSet.set, LabeledStmtClassificationSet.test,
      LabeledStmtClassificationSet.empty]
  have hBr : (constructBranchTargetFlags stmt).test .Branch = true := by
    simp [constructBranchTargetFlags, hstmt, IsLegalDoTerm, IsLegalBranchTarget, IsFormat,
      LabeledStmtClassificationSet.set, LabeledStmtClassificationSet.test,
      LabeledStmtClassificationSet.empty]
  have hunit : ∀ eh : Messages, CheckConstraints_unit programUnit eh = some eh := by
    intro eh
    simp [CheckConstraints_unit, hdos, hformats, hothers, CheckLabelDoConstraints,
      CheckLabelDoConstraints_loop, CheckLabelDoConstraints_stmt, GetLabel_of_lookup hdef,
      hscope, hpos, hin, hflags, hDo, CheckBranchesIntoDoBody, CheckDoNesting,
      CheckDoNesting_inner, CheckBranchConstraints, CheckScopeConstraints,
      CheckBranchTargetConstraints, CheckDataTransferConstraints,
      CheckDataXferTargetConstraints]
  have hall : CheckConstraints a = some (!a.errorHandler_.AnyFatalError, a.errorHandler_) := by
    simp [CheckConstraints, hunits, CheckConstraints_loop, hunit]
  refine ⟨hDo, hBr, hunit errorHandler, ?_, hall, ?_⟩
  · simp [CheckConstraints_loop, hunit]
  · intro h
    rw [hall, h]; rfl

/-- Witness for C2: the unit `DO 10 I=1,5 ... 10 CONTINUE`. -/
theorem CheckConstraints_do_continue_silent_witness :
    CheckConstraints_unit sampleDoContinueUnit [] = some [] ∧
    CheckConstraints (sampleAnalyzer sampleDoContinueUnit) = some (true, []) :=
  have h := CheckConstraints_do_continue_silent (sampleAnalyzer sampleDoContinueUnit)
    sampleDoContinueUnit [] [] 10 1 sampleDoPosition
    (sampleTarget 1 sampleTargetPosition (.ActionStmt .ContinueStmt))
    ⟨sampleTargetPosition, some 10, .ActionStmt .ContinueStmt⟩
    rfl rfl rfl (by decide) (by decide) (by decide) (by decide) rfl rfl rfl
  ⟨h.2.2.1, h.2.2.2.2.2 (by decide)⟩

/-! ## Lemmas on the label collector -/

@[simp] theorem CheckLabelInRange_programUnits (a : ParseTreeAnalyzer) (label : Label) :
    (CheckLabelInRange a label).programUnits_ = a.programUnits_ := by
  unfold CheckLabelInRange; split <;> rfl

@[simp] theorem CheckLabelInRange_currentScope (a : ParseTreeAnalyzer) (label : Label) :
    (CheckLabelInRange a label).currentScope_ = a.currentScope_ := by
  unfold CheckLabelInRange; split <;> rfl

@[simp] theorem CheckLabelInRange_currentPosition (a : ParseTreeAnalyzer) (label : Label) :
    (CheckLabelInRange a label).currentPosition_ = a.currentPosition_ := by
  unfold CheckLabelInRange; split <;> rfl

@[simp] theorem CheckLabelInRange_constructNames (a : ParseTreeAnalyzer) (label : Label) :
    (CheckLabelInRange a label).constructNames_ = a.constructNames_ := by
  unfold CheckLabelInRange; split <;> rfl

theorem CheckLabelInRange_errorHandler (a : ParseTreeAnalyzer) (label : Label) :
    (CheckLabelInRange a label).errorHandler_ = a.errorHandler_ ++
      (if label < 1 ∨ 99999 < label then
        [⟨a.currentPosition_,
          err_en_US "label '%u' is out of range" [.unsignedArg (SayLabel label)], none⟩]
      else []) := by
  unfold CheckLabelInRange
  simp only [Bool.or_eq_true, decide_eq_true_eq]
  split <;> simp [Messages.Say]

theorem modifyBack_of_getLast {units : List UnitAnalysis} {programUnit : UnitAnalysis}
    (f : UnitAnalysis → UnitAnalysis) (h : units.getLast? = some programUnit) :
    modifyBack f units = some (units.dropLast ++ [f programUnit]) := by
  simp [modifyBack, h]

theorem addLabelReference_of_getLast {a : ParseTreeAnalyzer} {programUnit : UnitAnalysis}
    (label : Label) (h : a.programUnits_.getLast? = some programUnit) :
    addLabelReference a label = some
      { CheckLabelInRange a label with programUnits_ := a.programUnits_.dropLast ++
          [{ programUnit with otherStmtSources := programUnit.otherStmtSources ++
            [⟨label, a.currentScope_, a.currentPosition_⟩] }] } := by
  simp [addLabelReference, modifyBack, h]

theorem addLabelReferenceFromDoStmt_of_getLast {a : ParseTreeAnalyzer}
    {programUnit : UnitAnalysis} (label : Label)
    (h : a.programUnits_.getLast? = some programUnit) :
    addLabelReferenceFromDoStmt a label = some
      { CheckLabelInRange a label with programUnits_ := a.programUnits_.dropLast ++
          [{ programUnit with doStmtSources := programUnit.doStmtSources ++
            [⟨label, a.currentScope_, a.currentPosition_⟩] }] } := by
  simp [addLabelReferenceFromDoStmt, modifyBack, h]

theorem addLabelReferenceToFormatStmt_of_getLast {a : ParseTreeAnalyzer}
    {programUnit : UnitAnalysis} (label : Label)
    (h : a.programUnits_.getLast? = some programUnit) :
    addLabelReferenceToFormatStmt a label = some
      { CheckLabelInRange a label with programUnits_ := a.programUnits_.dropLast ++
          [{ programUnit with formatStmtSources := programUnit.formatStmtSources ++
            [⟨label, a.currentScope_, a.currentPosition_⟩] }] } := by
  simp [addLabelReferenceToFormatStmt, modifyBack, h]

theorem addTargetLabelDefinition_of_getLast {a : ParseTreeAnalyzer}
    {programUnit : UnitAnalysis} (label : Label) (flags : LabeledStmtClassificationSet)
    (h : a.programUnits_.getLast? = some programUnit) :
    addTargetLabelDefinition a label flags = some
      { CheckLabelInRange a label with
        programUnits_ := a.programUnits_.dropLast ++
          [{ programUnit with targetStmts :=
            (programUnit.targetStmts.emplace label
              ⟨a.currentScope_, a.currentPosition_, flags⟩).1 }]
        errorHandler_ := (CheckLabelInRange a label).errorHandler_ ++
          (if (programUnit.targetStmts.lookup label).isSome then
            [⟨a.currentPosition_,
              err_en_US "label '%u' is not distinct" [.unsignedArg (SayLabel label)], none⟩]
          else []) } := by
  unfold addTargetLabelDefinition
  simp only [CheckLabelInRange_programUnits, h, CheckLabelInRange_currentScope,
    CheckLabelInRange_currentPosition]
  cases hl : programUnit.targetStmts.lookup label with
  | none => simp [TargetStmtMap.emplace, hl]
  | some info => simp [TargetStmtMap.emplace, hl, Messages.Say]

theorem addLabelReference_of_getLast_none {a : ParseTreeAnalyzer} (label : Label)
    (h : a.programUnits_.getLast? = none) : addLabelReference a label = none := by
  simp [addLabelReference, modifyBack, h]

theorem addTargetLabelDefinition_of_getLast_none {a : ParseTreeAnalyzer} (label : Label)
    (flags : LabeledStmtClassificationSet)
    (h : a.programUnits_.getLast? = none) : addTargetLabelDefinition a label flags = none := by
  simp [addTargetLabelDefinition, h]

/-- Recording a reference and a definition of the same label in either order
builds the same tables. -/
theorem collect_order (a : ParseTreeAnalyzer) (label : Label) (flags : LabeledStmtClassificationSet)
        (refScope defScope : ProxyForScope) (refPosition defPosition : CharBlock) :
      ((addLabelReference
          { a with currentScope_ := refScope, currentPosition_ := refPosition }
          label).bind fun a1 =>
        addTargetLabelDefinition
          { a1 with currentScope_ := defScope, currentPosition_ := defPosition }
          label flags).map ParseTreeAnalyzer.programUnits_ =
      ((addTargetLabelDefinition
          { a with currentScope_ := defScope, currentPosition_ := defPosition }
          label flags).bind fun a1 =>
        addLabelReference
          { a1 with currentScope_ := refScope, currentPosition_ := refPosition }
          label).map ParseTreeAnalyzer.programUnits_ := by
  cases h : a.programUnits_.getLast? with
  | none =>
    rw [addLabelReference_of_getLast_none label (by simpa using h),
      addTargetLabelDefinition_of_getLast_none label flags (by simpa using h)]
    rfl
  | some programUnit =>
    rw [@addLabelReference_of_getLast _ programUnit label (by simpa using h),
      @addTargetLabelDefinition_of_getLast _ programUnit label flags (by simpa using h)]
    simp only [Option.some_bind]
    rw [addTargetLabelDefinition_of_getLast label flags (List.getLast?_concat _),
      addLabelReference_of_getLast label (List.getLast?_concat _)]
    simp

/-! ## The constraint checks on single references -/

/-- C3: a generic control-transfer reference whose label has no definition in
the unit gets exactly one diagnostic, from the scope check: it is fatal and
located at the reference. The branch-into-loop check and the check of the
classification of the target say nothing for it, so a unit holding only this
reference ends with that single diagnostic. -/
theorem undefined_branch_label_one_fatal (stmt : SourceStatementInfoTuplePOD)
    (rest : SourceStmtList) (labels : TargetStmtMap) (scopes : List ProxyForScope)
    (loopBodies : IndexList) (errorHandler : Messages)
    (hundef : labels.lookup stmt.parserLabel = none) :
    let msg : Message := ⟨stmt.parserCharBlock,
      err_en_US "label '%u' was not found" [.unsignedArg (SayLabel stmt.parserLabel)], none⟩
    CheckScopeConstraints (stmt :: rest) labels scopes errorHandler =
      CheckScopeConstraints rest labels scopes (errorHandler ++ [msg]) ∧
    msg.IsFatal = true ∧ msg.location = stmt.parserCharBlock ∧
    CheckBranchesIntoDoBody (stmt :: rest) labels scopes loopBodies errorHandler =
      CheckBranchesIntoDoBody rest labels scopes loopBodies errorHandler ∧
    CheckBranchTargetConstraints (stmt :: rest) labels errorHandler =
      CheckBranchTargetConstraints rest labels errorHandler ∧
    CheckConstraints_unit ⟨[], [], [stmt], labels, scopes⟩ errorHandler =
      some (errorHandler ++ [msg]) := by
  intro msg
  have hget := GetLabel_of_lookup_none hundef
  have hscope : CheckScopeConstraints (stmt :: rest) labels scopes errorHandler =
      CheckScopeConstraints rest labels scopes (errorHandler ++ [msg]) := by
    simp [CheckScopeConstraints, hget, HasScope, Messages.Say, msg]
  have hinto : ∀ bodies eh, CheckBranchesIntoDoBody (stmt :: rest) labels scopes bodies eh =
      CheckBranchesIntoDoBody rest labels scopes bodies eh := by
    intro bodies eh
    simp [CheckBranchesIntoDoBody, hget, HasScope]
  have htarget : ∀ eh, CheckBranchTargetConstraints (stmt :: rest) labels eh =
      CheckBranchTargetConstraints rest labels eh := by
    intro eh
    simp [CheckBranchTargetConstraints, hget, HasScope]
  refine ⟨hscope, rfl, rfl, hinto loopBodies errorHandler, htarget errorHandler, ?_⟩
  simp [CheckConstraints_unit, CheckLabelDoConstraints, CheckLabelDoConstraints_loop,
    CheckDoNesting, CheckBranchConstraints, CheckDataTransferConstraints,
    CheckDataXferTargetConstraints, hinto, htarget, hget, HasScope, Messages.Say, msg,
    CheckScopeConstraints, CheckBranchTargetConstraints, CheckBranchesIntoDoBody]

/-- Witness for C3: `GOTO 10` in a unit without any labelled statement. -/
theorem undefined_branch_label_one_fatal_witness :
    CheckConstraints_unit ⟨[], [], [sampleGotoReference], [], [0, 0]⟩ [] =
      some [⟨sampleGotoPosition,
        err_en_US "label '%u' was not found" [.unsignedArg 10], none⟩] :=
  (undefined_branch_label_one_fatal sampleGotoReference [] [] [0, 0] [] [] rfl).2.2.2.2.2

/-- C4: a generic reference whose label is defined in the scope of the reference
or in an ancestor of it, with the Branch flag, gets no diagnostic from the
scope check nor from the check of the target, wherever the two statements lie
(no condition on the positions); and recording the reference before or after
the definition during the walk builds the same tables. -/
theorem forward_reference_resolves (stmt : SourceStatementInfoTuplePOD)
    (rest : SourceStmtList) (labels : TargetStmtMap) (scopes : List ProxyForScope)
    (errorHandler : Messages) (target : LabeledStatementInfoTuplePOD)
    (hdef : labels.lookup stmt.parserLabel = some target)
    (hscope : HasScope target.proxyForScope = true)
    (hin : InInclusiveScope scopes stmt.proxyForScope target.proxyForScope = some true)
    (hbranch : target.labeledStmtClassificationSet.test .Branch = true) :
    CheckScopeConstraints (stmt :: rest) labels scopes errorHandler =
      CheckScopeConstraints rest labels scopes errorHandler ∧
    CheckBranchTargetConstraints (stmt :: rest) labels errorHandler =
      CheckBranchTargetConstraints rest labels errorHandler ∧
    CheckBranchConstraints (stmt :: rest) labels scopes errorHandler =
      CheckBranchConstraints rest labels scopes errorHandler ∧
    CheckBranchConstraints [stmt] labels scopes errorHandler = some errorHandler ∧
    (∀ (a : ParseTreeAnalyzer) (flags : LabeledStmtClassificationSet)
        (refScope defScope : ProxyForScope) (refPosition defPosition : CharBlock),
      ((addLabelReference
          { a with currentScope_ := refScope, currentPosition_ := refPosition }
          stmt.parserLabel).bind fun a1 =>
        addTargetLabelDefinition
          { a1 with currentScope_ := defScope, currentPosition_ := defPosition }
          stmt.parserLabel flags).map ParseTreeAnalyzer.programUnits_ =
      ((addTargetLabelDefinition
          { a with currentScope_ := defScope, currentPosition_ := defPosition }
          stmt.parserLabel flags).bind fun a1 =>
        addLabelReference
          { a1 with currentScope_ := refScope, currentPosition_ := refPosition }
          stmt.parserLabel).map ParseTreeAnalyzer.programUnits_) := by
  have hget := GetLabel_of_lookup hdef
  have h1 : ∀ rest eh, CheckScopeConstraints (stmt :: rest) labels scopes eh =
      CheckScopeConstraints rest labels scopes eh := by
    intro rest eh
    simp [CheckScopeConstraints, hget, hscope, hin]
  have h2 : ∀ rest eh, CheckBranchTargetConstraints (stmt :: rest) labels eh =
      CheckBranchTargetConstraints rest labels eh := by
    intro rest eh
    simp [CheckBranchTargetConstraints, hget, hscope, hbranch]
  refine ⟨h1 _ _, h2 _ _, ?_, ?_, ?_⟩
  · simp [CheckBranchConstraints, h1, h2]
  · simp only [CheckBranchConstraints, h1, h2]
    rfl
  · intro a flags refScope defScope refPosition defPosition
    exact collect_order a stmt.parserLabel flags refScope defScope refPosition defPosition

/-- Witness for C4: `GOTO 10` at offset 40 towards `10 CONTINUE` at offset 20,
and the same with the two positions exchanged. -/
theorem forward_reference_resolves_witness :
    CheckBranchConstraints [sampleGotoReference]
      (sampleLabels 1 sampleTargetPosition (.ActionStmt .ContinueStmt)) [0, 0] [] = some [] ∧
    CheckBranchConstraints [⟨10, 1, sampleTargetPosition⟩]
      (sampleLabels 1 sampleGotoPosition (.ActionStmt .ContinueStmt)) [0, 0] [] = some [] :=
  ⟨(forward_reference_resolves sampleGotoReference []
      (sampleLabels 1 sampleTargetPosition (.ActionStmt .ContinueStmt)) [0, 0] []
      (sampleTarget 1 sampleTargetPosition (.ActionStmt .ContinueStmt))
      (by decide) (by decide) (by decide) (by decide)).2.2.2.1,
   (forward_reference_resolves ⟨10, 1, sampleTargetPosition⟩ []
      (sampleLabels 1 sampleGotoPosition (.ActionStmt .ContinueStmt)) [0, 0] []
      (sampleTarget 1 sampleGotoPosition (.ActionStmt .ContinueStmt))
      (by decide) (by decide) (by decide) (by decide)).2.2.2.1⟩

/-! ## The label collector: duplicates and range -/

theorem lookup_append_of_none {labels : TargetStmtMap} {label : Label}
    (info : LabeledStatementInfoTuplePOD) (h : labels.lookup label = none) :
    (labels ++ [(label, info)]).lookup label = some info := by
  induction labels with
  | nil => simp [List.lookup]
  | cons entry rest ih =>
    obtain ⟨k, v⟩ := entry
    by_cases hk : label = k
    · subst hk
      simp [List.lookup] at h
    · have hne : (label == k) = false := by simpa using hk
      simp only [List.cons_append, List.lookup, hne] at h ⊢
      exact ih h

/-- C5: a second definition of a label already in the map of the current unit
is rejected: one fatal "not distinct" diagnostic is said, the tables are left
as they were, and the label still resolves to its first definition. When the
label is absent the definition is inserted, with the current scope, position
and the given classification, and no "not distinct" diagnostic is said (only
the range diagnostic, if the label is out of range). -/
theorem addTargetLabelDefinition_first_wins (a : ParseTreeAnalyzer)
    (programUnit : UnitAnalysis) (N : Label) (flags : LabeledStmtClassificationSet)
    (hunit : a.programUnits_.getLast? = some programUnit) :
    let range : List Message := if N < 1 ∨ 99999 < N then
      [⟨a.currentPosition_,
        err_en_US "label '%u' is out of range" [.unsignedArg (SayLabel N)], none⟩] else []
    let notDistinct : Message := ⟨a.currentPosition_,
      err_en_US "label '%u' is not distinct" [.unsignedArg (SayLabel N)], none⟩
    let inserted : LabeledStatementInfoTuplePOD :=
      ⟨a.currentScope_, a.currentPosition_, flags⟩
    (∀ first, programUnit.targetStmts.lookup N = some first →
      ∃ a1, addTargetLabelDefinition a N flags = some a1 ∧
        a1.programUnits_ = a.programUnits_ ∧
        a1.errorHandler_ = a.errorHandler_ ++ range ++ [notDistinct] ∧
        notDistinct.IsFatal = true ∧
        a1.programUnits_.getLast? = some programUnit ∧
        GetLabel programUnit.targetStmts N = first) ∧
    (programUnit.targetStmts.lookup N = none →
      ∃ a1, addTargetLabelDefinition a N flags = some a1 ∧
        a1.programUnits_ = a.programUnits_.dropLast ++
          [{ programUnit with targetStmts := programUnit.targetStmts ++ [(N, inserted)] }] ∧
        a1.errorHandler_ = a.errorHandler_ ++ range ∧
        GetLabel (programUnit.targetStmts ++ [(N, inserted)]) N = inserted) := by
  intro range notDistinct inserted
  have hop := addTargetLabelDefinition_of_getLast N flags hunit
  have hrange := CheckLabelInRange_errorHandler a N
  constructor
  · intro first hfirst
    refine ⟨_, hop, ?_, ?_, rfl, ?_, GetLabel_of_lookup hfirst⟩
    · simp only [TargetStmtMap.emplace, hfirst]
      exact List.dropLast_append_getLast? programUnit hunit
    · simp only [hrange, hfirst, Option.isSome_some, if_true]
    · simp only [TargetStmtMap.emplace, hfirst]
      rw [List.dropLast_append_getLast? programUnit hunit]
      exact hunit
  · intro hnone
    refine ⟨_, hop, ?_, ?_, GetLabel_of_lookup (lookup_append_of_none inserted hnone)⟩
    · simp only [TargetStmtMap.emplace, hnone]
    · simp only [hrange, hnone, Option.isSome_none, Bool.false_eq_true, if_false,
        List.append_nil]

/-- Witness for C5: in the unit `DO 10 I=1,5 ... 10 CONTINUE` a second
definition of label 10 is rejected, and a definition of label 20 is added. -/
theorem addTargetLabelDefinition_first_wins_witness :
    (∃ a1, addTargetLabelDefinition (sampleAnalyzer sampleDoContinueUnit) 10
        LabeledStmtClassificationSet.empty = some a1 ∧
      a1.programUnits_ = [sampleDoContinueUnit] ∧
      a1.errorHandler_ = [⟨sampleGotoPosition,
        err_en_US "label '%u' is not distinct" [.unsignedArg 10], none⟩]) ∧
    (∃ a1, addTargetLabelDefinition (sampleAnalyzer sampleDoContinueUnit) 20
        LabeledStmtClassificationSet.empty = some a1 ∧
      a1.errorHandler_ = []) := by
  have h := addTargetLabelDefinition_first_wins (sampleAnalyzer sampleDoContinueUnit)
    sampleDoContinueUnit
  constructor
  · obtain ⟨a1, h1, h2, h3, _⟩ := (h 10 LabeledStmtClassificationSet.empty rfl).1
      (sampleTarget 1 sampleTargetPosition (.ActionStmt .ContinueStmt)) (by decide)
    exact ⟨a1, h1, h2, h3⟩
  · obtain ⟨a1, h1, _, h3, _⟩ := (h 20 LabeledStmtClassificationSet.empty rfl).2 (by decide)
    exact ⟨a1, h1, h3⟩

/-- C6: recording a definition of the label `v`, or a reference to it of any
of the three kinds, says the fatal "out of range" diagnostic exactly when
`v < 1` or `v > 99999`; a definition may also say "not distinct", nothing else
is said. The labels 1 and 99999 are accepted, 0 and 100000 are rejected. -/
theorem label_range_diagnosed (a : ParseTreeAnalyzer) (programUnit : UnitAnalysis)
    (v : Label) (flags : LabeledStmtClassificationSet)
    (hunit : a.programUnits_.getLast? = some programUnit) :
    let outOfRange : Label → Message := fun label => ⟨a.currentPosition_,
      err_en_US "label '%u' is out of range" [.unsignedArg (SayLabel label)], none⟩
    let range : List Message := if v < 1 ∨ 99999 < v then [outOfRange v] else []
    (∃ a1, addLabelReferenceFromDoStmt a v = some a1 ∧
      a1.errorHandler_ = a.errorHandler_ ++ range) ∧
    (∃ a1, addLabelReferenceToFormatStmt a v = some a1 ∧
      a1.errorHandler_ = a.errorHandler_ ++ range) ∧
    (∃ a1, addLabelReference a v = some a1 ∧
      a1.errorHandler_ = a.errorHandler_ ++ range) ∧
    (∃ a1, addTargetLabelDefinition a v flags = some a1 ∧
      a1.errorHandler_ = a.errorHandler_ ++ range ++
        (if (programUnit.targetStmts.lookup v).isSome then
          [⟨a.currentPosition_,
            err_en_US "label '%u' is not distinct" [.unsignedArg (SayLabel v)], none⟩]
        else [])) ∧
    (outOfRange v).IsFatal = true ∧
    (CheckLabelInRange a 1).errorHandler_ = a.errorHandler_ ∧
    (CheckLabelInRange a 99999).errorHandler_ = a.errorHandler_ ∧
    (CheckLabelInRange a 0).errorHandler_ = a.errorHandler_ ++ [outOfRange 0] ∧
    (CheckLabelInRange a 100000).errorHandler_ = a.errorHandler_ ++ [outOfRange 100000] := by
  intro outOfRange range
  have hrange := CheckLabelInRange_errorHandler a v
  refine ⟨⟨_, addLabelReferenceFromDoStmt_of_getLast v hunit, hrange⟩,
    ⟨_, addLabelReferenceToFormatStmt_of_getLast v hunit, hrange⟩,
    ⟨_, addLabelReference_of_getLast v hunit, hrange⟩,
    ⟨_, addTargetLabelDefinition_of_getLast v flags hunit, ?_⟩, rfl, ?_, ?_, ?_, ?_⟩
  · simp only [hrange]
  · simp [CheckLabelInRange_errorHandler]
  · simp [CheckLabelInRange_errorHandler]
  · simp [CheckLabelInRange_errorHandler, outOfRange]
  · simp [CheckLabelInRange_errorHandler, outOfRange]

/-- Witness for C6: a `GOTO 100000` in the sample unit. -/
theorem label_range_diagnosed_witness :
    ∃ a1, addLabelReference (sampleAnalyzer sampleDoContinueUnit) 100000 = some a1 ∧
      a1.errorHandler_ = [⟨sampleGotoPosition,
        err_en_US "label '%u' is out of range" [.unsignedArg 100000], none⟩] :=
  (label_range_diagnosed (sampleAnalyzer sampleDoContinueUnit) sampleDoContinueUnit 100000
    LabeledStmtClassificationSet.empty rfl).2.2.1

/-! ## The DO-terminator check on a single DO statement -/

/-- A DO statement that records no loop body and says `msg` is all that
`CheckLabelDoConstraints` says for a unit holding only that DO statement,
whatever its branches are. -/
theorem CheckLabelDoConstraints_single_of_stmt {stmt : SourceStatementInfoTuplePOD}
    {labels : TargetStmtMap} {scopes : List ProxyForScope} {errorHandler said : Messages}
    (branches : SourceStmtList)
    (h : CheckLabelDoConstraints_stmt stmt labels scopes [] errorHandler = some ([], said)) :
    CheckLabelDoConstraints [stmt] branches labels scopes errorHandler = some said := by
  simp [CheckLabelDoConstraints, CheckLabelDoConstraints_loop, h,
    CheckBranchesIntoDoBody_nil_bodies, CheckDoNesting]

/-- C7, as stated, fails: for `DO 10 I=1,5 ... 10 GOTO 20` the single fatal
diagnostic is located at the statement labelled 10 and has no attachment, so
the position of the DO statement is not carried by it. -/
theorem invalid_do_terminator_counterexample :
    CheckLabelDoConstraints [sampleDoReference] []
        (sampleLabels 1 sampleGotoTargetPosition (.ActionStmt .GotoStmt)) [0, 0] [] =
      some [⟨sampleGotoTargetPosition,
        err_en_US "'%u' invalid DO terminal statement" [.unsignedArg 10], none⟩] ∧
    sampleGotoTargetPosition ≠ sampleDoPosition := by
  decide

/-- C7, amended: a DO-terminator reference whose target is defined, does not
precede the DO statement, is in scope and has neither the Do nor the
CompatibleDo flag (a GOTO statement has neither) gets exactly one diagnostic;
it is fatal, located at the labelled target statement, and nothing is attached
to it. No loop body is recorded. -/
theorem invalid_do_terminator_one_fatal (stmt : SourceStatementInfoTuplePOD)
    (branches : SourceStmtList) (labels : TargetStmtMap) (scopes : List ProxyForScope)
    (loopBodies : IndexList) (errorHandler : Messages)
    (target : LabeledStatementInfoTuplePOD)
    (hdef : labels.lookup stmt.parserLabel = some target)
    (hscope : HasScope target.proxyForScope = true)
    (hpos : ¬ target.parserCharBlock.begin < stmt.parserCharBlock.begin)
    (hin : InInclusiveScope scopes stmt.proxyForScope target.proxyForScope = some true)
    (hDo : target.labeledStmtClassificationSet.test .Do = false)
    (hCompatibleDo : target.labeledStmtClassificationSet.test .CompatibleDo = false) :
    let msg : Message := ⟨target.parserCharBlock,
      err_en_US "'%u' invalid DO terminal statement"
        [.unsignedArg (SayLabel stmt.parserLabel)], none⟩
    CheckLabelDoConstraints_stmt stmt labels scopes loopBodies errorHandler =
      some (loopBodies, errorHandler ++ [msg]) ∧
    msg.IsFatal = true ∧ msg.location = target.parserCharBlock ∧ msg.attachment = none ∧
    CheckLabelDoConstraints [stmt] branches labels scopes errorHandler =
      some (errorHandler ++ [msg]) ∧
    (∀ source label,
      (constructBranchTargetFlags ⟨source, label, .ActionStmt .GotoStmt⟩).test .Do = false ∧
      (constructBranchTargetFlags ⟨source, label, .ActionStmt .GotoStmt⟩).test
        .CompatibleDo = false) := by
  intro msg
  have hget := GetLabel_of_lookup hdef
  have hstmt : ∀ bodies, CheckLabelDoConstraints_stmt stmt labels scopes bodies errorHandler =
      some (bodies, errorHandler ++ [msg]) := by
    intro bodies
    simp [CheckLabelDoConstraints_stmt, hget, hscope, hpos, hin, hDo, hCompatibleDo,
      Messages.Say, msg]
  refine ⟨hstmt loopBodies, rfl, rfl, rfl,
    CheckLabelDoConstraints_single_of_stmt branches (hstmt []), ?_⟩
  intro source label
  constructor <;> rfl

/-- Witness for C7: `DO 10 I=1,5 ... 10 GOTO 20`. -/
theorem invalid_do_terminator_one_fatal_witness :
    CheckLabelDoConstraints [sampleDoReference] []
        (sampleLabels 1 sampleGotoTargetPosition (.ActionStmt .GotoStmt)) [0, 0] [] =
      some [⟨sampleGotoTargetPosition,
        err_en_US "'%u' invalid DO terminal statement" [.unsignedArg 10], none⟩] :=
  (invalid_do_terminator_one_fatal sampleDoReference []
    (sampleLabels 1 sampleGotoTargetPosition (.ActionStmt .GotoStmt)) [0, 0] [] []
    (sampleTarget 1 sampleGotoTargetPosition (.ActionStmt .GotoStmt))
    (by decide) (by decide) (by decide) (by decide) (by decide) (by decide)).2.2.2.2.1

/-- C8: a DO-terminator reference whose label is defined at a position that
begins before the DO statement gets exactly one diagnostic, the fatal "doesn't
lexically follow DO stmt" at the DO statement, whatever the scope table, the
scope and the classification of the target are; and one whose label is
undefined gets exactly one diagnostic, the fatal "cannot be found". Neither
records a loop body. -/
theorem do_label_precedes_or_missing (stmt : SourceStatementInfoTuplePOD)
    (branches : SourceStmtList) (labels : TargetStmtMap) (scopes : List ProxyForScope)
    (loopBodies : IndexList) (errorHandler : Messages) :
    let follow : Message := ⟨stmt.parserCharBlock,
      err_en_US "label '%u' doesn't lexically follow DO stmt"
        [.unsignedArg (SayLabel stmt.parserLabel)], none⟩
    let missing : Message := ⟨stmt.parserCharBlock,
      err_en_US "label '%u' cannot be found"
        [.unsignedArg (SayLabel stmt.parserLabel)], none⟩
    (∀ target, labels.lookup stmt.parserLabel = some target →
      HasScope target.proxyForScope = true →
      target.parserCharBlock.begin < stmt.parserCharBlock.begin →
      CheckLabelDoConstraints_stmt stmt labels scopes loopBodies errorHandler =
        some (loopBodies, errorHandler ++ [follow]) ∧
      CheckLabelDoConstraints [stmt] branches labels scopes errorHandler =
        some (errorHandler ++ [follow])) ∧
    (labels.lookup stmt.parserLabel = none →
      CheckLabelDoConstraints_stmt stmt labels scopes loopBodies errorHandler =
        some (loopBodies, errorHandler ++ [missing]) ∧
      CheckLabelDoConstraints [stmt] branches labels scopes errorHandler =
        some (errorHandler ++ [missing])) ∧
    follow.IsFatal = true ∧ follow.location = stmt.parserCharBlock ∧
    missing.IsFatal = true := by
  intro follow missing
  refine ⟨?_, ?_, rfl, rfl, rfl⟩
  · intro target hdef hscope hpos
    have hget := GetLabel_of_lookup hdef
    have hstmt : ∀ bodies, CheckLabelDoConstraints_stmt stmt labels scopes bodies
        errorHandler = some (bodies, errorHandler ++ [follow]) := by
      intro bodies
      simp [CheckLabelDoConstraints_stmt, hget, hscope, hpos, Messages.Say, follow]
    exact ⟨hstmt loopBodies, CheckLabelDoConstraints_single_of_stmt branches (hstmt [])⟩
  · intro hundef
    have hget := GetLabel_of_lookup_none hundef
    have hstmt : ∀ bodies, CheckLabelDoConstraints_stmt stmt labels scopes bodies
        errorHandler = some (bodies, errorHandler ++ [missing]) := by
      intro bodies
      simp [CheckLabelDoConstraints_stmt, hget, HasScope, Messages.Say, missing]
    exact ⟨hstmt loopBodies, CheckLabelDoConstraints_single_of_stmt branches (hstmt [])⟩

/-- Witness for C8: a `DO 10` at offset 40 after `10 CONTINUE` at offset 20,
and a `DO 10` in a unit without labels. -/
theorem do_label_precedes_or_missing_witness :
    CheckLabelDoConstraints [sampleLateDoReference] []
        (sampleLabels 1 sampleTargetPosition (.ActionStmt .ContinueStmt)) [0, 0] [] =
      some [⟨sampleLateDoReference.parserCharBlock,
        err_en_US "label '%u' doesn't lexically follow DO stmt" [.unsignedArg 10], none⟩] ∧
    CheckLabelDoConstraints [sampleDoReference] [] [] [0, 0] [] =
      some [⟨sampleDoPosition,
        err_en_US "label '%u' cannot be found" [.unsignedArg 10], none⟩] :=
  ⟨((do_label_precedes_or_missing sampleLateDoReference []
      (sampleLabels 1 sampleTargetPosition (.ActionStmt .ContinueStmt)) [0, 0] [] []).1
      (sampleTarget 1 sampleTargetPosition (.ActionStmt .ContinueStmt))
      (by decide) (by decide) (by decide)).2,
   ((do_label_precedes_or_missing sampleDoReference [] [] [0, 0] [] []).2.1 (by decide)).2⟩

/-- C9, as stated, fails: with label 10 defined in a scope nested in the scope
of `DO 10`, the DO-terminator check says one diagnostic, "is not in scope",
and it is not fatal. -/
theorem do_label_out_of_scope_counterexample :
    InInclusiveScope [0, 0, 1] 1 2 = some false ∧
    CheckLabelDoConstraints [sampleDoReference] []
        (sampleLabels 2 sampleTargetPosition (.ActionStmt .ContinueStmt)) [0, 0, 1] [] =
      some [⟨sampleDoPosition,
        en_US "label '%u' is not in scope" [.unsignedArg 10], none⟩] ∧
    Messages.AnyFatalError [⟨sampleDoPosition,
        en_US "label '%u' is not in scope" [.unsignedArg 10], none⟩] = false := by
  decide

/-- C9, amended: a DO-terminator reference whose target is defined and does not
precede the DO statement, but whose DO scope is not in inclusive scope of the
scope of the target, gets exactly one diagnostic, "is not in scope" at the DO
statement, and it is advisory (not fatal). No loop body is recorded. -/
theorem do_label_out_of_scope_advisory (stmt : SourceStatementInfoTuplePOD)
    (branches : SourceStmtList) (labels : TargetStmtMap) (scopes : List ProxyForScope)
    (loopBodies : IndexList) (errorHandler : Messages)
    (target : LabeledStatementInfoTuplePOD)
    (hdef : labels.lookup stmt.parserLabel = some target)
    (hscope : HasScope target.proxyForScope = true)
    (hpos : ¬ target.parserCharBlock.begin < stmt.parserCharBlock.begin)
    (hout : InInclusiveScope scopes stmt.proxyForScope target.proxyForScope = some false) :
    let msg : Message := ⟨stmt.parserCharBlock,
      en_US "label '%u' is not in scope" [.unsignedArg (SayLabel stmt.parserLabel)], none⟩
    CheckLabelDoConstraints_stmt stmt labels scopes loopBodies errorHandler =
      some (loopBodies, errorHandler ++ [msg]) ∧
    msg.IsFatal = false ∧ msg.location = stmt.parserCharBlock ∧
    CheckLabelDoConstraints [stmt] branches labels scopes errorHandler =
      some (errorHandler ++ [msg]) := by
  intro msg
  have hget := GetLabel_of_lookup hdef
  have hstmt : ∀ bodies, CheckLabelDoConstraints_stmt stmt labels scopes bodies errorHandler =
      some (bodies, errorHandler ++ [msg]) := by
    intro bodies
    simp [CheckLabelDoConstraints_stmt, hget, hscope, hpos, hout, Messages.Say, msg]
  exact ⟨hstmt loopBodies, rfl, rfl, CheckLabelDoConstraints_single_of_stmt branches (hstmt [])⟩

/-- Witness for C9: label 10 defined in scope 2, nested in the scope 1 of the
DO statement. -/
theorem do_label_out_of_scope_advisory_witness :
    CheckLabelDoConstraints_stmt sampleDoReference
        (sampleLabels 2 sampleTargetPosition (.ActionStmt .ContinueStmt)) [0, 0, 1] [] [] =
      some ([], [⟨sampleDoPosition,
        en_US "label '%u' is not in scope" [.unsignedArg 10], none⟩]) :=
  (do_label_out_of_scope_advisory sampleDoReference []
    (sampleLabels 2 sampleTargetPosition (.ActionStmt .ContinueStmt)) [0, 0, 1] [] []
    (sampleTarget 2 sampleTargetPosition (.ActionStmt .ContinueStmt))
    (by decide) (by decide) (by decide) (by decide)).1

/-- C10: for a DO-terminator reference whose target is defined, does not
precede the DO statement and is in scope: a target with CompatibleDo but not Do
gets exactly one diagnostic, which is advisory (not fatal), and no loop body;
a target with Do gets no diagnostic, and its loop body is recorded. -/
theorem do_terminator_compatible_or_legal (stmt : SourceStatementInfoTuplePOD)
    (branches : SourceStmtList) (labels : TargetStmtMap) (scopes : List ProxyForScope)
    (loopBodies : IndexList) (errorHandler : Messages)
    (target : LabeledStatementInfoTuplePOD)
    (hdef : labels.lookup stmt.parserLabel = some target)
    (hscope : HasScope target.proxyForScope = true)
    (hpos : ¬ target.parserCharBlock.begin < stmt.parserCharBlock.begin)
    (hin : InInclusiveScope scopes stmt.proxyForScope target.proxyForScope = some true) :
    let msg : Message := ⟨target.parserCharBlock,
      en_US "'%u' invalid DO terminal statement"
        [.unsignedArg (SayLabel stmt.parserLabel)], none⟩
    (target.labeledStmtClassificationSet.test .CompatibleDo = true →
      target.labeledStmtClassificationSet.test .Do = false →
      CheckLabelDoConstraints_stmt stmt labels scopes loopBodies errorHandler =
        some (loopBodies, errorHandler ++ [msg]) ∧
      CheckLabelDoConstraints [stmt] branches labels scopes errorHandler =
        some (errorHandler ++ [msg])) ∧
    msg.IsFatal = false ∧
    (target.labeledStmtClassificationSet.test .Do = true →
      CheckLabelDoConstraints_stmt stmt labels scopes loopBodies errorHandler =
        some (loopBodies ++ [(SkipLabel stmt.parserCharBlock, target.parserCharBlock)],
          errorHandler)) := by
  intro msg
  have hget := GetLabel_of_lookup hdef
  refine ⟨?_, rfl, ?_⟩
  · intro hCompatibleDo hDo
    have hstmt : ∀ bodies, CheckLabelDoConstraints_stmt stmt labels scopes bodies
        errorHandler = some (bodies, errorHandler ++ [msg]) := by
      intro bodies
      simp [CheckLabelDoConstraints_stmt, hget, hscope, hpos, hin, hDo, hCompatibleDo,
        Messages.Say, msg]
    exact ⟨hstmt loopBodies, CheckLabelDoConstraints_single_of_stmt branches (hstmt [])⟩
  · intro hDo
    simp [CheckLabelDoConstraints_stmt, hget, hscope, hpos, hin, hDo]

/-- Witness for C10: `DO 10 I=1,5` ended by the assignment `10 X = 1`
(compatible only), and by `10 CONTINUE` (legal). -/
theorem do_terminator_compatible_or_legal_witness :
    CheckLabelDoConstraints [sampleDoReference] []
        (sampleLabels 1 sampleAssignmentPosition (.ActionStmt (.Other 0))) [0, 0] [] =
      some [⟨sampleAssignmentPosition,
        en_US "'%u' invalid DO terminal statement" [.unsignedArg 10], none⟩] ∧
    CheckLabelDoConstraints_stmt sampleDoReference
        (sampleLabels 1 sampleTargetPosition (.ActionStmt .ContinueStmt)) [0, 0] [] [] =
      some ([(SkipLabel sampleDoPosition, sampleTargetPosition)], []) :=
  ⟨((do_terminator_compatible_or_legal sampleDoReference []
      (sampleLabels 1 sampleAssignmentPosition (.ActionStmt (.Other 0))) [0, 0] [] []
      (sampleTarget 1 sampleAssignmentPosition (.ActionStmt (.Other 0)))
      (by decide) (by decide) (by decide) (by decide)).1 (by decide) (by decide)).2,
   (do_terminator_compatible_or_legal sampleDoReference []
      (sampleLabels 1 sampleTargetPosition (.ActionStmt .ContinueStmt)) [0, 0] [] []
      (sampleTarget 1 sampleTargetPosition (.ActionStmt .ContinueStmt))
      (by decide) (by decide) (by decide) (by decide)).2.2 (by decide)⟩

/-! ## The branch and data-transfer checks on single references -/

theorem AnyFatalError_append_advisory (errorHandler : Messages) (msg : Message)
    (h : msg.IsFatal = false) :
    Messages.AnyFatalError (errorHandler ++ [msg]) = errorHandler.AnyFatalError := by
  simp [Messages.AnyFatalError, h]

/-- C11: for a generic reference whose label is defined, the check of the
target says exactly one fatal diagnostic when the target has neither Branch nor
CompatibleBranch, exactly one advisory diagnostic when it has CompatibleBranch
but not Branch, and nothing when it has Branch. Each diagnostic is located at
the target statement and has the referencing statement attached. -/
theorem branch_target_classification (stmt : SourceStatementInfoTuplePOD)
    (rest : SourceStmtList) (labels : TargetStmtMap) (errorHandler : Messages)
    (target : LabeledStatementInfoTuplePOD)
    (hdef : labels.lookup stmt.parserLabel = some target)
    (hscope : HasScope target.proxyForScope = true) :
    let use : CharBlock × MessageFormattedText := (stmt.parserCharBlock,
      en_US "control flow use of '%u'" [.unsignedArg (SayLabel stmt.parserLabel)])
    let fatal : Message := ⟨target.parserCharBlock,
      err_en_US "'%u' not a branch target" [.unsignedArg (SayLabel stmt.parserLabel)],
      some use⟩
    let advisory : Message := ⟨target.parserCharBlock,
      en_US "'%u' not a branch target" [.unsignedArg (SayLabel stmt.parserLabel)],
      some use⟩
    (target.labeledStmtClassificationSet.test .Branch = false →
      target.labeledStmtClassificationSet.test .CompatibleBranch = false →
      CheckBranchTargetConstraints (stmt :: rest) labels errorHandler =
        CheckBranchTargetConstraints rest labels (errorHandler ++ [fatal])) ∧
    (target.labeledStmtClassificationSet.test .CompatibleBranch = true →
      target.labeledStmtClassificationSet.test .Branch = false →
      CheckBranchTargetConstraints (stmt :: rest) labels errorHandler =
        CheckBranchTargetConstraints rest labels (errorHandler ++ [advisory])) ∧
    (target.labeledStmtClassificationSet.test .Branch = true →
      CheckBranchTargetConstraints (stmt :: rest) labels errorHandler =
        CheckBranchTargetConstraints rest labels errorHandler) ∧
    fatal.IsFatal = true ∧ advisory.IsFatal = false ∧
    fatal.location = target.parserCharBlock ∧
    advisory.location = target.parserCharBlock ∧
    fatal.attachment.map Prod.fst = some stmt.parserCharBlock ∧
    advisory.attachment.map Prod.fst = some stmt.parserCharBlock := by
  intro use fatal advisory
  have hget := GetLabel_of_lookup hdef
  refine ⟨?_, ?_, ?_, rfl, rfl, rfl, rfl, rfl, rfl⟩
  · intro hBranch hCompatible
    simp [CheckBranchTargetConstraints, hget, hscope, hBranch, hCompatible,
      Messages.SayAttach, fatal, use]
  · intro hCompatible hBranch
    simp [CheckBranchTargetConstraints, hget, hscope, hBranch, hCompatible,
      Messages.SayAttach, advisory, use]
  · intro hBranch
    simp [CheckBranchTargetConstraints, hget, hscope, hBranch]

/-- Witness for C11: `GOTO 10` towards a FORMAT statement (neither flag), an
arithmetic IF (compatible only) and a CONTINUE statement (Branch). -/
theorem branch_target_classification_witness :
    CheckBranchTargetConstraints [sampleGotoReference]
        (sampleLabels 1 sampleFormatPosition .IndirectionFormatStmt) [] =
      [⟨sampleFormatPosition, err_en_US "'%u' not a branch target" [.unsignedArg 10],
        some (sampleGotoPosition, en_US "control flow use of '%u'" [.unsignedArg 10])⟩] ∧
    CheckBranchTargetConstraints [sampleGotoReference]
        (sampleLabels 1 sampleTargetPosition (.ActionStmt .ArithmeticIfStmt)) [] =
      [⟨sampleTargetPosition, en_US "'%u' not a branch target" [.unsignedArg 10],
        some (sampleGotoPosition, en_US "control flow use of '%u'" [.unsignedArg 10])⟩] ∧
    CheckBranchTargetConstraints [sampleGotoReference]
        (sampleLabels 1 sampleTargetPosition (.ActionStmt .ContinueStmt)) [] = [] :=
  ⟨(branch_target_classification sampleGotoReference []
      (sampleLabels 1 sampleFormatPosition .IndirectionFormatStmt) []
      (sampleTarget 1 sampleFormatPosition .IndirectionFormatStmt)
      (by decide) (by decide)).1 (by decide) (by decide),
   (branch_target_classification sampleGotoReference []
      (sampleLabels 1 sampleTargetPosition (.ActionStmt .ArithmeticIfStmt)) []
      (sampleTarget 1 sampleTargetPosition (.ActionStmt .ArithmeticIfStmt))
      (by decide) (by decide)).2.1 (by decide) (by decide),
   (branch_target_classification sampleGotoReference []
      (sampleLabels 1 sampleTargetPosition (.ActionStmt .ContinueStmt)) []
      (sampleTarget 1 sampleTargetPosition (.ActionStmt .ContinueStmt))
      (by decide) (by decide)).2.2.1 (by decide)⟩

/-- C12: a generic reference whose label is defined, but whose scope is not in
inclusive scope of the scope of the target, gets exactly one diagnostic from
the scope check, "is not in scope" at the reference, and it is advisory: it
leaves `AnyFatalError` as it was, and a unit holding only this reference, to a
legal branch target, is validated when the sink held no fatal message. -/
theorem branch_out_of_scope_advisory (stmt : SourceStatementInfoTuplePOD)
    (rest : SourceStmtList) (labels : TargetStmtMap) (scopes : List ProxyForScope)
    (errorHandler : Messages) (target : LabeledStatementInfoTuplePOD)
    (hdef : labels.lookup stmt.parserLabel = some target)
    (hscope : HasScope target.proxyForScope = true)
    (hout : InInclusiveScope scopes stmt.proxyForScope target.proxyForScope = some false) :
    let msg : Message := ⟨stmt.parserCharBlock,
      en_US "label '%u' is not in scope" [.unsignedArg (SayLabel stmt.parserLabel)], none⟩
    CheckScopeConstraints (stmt :: rest) labels scopes errorHandler =
      CheckScopeConstraints rest labels scopes (errorHandler ++ [msg]) ∧
    msg.IsFatal = false ∧ msg.location = stmt.parserCharBlock ∧
    Messages.AnyFatalError (errorHandler ++ [msg]) = errorHandler.AnyFatalError ∧
    (target.labeledStmtClassificationSet.test .Branch = true →
      CheckConstraints_unit ⟨[], [], [stmt], labels, scopes⟩ errorHandler =
        some (errorHandler ++ [msg]) ∧
      ∀ position scope names,
        CheckConstraints ⟨[⟨[], [], [stmt], labels, scopes⟩], errorHandler, position,
            scope, names⟩ =
          some (!errorHandler.AnyFatalError, errorHandler ++ [msg])) := by
  intro msg
  have hget := GetLabel_of_lookup hdef
  have hfatal : Messages.AnyFatalError (errorHandler ++ [msg]) =
      errorHandler.AnyFatalError := AnyFatalError_append_advisory errorHandler msg rfl
  have hcheck : ∀ rest eh, CheckScopeConstraints (stmt :: rest) labels scopes eh =
      CheckScopeConstraints rest labels scopes (eh ++ [msg]) := by
    intro rest eh
    simp [CheckScopeConstraints, hget, hscope, hout, Messages.Say, msg]
  refine ⟨hcheck rest errorHandler, rfl, rfl, hfatal, ?_⟩
  intro hBranch
  have hunit : CheckConstraints_unit ⟨[], [], [stmt], labels, scopes⟩ errorHandler =
      some (errorHandler ++ [msg]) := by
    have hb : CheckBranchConstraints [stmt] labels scopes errorHandler =
        some (errorHandler ++ [msg]) := by
      unfold CheckBranchConstraints
      rw [hcheck]
      simp [CheckScopeConstraints, CheckBranchTargetConstraints, hget, hscope, hBranch]
    simp only [CheckConstraints_unit, CheckLabelDoConstraints, CheckLabelDoConstraints_loop,
      CheckDoNesting, CheckBranchesIntoDoBody_nil_bodies, hb, CheckScopeConstraints,
      CheckDataTransferConstraints, CheckDataXferTargetConstraints]
  refine ⟨hunit, ?_⟩
  intro position scope names
  simp only [CheckConstraints, CheckConstraints_loop, hunit, hfatal]

/-- Witness for C12: `GOTO 10` in scope 1 towards `10 CONTINUE` in the nested
scope 2. -/
theorem branch_out_of_scope_advisory_witness :
    CheckConstraints ⟨[⟨[], [], [sampleGotoReference],
        sampleLabels 2 sampleTargetPosition (.ActionStmt .ContinueStmt), [0, 0, 1]⟩],
        [], CharBlock.null, 0, []⟩ =
      some (true, [⟨sampleGotoPosition,
        en_US "label '%u' is not in scope" [.unsignedArg 10], none⟩]) :=
  ((branch_out_of_scope_advisory sampleGotoReference []
    (sampleLabels 2 sampleTargetPosition (.ActionStmt .ContinueStmt)) [0, 0, 1] []
    (sampleTarget 2 sampleTargetPosition (.ActionStmt .ContinueStmt))
    (by decide) (by decide) (by decide)).2.2.2.2 (by decide)).2 CharBlock.null 0 []

/-- C13, as stated, fails: a FORMAT reference in scope 1 to the FORMAT statement
labelled 10 of the nested scope 2 gets one diagnostic from the data-transfer
check, "is not in scope", and it is not fatal. -/
theorem format_out_of_scope_counterexample :
    InInclusiveScope [0, 0, 1] 1 2 = some false ∧
    CheckDataTransferConstraints [sampleFormatReference]
        (sampleLabels 2 sampleFormatPosition .IndirectionFormatStmt) [0, 0, 1] [] =
      some [⟨sampleFormatReference.parserCharBlock,
        en_US "label '%u' is not in scope" [.unsignedArg 10], none⟩] ∧
    Messages.AnyFatalError [⟨sampleFormatReference.parserCharBlock,
        en_US "label '%u' is not in scope" [.unsignedArg 10], none⟩] = false := by
  decide

/-- C13, amended: a FORMAT reference whose label is undefined gets exactly one
diagnostic from the data-transfer check, the fatal "was not found" at the
reference; one whose label is defined in a scope that the scope of the
reference is not in inclusive scope of gets from the scope check exactly one
diagnostic, "is not in scope", which is advisory, and that is all the
data-transfer check says when the target is a FORMAT statement. -/
theorem format_undefined_or_out_of_scope (stmt : SourceStatementInfoTuplePOD)
    (rest : SourceStmtList) (labels : TargetStmtMap) (scopes : List ProxyForScope)
    (errorHandler : Messages) :
    let notFound : Message := ⟨stmt.parserCharBlock,
      err_en_US "label '%u' was not found" [.unsignedArg (SayLabel stmt.parserLabel)], none⟩
    let notInScope : Message := ⟨stmt.parserCharBlock,
      en_US "label '%u' is not in scope" [.unsignedArg (SayLabel stmt.parserLabel)], none⟩
    (labels.lookup stmt.parserLabel = none →
      CheckScopeConstraints (stmt :: rest) labels scopes errorHandler =
        CheckScopeConstraints rest labels scopes (errorHandler ++ [notFound]) ∧
      CheckDataXferTargetConstraints (stmt :: rest) labels errorHandler =
        CheckDataXferTargetConstraints rest labels errorHandler ∧
      CheckDataTransferConstraints [stmt] labels scopes errorHandler =
        some (errorHandler ++ [notFound])) ∧
    (∀ target, labels.lookup stmt.parserLabel = some target →
      HasScope target.proxyForScope = true →
      InInclusiveScope scopes stmt.proxyForScope target.proxyForScope = some false →
      CheckScopeConstraints (stmt :: rest) labels scopes errorHandler =
        CheckScopeConstraints rest labels scopes (errorHandler ++ [notInScope]) ∧
      (target.labeledStmtClassificationSet.test .Format = true →
        CheckDataTransferConstraints [stmt] labels scopes errorHandler =
          some (errorHandler ++ [notInScope]))) ∧
    notFound.IsFatal = true ∧ notInScope.IsFatal = false := by
  intro notFound notInScope
  refine ⟨?_, ?_, rfl, rfl⟩
  · intro hundef
    have hget := GetLabel_of_lookup_none hundef
    have h1 : ∀ rest eh, CheckScopeConstraints (stmt :: rest) labels scopes eh =
        CheckScopeConstraints rest labels scopes (eh ++ [notFound]) := by
      intro rest eh
      simp [CheckScopeConstraints, hget, HasScope, Messages.Say, notFound]
    have h2 : ∀ rest eh, CheckDataXferTargetConstraints (stmt :: rest) labels eh =
        CheckDataXferTargetConstraints rest labels eh := by
      intro rest eh
      simp [CheckDataXferTargetConstraints, hget, HasScope]
    refine ⟨h1 _ _, h2 _ _, ?_⟩
    unfold CheckDataTransferConstraints
    rw [h1]
    simp only [CheckScopeConstraints]
    rw [h2]
    rfl
  · intro target hdef hscope hout
    have hget := GetLabel_of_lookup hdef
    have h1 : ∀ rest eh, CheckScopeConstraints (stmt :: rest) labels scopes eh =
        CheckScopeConstraints rest labels scopes (eh ++ [notInScope]) := by
      intro rest eh
      simp [CheckScopeConstraints, hget, hscope, hout, Messages.Say, notInScope]
    refine ⟨h1 _ _, ?_⟩
    intro hFormat
    have h2 : ∀ rest eh, CheckDataXferTargetConstraints (stmt :: rest) labels eh =
        CheckDataXferTargetConstraints rest labels eh := by
      intro rest eh
      simp [CheckDataXferTargetConstraints, hget, hscope, hFormat]
    unfold CheckDataTransferConstraints
    rw [h1]
    simp only [CheckScopeConstraints]
    rw [h2]
    rfl

/-- Witness for C13: `WRITE (*, 10) X` in a unit without labels, and in scope 1
with `10 FORMAT (I5)` in the nested scope 2. -/
theorem format_undefined_or_out_of_scope_witness :
    CheckDataTransferConstraints [sampleFormatReference] [] [0, 0] [] =
      some [⟨sampleFormatReference.parserCharBlock,
        err_en_US "label '%u' was not found" [.unsignedArg 10], none⟩] ∧
    CheckDataTransferConstraints [sampleFormatReference]
        (sampleLabels 2 sampleFormatPosition .IndirectionFormatStmt) [0, 0, 1] [] =
      some [⟨sampleFormatReference.parserCharBlock,
        en_US "label '%u' is not in scope" [.unsignedArg 10], none⟩] :=
  ⟨((format_undefined_or_out_of_scope sampleFormatReference [] [] [0, 0] []).1
      (by decide)).2.2,
   ((format_undefined_or_out_of_scope sampleFormatReference []
      (sampleLabels 2 sampleFormatPosition .IndirectionFormatStmt) [0, 0, 1] []).2.1
      (sampleTarget 2 sampleFormatPosition .IndirectionFormatStmt)
      (by decide) (by decide) (by decide)).2 (by decide)⟩

/-- C14: for a FORMAT reference whose label is defined, the check of the target
says exactly one diagnostic, the fatal "not a FORMAT" located at the target
with the data-transfer statement attached, if and only if the classification
of the target lacks the Format flag; the label of a FORMAT statement has the
flag, so a reference to it gets none. -/
theorem format_target_classification (stmt : SourceStatementInfoTuplePOD)
    (rest : SourceStmtList) (labels : TargetStmtMap) (errorHandler : Messages)
    (target : LabeledStatementInfoTuplePOD)
    (hdef : labels.lookup stmt.parserLabel = some target)
    (hscope : HasScope target.proxyForScope = true) :
    let msg : Message := ⟨target.parserCharBlock,
      err_en_US "'%u' not a FORMAT" [.unsignedArg (SayLabel stmt.parserLabel)],
      some (stmt.parserCharBlock,
        en_US "data transfer use of '%u'" [.unsignedArg (SayLabel stmt.parserLabel)])⟩
    CheckDataXferTargetConstraints (stmt :: rest) labels errorHandler =
      CheckDataXferTargetConstraints rest labels
        (errorHandler ++
          if target.labeledStmtClassificationSet.test .Format = true then [] else [msg]) ∧
    msg.IsFatal = true ∧ msg.location = target.parserCharBlock ∧
    msg.attachment.map Prod.fst = some stmt.parserCharBlock ∧
    (∀ source label,
      (constructBranchTargetFlags ⟨source, label, .IndirectionFormatStmt⟩).test .Format =
        true) := by
  intro msg
  have hget := GetLabel_of_lookup hdef
  refine ⟨?_, rfl, rfl, rfl, fun _ _ => rfl⟩
  cases hFormat : target.labeledStmtClassificationSet.test .Format
  · simp [CheckDataXferTargetConstraints, hget, hscope, hFormat, Messages.SayAttach, msg]
  · simp [CheckDataXferTargetConstraints, hget, hscope, hFormat]

/-- Witness for C14: `WRITE (*, 10) X` with label 10 on a CONTINUE statement,
and on a FORMAT statement. -/
theorem format_target_classification_witness :
    CheckDataXferTargetConstraints [sampleFormatReference]
        (sampleLabels 1 sampleTargetPosition (.ActionStmt .ContinueStmt)) [] =
      [⟨sampleTargetPosition, err_en_US "'%u' not a FORMAT" [.unsignedArg 10],
        some (sampleFormatReference.parserCharBlock,
          en_US "data transfer use of '%u'" [.unsignedArg 10])⟩] ∧
    CheckDataXferTargetConstraints [sampleFormatReference]
        (sampleLabels 1 sampleFormatPosition .IndirectionFormatStmt) [] = [] :=
  ⟨(format_target_classification sampleFormatReference []
      (sampleLabels 1 sampleTargetPosition (.ActionStmt .ContinueStmt)) []
      (sampleTarget 1 sampleTargetPosition (.ActionStmt .ContinueStmt))
      (by decide) (by decide)).1,
   (format_target_classification sampleFormatReference []
      (sampleLabels 1 sampleFormatPosition .IndirectionFormatStmt) []
      (sampleTarget 1 sampleFormatPosition .IndirectionFormatStmt)
      (by decide) (by decide)).1⟩

/-! ## Loop bodies: nesting and branches into them -/

theorem nesting_arith (a1 a2 b1 e1 b2 e2 : Nat) (hb1 : b1 < e1) (hb2 : b2 < e2)
    (ha : a1 < a2) (h : (b1 = b2 ∧ e1 = e2) ∨ e1 ≤ b2 ∨ e2 ≤ b1) :
    (a2 < e1 ∧ b1 < b2) ↔
      (max a1 a2 < min e1 e2 ∧ ¬ (a1 ≤ a2 ∧ e2 ≤ e1)) ∧ ¬ (a2 ≤ a1 ∧ e1 ≤ e2) := by
  simp only [lt_min_iff, max_lt_iff]
  omega

theorem nesting_test_eq_spec {v1 v2 : CharBlock × CharBlock}
    (h1 : 0 < v1.2.size) (h2 : 0 < v2.2.size) (hord : LexicallyOrdered v1 v2 = true) :
    (decide (v2.1.begin < v1.2.end_) && decide (v1.2.begin < v2.2.begin)) =
      ImproperlyNested v1 v2 := by
  obtain ⟨hstart, hterm⟩ := of_decide_eq_true hord
  have harith := nesting_arith v1.1.begin v2.1.begin v1.2.begin v1.2.end_ v2.2.begin
    v2.2.end_ (by unfold CharBlock.end_; omega) (by unfold CharBlock.end_; omega) hstart
    (by
      rcases hterm with h | h | h
      · left; rw [h]; exact ⟨rfl, rfl⟩
      · right; left; exact h
      · right; right; exact h)
  rw [Bool.eq_iff_iff]
  simp only [ImproperlyNested, BodiesOverlap, BodyContains, bodyStart, bodyEnd,
    Bool.and_eq_true, decide_eq_true_eq, Bool.not_eq_true', decide_eq_false_iff_not]
  exact harith

theorem CheckDoNesting_inner_eq_spec (v1 : CharBlock × CharBlock) (h1 : 0 < v1.2.size) :
    ∀ (rest : IndexList) (errorHandler : Messages),
      (∀ v2 ∈ rest, 0 < v2.2.size ∧ LexicallyOrdered v1 v2 = true) →
      CheckDoNesting_inner v1 rest errorHandler =
        errorHandler ++ (rest.filter (ImproperlyNested v1)).map (nestingDiagnostic v1) := by
  intro rest
  induction rest with
  | nil => intro errorHandler _; simp [CheckDoNesting_inner]
  | cons v2 rest ih =>
    intro errorHandler h
    have hv2 := h v2 (List.mem_cons_self _ _)
    have hrest : ∀ v ∈ rest, 0 < v.2.size ∧ LexicallyOrdered v1 v = true :=
      fun v hv => h v (List.mem_cons_of_mem _ hv)
    have htest := nesting_test_eq_spec h1 hv2.1 hv2.2
    unfold CheckDoNesting_inner
    rw [htest]
    cases hnest : ImproperlyNested v1 v2
    · simp [ih _ hrest, hnest]
    · simp [ih _ hrest, hnest, Messages.SayAttach, nestingDiagnostic]

theorem specNestingDiagnostics_fatal :
    ∀ (loopBodies : IndexList), ∀ m ∈ specNestingDiagnostics loopBodies,
      m.IsFatal = true := by
  intro loopBodies
  induction loopBodies with
  | nil => intro m hm; simp [specNestingDiagnostics] at hm
  | cons v1 rest ih =>
    intro m hm
    simp only [specNestingDiagnostics, List.mem_append, List.mem_map] at hm
    rcases hm with ⟨v2, _, rfl⟩ | hm
    · rfl
    · exact ih m hm

theorem CheckDoNesting_eq_spec :
    ∀ (loopBodies : IndexList) (errorHandler : Messages),
      (∀ v ∈ loopBodies, 0 < v.2.size) →
      loopBodies.Pairwise (fun v1 v2 => LexicallyOrdered v1 v2 = true) →
      CheckDoNesting loopBodies errorHandler =
        errorHandler ++ specNestingDiagnostics loopBodies := by
  intro loopBodies
  induction loopBodies with
  | nil => intro errorHandler _ _; simp [CheckDoNesting, specNestingDiagnostics]
  | cons v1 rest ih =>
    intro errorHandler hsize hord
    rw [List.pairwise_cons] at hord
    have h1 := hsize v1 (List.mem_cons_self _ _)
    have hrest : ∀ v ∈ rest, 0 < v.2.size := fun v hv => hsize v (List.mem_cons_of_mem _ hv)
    rw [CheckDoNesting, CheckDoNesting_inner_eq_spec v1 h1 rest errorHandler
      (fun v hv => ⟨hrest v hv, hord.1 v hv⟩), ih _ hrest hord.2, specNestingDiagnostics,
      List.append_assoc]

/-- C15: for loop bodies recorded in the lexical order of their DO statements,
whose terminator statements (each of at least one character) are pairwise the
same statement or non-overlapping, the nesting check says exactly the
diagnostics the specification asks for: one fatal "DO loop doesn't properly
nest" for every pair of bodies that overlap without either containing the
other, and none for a pair that is disjoint or nested. -/
theorem CheckDoNesting_improper_pairs (loopBodies : IndexList) (errorHandler : Messages)
    (hsize : ∀ v ∈ loopBodies, 0 < v.2.size)
    (hord : loopBodies.Pairwise (fun v1 v2 => LexicallyOrdered v1 v2 = true)) :
    CheckDoNesting loopBodies errorHandler =
      errorHandler ++ specNestingDiagnostics loopBodies ∧
    (∀ m ∈ specNestingDiagnostics loopBodies, m.IsFatal = true) ∧
    (∀ v1 v2, loopBodies = [v1, v2] →
      CheckDoNesting [v1, v2] errorHandler =
        errorHandler ++ if ImproperlyNested v1 v2 = true then
          [⟨v1.1, err_en_US "DO loop doesn't properly nest" [],
            some (v2.1, en_US "DO loop conflicts" [])⟩] else []) := by
  refine ⟨CheckDoNesting_eq_spec loopBodies errorHandler hsize hord,
    specNestingDiagnostics_fatal loopBodies, ?_⟩
  intro v1 v2 hpair
  subst hpair
  rw [CheckDoNesting_eq_spec _ errorHandler hsize hord]
  cases hnest : ImproperlyNested v1 v2 <;>
    simp [specNestingDiagnostics, hnest, nestingDiagnostic]

/-- Witness for C15: two loop bodies that cross get one diagnostic; two that
are nested get none. -/
theorem CheckDoNesting_improper_pairs_witness :
    CheckDoNesting sampleCrossingBodies [] =
      [⟨sampleBlock 0 10, err_en_US "DO loop doesn't properly nest" [],
        some (sampleBlock 20 10, en_US "DO loop conflicts" [])⟩] ∧
    CheckDoNesting sampleNestedBodies [] = [] :=
  ⟨(CheckDoNesting_improper_pairs sampleCrossingBodies [] (by decide) (by decide)).1,
   (CheckDoNesting_improper_pairs sampleNestedBodies [] (by decide) (by decide)).1⟩

theorem InBody_eq_PositionInside (position : CharBlock) (body : CharBlock × CharBlock) :
    InBody position body = PositionInside position body := by
  unfold InBody PositionInside bodyStart bodyEnd
  by_cases h1 : position.begin ≥ body.1.begin <;>
    by_cases h2 : position.begin < body.2.end_ <;> simp [h1, h2]

theorem CheckBranchesIntoDoBody_bodies_eq_spec (fromPosition toPosition : CharBlock) :
    ∀ (loopBodies : IndexList) (errorHandler : Messages),
      CheckBranchesIntoDoBody_bodies fromPosition toPosition loopBodies errorHandler =
        errorHandler ++ specBranchIntoBodyDiagnostics fromPosition toPosition loopBodies := by
  intro loopBodies
  induction loopBodies with
  | nil => intro errorHandler; simp [CheckBranchesIntoDoBody_bodies,
      specBranchIntoBodyDiagnostics]
  | cons body rest ih =>
    intro errorHandler
    unfold CheckBranchesIntoDoBody_bodies
    simp only [InBody_eq_PositionInside, ih]
    cases h : (!PositionInside fromPosition body && PositionInside toPosition body)
    · simp [specBranchIntoBodyDiagnostics, h]
    · simp [specBranchIntoBodyDiagnostics, h, Messages.SayAttach, branchIntoBodyDiagnostic]

/-- The branch-into-loop check reads neither the scope table nor the scope of
a reference. -/
theorem CheckBranchesIntoDoBody_scope_free (labels : TargetStmtMap)
    (scopes1 scopes2 : List ProxyForScope) (loopBodies : IndexList)
    (rescope : SourceStatementInfoTuplePOD → ProxyForScope) :
    ∀ (branches : SourceStmtList) (errorHandler : Messages),
      CheckBranchesIntoDoBody
          (branches.map fun b => ⟨b.parserLabel, rescope b, b.parserCharBlock⟩)
          labels scopes2 loopBodies errorHandler =
        CheckBranchesIntoDoBody branches labels scopes1 loopBodies errorHandler := by
  intro branches
  induction branches with
  | nil => intro errorHandler; rfl
  | cons b rest ih =>
    intro errorHandler
    simp only [List.map_cons, CheckBranchesIntoDoBody, ih]

/-- C16: for a generic reference with a defined target, the branch-into-loop
check says exactly one diagnostic for every recorded loop body that has the
position of the reference outside the body and the position of the target
inside it, and none for the other bodies (a branch from inside the body, or
to a target outside it); the diagnostic is advisory, located at the reference,
with the start of the loop attached. -/
theorem branch_into_loop_body (branch : SourceStatementInfoTuplePOD)
    (rest : SourceStmtList) (labels : TargetStmtMap) (scopes : List ProxyForScope)
    (loopBodies : IndexList) (errorHandler : Messages)
    (target : LabeledStatementInfoTuplePOD)
    (hdef : labels.lookup branch.parserLabel = some target)
    (hscope : HasScope target.proxyForScope = true) :
    CheckBranchesIntoDoBody (branch :: rest) labels scopes loopBodies errorHandler =
      CheckBranchesIntoDoBody rest labels scopes loopBodies
        (errorHandler ++ specBranchIntoBodyDiagnostics branch.parserCharBlock
          target.parserCharBlock loopBodies) ∧
    (∀ body : CharBlock × CharBlock,
      CheckBranchesIntoDoBody [branch] labels scopes [body] errorHandler =
        errorHandler ++
          if ¬ (body.1.begin ≤ branch.parserCharBlock.begin ∧
                branch.parserCharBlock.begin < body.2.end_) ∧
              (body.1.begin ≤ target.parserCharBlock.begin ∧
                target.parserCharBlock.begin < body.2.end_) then
            [⟨branch.parserCharBlock, en_US "branch into loop body from outside" [],
              some (body.1, en_US "the loop branched into" [])⟩]
          else []) ∧
    (∀ m ∈ specBranchIntoBodyDiagnostics branch.parserCharBlock target.parserCharBlock
        loopBodies,
      m.IsFatal = false ∧ m.location = branch.parserCharBlock ∧
      ∃ body ∈ loopBodies, m.attachment.map Prod.fst = some body.1) := by
  have hget := GetLabel_of_lookup hdef
  have hcons : ∀ rest bodies eh,
      CheckBranchesIntoDoBody (branch :: rest) labels scopes bodies eh =
        CheckBranchesIntoDoBody rest labels scopes bodies
          (eh ++ specBranchIntoBodyDiagnostics branch.parserCharBlock
            target.parserCharBlock bodies) := by
    intro rest bodies eh
    simp [CheckBranchesIntoDoBody, hget, hscope, CheckBranchesIntoDoBody_bodies_eq_spec]
  refine ⟨hcons _ _ _, ?_, ?_⟩
  · intro body
    have key : ∀ p : CharBlock, (body.1.begin ≤ p.begin ∧ p.begin < body.2.end_) ↔
        PositionInside p body = true := by
      intro p
      simp [PositionInside, bodyStart, bodyEnd]
    rw [hcons]
    simp only [key, CheckBranchesIntoDoBody, specBranchIntoBodyDiagnostics]
    cases hA : PositionInside branch.parserCharBlock body <;>
      cases hB : PositionInside target.parserCharBlock body <;>
        simp [hA, hB, branchIntoBodyDiagnostic]
  · intro m hm
    simp only [specBranchIntoBodyDiagnostics, List.mem_map, List.mem_filter] at hm
    obtain ⟨body, ⟨hbody, _⟩, rfl⟩ := hm
    exact ⟨rfl, rfl, body, hbody, rfl⟩

/-- Witness for C16: after `DO 10 I=1,5 ... 10 CONTINUE`, a `GOTO 10` at offset
40 branches into the loop body; a `GOTO 10` at offset 12 is inside it. -/
theorem branch_into_loop_body_witness :
    CheckBranchesIntoDoBody [sampleGotoReference]
        (sampleLabels 1 sampleTargetPosition (.ActionStmt .ContinueStmt)) [0, 0]
        [sampleLoopBody] [] =
      [⟨sampleGotoPosition, en_US "branch into loop body from outside" [],
        some (sampleDoPosition, en_US "the loop branched into" [])⟩] ∧
    CheckBranchesIntoDoBody [sampleInnerGotoReference]
        (sampleLabels 1 sampleTargetPosition (.ActionStmt .ContinueStmt)) [0, 0]
        [sampleLoopBody] [] = [] :=
  ⟨(branch_into_loop_body sampleGotoReference []
      (sampleLabels 1 sampleTargetPosition (.ActionStmt .ContinueStmt)) [0, 0]
      [sampleLoopBody] []
      (sampleTarget 1 sampleTargetPosition (.ActionStmt .ContinueStmt))
      (by decide) (by decide)).2.1 sampleLoopBody,
   (branch_into_loop_body sampleInnerGotoReference []
      (sampleLabels 1 sampleTargetPosition (.ActionStmt .ContinueStmt)) [0, 0]
      [sampleLoopBody] []
      (sampleTarget 1 sampleTargetPosition (.ActionStmt .ContinueStmt))
      (by decide) (by decide)).2.1 sampleLoopBody⟩

/-- C17, as stated, fails: with `10 CONTINUE` in the nested scope 2 and a
`GOTO 10` at offset 40 in scope 1, the reference is not in inclusive scope of
its target, and the branch-into-loop check still says "branch into loop body
from outside" for the loop body that ends at label 10. -/
theorem branch_into_loop_out_of_scope_counterexample :
    InInclusiveScope [0, 0, 1] 1 2 = some false ∧
    CheckBranchesIntoDoBody [sampleGotoReference]
        (sampleLabels 2 sampleTargetPosition (.ActionStmt .ContinueStmt)) [0, 0, 1]
        [sampleLoopBody] [] =
      [⟨sampleGotoPosition, en_US "branch into loop body from outside" [],
        some (sampleDoPosition, en_US "the loop branched into" [])⟩] := by
  decide

/-- C17, amended: the branch-into-loop check considers every reference whose
label is defined, in scope or not. For a generic reference whose label is
defined but whose scope is not in inclusive scope of the scope of the target,
it says "branch into loop body from outside" for exactly the loop bodies that
have the reference outside and the target inside, as for any other defined
label; what it says depends neither on the scope table nor on the scopes of
the references. -/
theorem branch_into_loop_ignores_scope (branch : SourceStatementInfoTuplePOD)
    (rest : SourceStmtList) (labels : TargetStmtMap) (scopes : List ProxyForScope)
    (loopBodies : IndexList) (errorHandler : Messages)
    (target : LabeledStatementInfoTuplePOD)
    (hdef : labels.lookup branch.parserLabel = some target)
    (hscope : HasScope target.proxyForScope = true)
    (_hout : InInclusiveScope scopes branch.proxyForScope target.proxyForScope =
      some false) :
    CheckBranchesIntoDoBody (branch :: rest) labels scopes loopBodies errorHandler =
      CheckBranchesIntoDoBody rest labels scopes loopBodies
        (errorHandler ++ specBranchIntoBodyDiagnostics branch.parserCharBlock
          target.parserCharBlock loopBodies) ∧
    (∀ (scopes2 : List ProxyForScope)
        (rescope : SourceStatementInfoTuplePOD → ProxyForScope),
      CheckBranchesIntoDoBody
          ((branch :: rest).map fun b => ⟨b.parserLabel, rescope b, b.parserCharBlock⟩)
          labels scopes2 loopBodies errorHandler =
        CheckBranchesIntoDoBody (branch :: rest) labels scopes loopBodies errorHandler) := by
  have hget := GetLabel_of_lookup hdef
  refine ⟨?_, fun scopes2 rescope =>
    CheckBranchesIntoDoBody_scope_free labels scopes scopes2 loopBodies rescope _ _⟩
  simp [CheckBranchesIntoDoBody, hget, hscope, CheckBranchesIntoDoBody_bodies_eq_spec]

/-- Witness for C17: the `GOTO 10` of scope 1 towards `10 CONTINUE` of the
nested scope 2, with the loop body that ends at label 10. -/
theorem branch_into_loop_ignores_scope_witness :
    CheckBranchesIntoDoBody [sampleGotoReference]
        (sampleLabels 2 sampleTargetPosition (.ActionStmt .ContinueStmt)) [0, 0, 1]
        [sampleLoopBody] [] =
      CheckBranchesIntoDoBody []
        (sampleLabels 2 sampleTargetPosition (.ActionStmt .ContinueStmt)) [0, 0, 1]
        [sampleLoopBody]
        ([] ++ specBranchIntoBodyDiagnostics sampleGotoPosition sampleTargetPosition
          [sampleLoopBody]) :=
  (branch_into_loop_ignores_scope sampleGotoReference []
    (sampleLabels 2 sampleTargetPosition (.ActionStmt .ContinueStmt)) [0, 0, 1]
    [sampleLoopBody] []
    (sampleTarget 2 sampleTargetPosition (.ActionStmt .ContinueStmt))
    (by decide) (by decide) (by decide)).1

/-! ## The classification of statements -/

/-- C18: the DO-terminator classification of every statement kind: END DO and
CONTINUE get Do; arithmetic IF, CYCLE, EXIT, STOP, GOTO and RETURN get neither
Do nor CompatibleDo; every other action statement gets CompatibleDo and not
Do; every statement that is neither an action statement nor END DO gets
neither. -/
theorem do_terminator_classification (statement : Statement) :
    let flags := constructBranchTargetFlags statement
    ((statement.statement = .EndDoStmt ∨ statement.statement = .IndirectionEndDoStmt ∨
        statement.statement = .ActionStmt .ContinueStmt) →
      flags.test .Do = true ∧ flags.test .CompatibleDo = false) ∧
    (∀ u, statement.statement = .ActionStmt u →
      (u = .ArithmeticIfStmt ∨ u = .CycleStmt ∨ u = .ExitStmt ∨ u = .StopStmt ∨
        u = .GotoStmt ∨ u = .ReturnStmt) →
      flags.test .Do = false ∧ flags.test .CompatibleDo = false) ∧
    (∀ u, statement.statement = .ActionStmt u →
      u ≠ .ContinueStmt → u ≠ .ArithmeticIfStmt → u ≠ .CycleStmt → u ≠ .ExitStmt →
      u ≠ .StopStmt → u ≠ .GotoStmt → u ≠ .ReturnStmt →
      flags.test .CompatibleDo = true ∧ flags.test .Do = false) ∧
    ((∀ u, statement.statement ≠ .ActionStmt u) →
      statement.statement ≠ .EndDoStmt → statement.statement ≠ .IndirectionEndDoStmt →
      flags.test .Do = false ∧ flags.test .CompatibleDo = false) := by
  obtain ⟨source, label, kind⟩ := statement
  intro flags
  refine ⟨?_, ?_, ?_, ?_⟩
  · rintro (h | h | h) <;> simp only at h <;> subst h <;> exact ⟨rfl, rfl⟩
  · intro u h hu
    simp only at h
    subst h
    rcases hu with h | h | h | h | h | h <;> subst h <;> exact ⟨rfl, rfl⟩
  · intro u h h1 h2 h3 h4 h5 h6 h7
    simp only at h
    subst h
    cases u <;> first | exact ⟨rfl, rfl⟩ | contradiction
  · intro hnot h1 h2
    simp only at hnot h1 h2
    cases kind <;> first | exact ⟨rfl, rfl⟩ | contradiction | exact absurd rfl (hnot _)

/-- Witness for C18: CONTINUE, GOTO, an assignment and a FORMAT statement. -/
theorem do_terminator_classification_witness :
    (constructBranchTargetFlags
      ⟨sampleTargetPosition, some 10, .ActionStmt .ContinueStmt⟩).test .Do = true ∧
    (constructBranchTargetFlags
      ⟨sampleGotoTargetPosition, some 10, .ActionStmt .GotoStmt⟩).test .CompatibleDo = false ∧
    (constructBranchTargetFlags
      ⟨sampleAssignmentPosition, some 10, .ActionStmt (.Other 0)⟩).test .CompatibleDo = true ∧
    (constructBranchTargetFlags
      ⟨sampleFormatPosition, some 10, .IndirectionFormatStmt⟩).test .Do = false :=
  ⟨((do_terminator_classification
      ⟨sampleTargetPosition, some 10, .ActionStmt .ContinueStmt⟩).1
      (Or.inr (Or.inr rfl))).1,
   ((do_terminator_classification
      ⟨sampleGotoTargetPosition, some 10, .ActionStmt .GotoStmt⟩).2.1 .GotoStmt rfl
      (by decide)).2,
   ((do_terminator_classification
      ⟨sampleAssignmentPosition, some 10, .ActionStmt (.Other 0)⟩).2.2.1 (.Other 0) rfl
      (by decide) (by decide) (by decide) (by decide) (by decide) (by decide)
      (by decide)).1,
   ((do_terminator_classification
      ⟨sampleFormatPosition, some 10, .IndirectionFormatStmt⟩).2.2.2
      (by intro u h; simp at h) (by decide) (by decide)).1⟩

/-- C19, as stated, fails: an arithmetic IF statement gets CompatibleBranch, and
an assignment statement (an action statement outside the four named ones) gets
Branch and not CompatibleBranch. -/
theorem action_branch_classification_counterexample :
    (constructBranchTargetFlags
      ⟨sampleTargetPosition, some 10, .ActionStmt .ArithmeticIfStmt⟩).test
        .CompatibleBranch = true ∧
    (constructBranchTargetFlags
      ⟨sampleAssignmentPosition, some 10, .ActionStmt (.Other 0)⟩).test .Branch = true ∧
    (constructBranchTargetFlags
      ⟨sampleAssignmentPosition, some 10, .ActionStmt (.Other 0)⟩).test
        .CompatibleBranch = false := by
  decide

/-- C19, amended: among the action statements, an arithmetic IF, ASSIGN,
assigned GOTO or PAUSE statement gets CompatibleBranch and not Branch
(compatibility only), and every other action statement gets Branch and not
CompatibleBranch (always a legal branch target). -/
theorem action_branch_classification (statement : Statement) (u : ActionStmtAlt)
    (haction : statement.statement = .ActionStmt u) :
    let flags := constructBranchTargetFlags statement
    ((u = .ArithmeticIfStmt ∨ u = .AssignStmt ∨ u = .AssignedGotoStmt ∨ u = .PauseStmt) →
      flags.test .CompatibleBranch = true ∧ flags.test .Branch = false) ∧
    (u ≠ .ArithmeticIfStmt → u ≠ .AssignStmt → u ≠ .AssignedGotoStmt → u ≠ .PauseStmt →
      flags.test .Branch = true ∧ flags.test .CompatibleBranch = false) := by
  obtain ⟨source, label, kind⟩ := statement
  simp only at haction
  subst haction
  intro flags
  constructor
  · rintro (h | h | h | h) <;> subst h <;> exact ⟨rfl, rfl⟩
  · intro h1 h2 h3 h4
    cases u <;> first | exact ⟨rfl, rfl⟩ | contradiction

/-- Witness for C19: a PAUSE statement and a CONTINUE statement. -/
theorem action_branch_classification_witness :
    (constructBranchTargetFlags
      ⟨sampleTargetPosition, some 10, .ActionStmt .PauseStmt⟩).test .CompatibleBranch = true ∧
    (constructBranchTargetFlags
      ⟨sampleTargetPosition, some 10, .ActionStmt .ContinueStmt⟩).test .Branch = true :=
  ⟨((action_branch_classification ⟨sampleTargetPosition, some 10, .ActionStmt .PauseStmt⟩
      .PauseStmt rfl).1 (by decide)).1,
   ((action_branch_classification ⟨sampleTargetPosition, some 10, .ActionStmt .ContinueStmt⟩
      .ContinueStmt rfl).2 (by decide) (by decide) (by decide) (by decide)).1⟩

theorem Format_flag_eq_IsFormat (statement : Statement) :
    (constructBranchTargetFlags statement).test .Format = IsFormat statement.statement := by
  obtain ⟨source, label, kind⟩ := statement
  cases kind with
  | ActionStmt u => cases u <;> rfl
  | _ => rfl

/-- C20: the classification of a statement contains the Format flag exactly
when the statement is a FORMAT statement; the classification of a FORMAT
statement is the set holding Format alone, so it is neither a legal nor a
compatible DO terminator or branch target, and a GOTO to the label of a FORMAT
statement gets the fatal "not a branch target". -/
theorem format_classification (statement : Statement) :
    let flags := constructBranchTargetFlags statement
    (flags.test .Format = true ↔ statement.statement = .IndirectionFormatStmt) ∧
    (statement.statement = .IndirectionFormatStmt →
      flags = ⟨false, false, true, false, false⟩ ∧
      ∀ (stmt : SourceStatementInfoTuplePOD) (rest : SourceStmtList)
        (labels : TargetStmtMap) (errorHandler : Messages) (scope : ProxyForScope)
        (position : CharBlock),
        labels.lookup stmt.parserLabel = some ⟨scope, position, flags⟩ →
        HasScope scope = true →
        CheckBranchTargetConstraints (stmt :: rest) labels errorHandler =
          CheckBranchTargetConstraints rest labels (errorHandler ++
            [⟨position,
              err_en_US "'%u' not a branch target"
                [.unsignedArg (SayLabel stmt.parserLabel)],
              some (stmt.parserCharBlock,
                en_US "control flow use of '%u'"
                  [.unsignedArg (SayLabel stmt.parserLabel)])⟩])) := by
  intro flags
  constructor
  · rw [Format_flag_eq_IsFormat]
    cases h : statement.statement <;> simp [IsFormat]
  · intro hformat
    have hflags : flags = ⟨false, false, true, false, false⟩ := by
      obtain ⟨source, label, kind⟩ := statement
      simp only at hformat
      subst hformat
      rfl
    refine ⟨hflags, ?_⟩
    intro stmt rest labels errorHandler scope position hdef hscope
    have hget := GetLabel_of_lookup hdef
    rw [hflags] at hget
    simp [CheckBranchTargetConstraints, hget, hscope, LabeledStmtClassificationSet.test,
      Messages.SayAttach]

/-- Witness for C20: `GOTO 10` towards `10 FORMAT (I5)`. -/
theorem format_classification_witness :
    constructBranchTargetFlags ⟨sampleFormatPosition, some 10, .IndirectionFormatStmt⟩ =
      ⟨false, false, true, false, false⟩ ∧
    CheckBranchTargetConstraints [sampleGotoReference]
        (sampleLabels 1 sampleFormatPosition .IndirectionFormatStmt) [] =
      [⟨sampleFormatPosition, err_en_US "'%u' not a branch target" [.unsignedArg 10],
        some (sampleGotoPosition, en_US "control flow use of '%u'" [.unsignedArg 10])⟩] :=
  have h := (format_classification
    ⟨sampleFormatPosition, some 10, .IndirectionFormatStmt⟩).2 rfl
  ⟨h.1, h.2 sampleGotoReference []
    (sampleLabels 1 sampleFormatPosition .IndirectionFormatStmt) [] 1 sampleFormatPosition
    (by decide) (by decide)⟩

/-! ## The scope table during the walk -/

theorem ScopeTableWF_of {scopes : List Nat} (h0 : scopes[0]? = some 0)
    (hlt : ∀ i p, i ≠ 0 → scopes[i]? = some p → p < i) : ScopeTableWF scopes = true := by
  unfold ScopeTableWF
  simp only [Bool.and_eq_true, beq_iff_eq, List.all_eq_true, List.mem_range, Bool.or_eq_true,
    decide_eq_true_eq]
  constructor
  · cases scopes with
    | nil => simp at h0
    | cons x xs => simpa using h0
  · intro i hi
    by_cases hz : i = 0
    · exact Or.inl hz
    · right
      have hget : scopes[i]? = some scopes[i] := List.getElem?_eq_getElem hi
      have := hlt i scopes[i] hz hget
      simpa [List.getD, hget] using this

theorem ScopeTableWF_append {scopes : List Nat} (hwf : ScopeTableWF scopes = true)
    {H : Nat} (hH : H < scopes.length) (k : Nat) :
    ScopeTableWF (scopes ++ List.replicate k H) = true := by
  apply ScopeTableWF_of
  · rw [List.getElem?_append_left (by omega)]
    exact ScopeTableWF_zero hwf
  · intro i p hi hp
    by_cases hlen : i < scopes.length
    · rw [List.getElem?_append_left hlen] at hp
      exact ScopeTableWF_lt hwf hi hp
    · rw [List.getElem?_append_right (by omega)] at hp
      have hmem : p ∈ List.replicate k H := List.getElem?_mem hp
      have : p = H := (List.mem_replicate.1 hmem).2
      omega

theorem getElem?_append_replicate {scopes : List Nat} {H : Nat} {k i : Nat} (hi : i < k) :
    (scopes ++ List.replicate k H)[scopes.length + i]? = some H := by
  rw [List.getElem?_append_right (by omega)]
  simp [hi]

theorem InInclusiveScope_spec {scopes : List Nat} (hwf : ScopeTableWF scopes = true)
    {tail : Nat} (htail : tail < scopes.length) (head : Nat) :
    ∃ b, InInclusiveScope scopes tail head = some b ∧
      (b = true ↔ ∃ k, (parentOf scopes)^[k] tail = head) :=
  InInclusiveScopeLoop_spec hwf head tail (scopes.length + 1) htail (by omega)

theorem InInclusiveScope_parent {scopes : List Nat} (hwf : ScopeTableWF scopes = true)
    {tail parent : Nat} (hget : scopes[tail]? = some parent) :
    InInclusiveScope scopes tail parent = some true := by
  have htail : tail < scopes.length := by
    by_contra h
    rw [List.getElem?_eq_none (by omega)] at hget
    cases hget
  obtain ⟨b, hb, hiff⟩ := InInclusiveScope_spec hwf htail parent
  have : b = true := hiff.2 ⟨1, by simp [parentOf, List.getD, hget]⟩
  rw [hb, this]

theorem InInclusiveScope_not_above {scopes : List Nat} (hwf : ScopeTableWF scopes = true)
    {tail head : Nat} (htail : tail < scopes.length) (hne : tail ≠ head)
    (hparent : parentOf scopes tail < head) :
    InInclusiveScope scopes tail head = some false := by
  obtain ⟨b, hb, hiff⟩ := InInclusiveScope_spec hwf htail head
  have : b = false := by
    cases b with
    | false => rfl
    | true =>
      exfalso
      obtain ⟨k, hk⟩ := hiff.1 rfl
      cases k with
      | zero => exact hne hk
      | succ k =>
        rw [Function.iterate_succ_apply] at hk
        have := parentOf_iterate_le hwf k (parentOf scopes tail)
          (parentOf_lt_length hwf htail)
        omega
  rw [hb, this]

theorem pushSubscope_of_getLast {a : ParseTreeAnalyzer} {programUnit : UnitAnalysis}
    (h : a.programUnits_.getLast? = some programUnit) :
    pushSubscope a = some { a with
      programUnits_ := a.programUnits_.dropLast ++
        [{ programUnit with scopeModel := programUnit.scopeModel ++ [a.currentScope_] }]
      currentScope_ := programUnit.scopeModel.length } := by
  simp [pushSubscope, h]

theorem PopScope_of_getLast {a : ParseTreeAnalyzer} {programUnit : UnitAnalysis}
    {parent : ProxyForScope} (h : a.programUnits_.getLast? = some programUnit)
    (hget : programUnit.scopeModel[a.currentScope_]? = some parent) :
    PopScope a = some { a with currentScope_ := parent } := by
  simp [PopScope, h, hget]

/-! ## The name checks -/

theorem namesBothEqualOrBothNone_eq (name_a name_b : Option String) :
    namesBothEqualOrBothNone name_a name_b = decide (name_a = name_b) := by
  cases name_a <;> cases name_b <;> simp [namesBothEqualOrBothNone]
  rfl

theorem firstNameNoneOrBothEqual_eq (interior outer : Option String) :
    firstNameNoneOrBothEqual interior outer = InteriorNameAccepted interior outer := by
  unfold InteriorNameAccepted
  rw [Bool.eq_iff_iff, decide_eq_true_iff]
  cases interior with
  | none => simp [firstNameNoneOrBothEqual]
  | some a =>
    cases outer with
    | none =>
      simp only [firstNameNoneOrBothEqual, Bool.false_eq_true, false_iff]
      rintro (h | ⟨x, _, h⟩) <;> cases h
    | some b =>
      simp only [firstNameNoneOrBothEqual, beq_iff_eq]
      constructor
      · intro h
        exact Or.inr ⟨a, rfl, by rw [h]⟩
      · rintro (h | ⟨x, h1, h2⟩)
        · cases h
        · cases h1
          cases h2
          rfl

theorem saying_nil (a : ParseTreeAnalyzer) : a.saying [] = a := by
  simp [ParseTreeAnalyzer.saying]

theorem saying_saying (a : ParseTreeAnalyzer) (xs ys : List Message) :
    (a.saying xs).saying ys = a.saying (xs ++ ys) := by
  simp [ParseTreeAnalyzer.saying]

theorem sayMismatch_eq (a : ParseTreeAnalyzer) (text : MessageFormattedText) (c : Construct)
    (note : MessageFormattedText) :
    sayMismatch a text c note = a.saying [⟨a.currentPosition_, text, some (c.source, note)⟩] := by
  simp [sayMismatch, ParseTreeAnalyzer.saying, Messages.SayAttach]

theorem CheckName_parts_eq (c : Construct) (text note : MessageFormattedText) :
    ∀ (parts : List (Option String)) (a : ParseTreeAnalyzer),
      CheckName_parts c text note parts a =
        a.saying ((parts.filter fun part => !InteriorNameAccepted part c.name).map
          (fun _ => ⟨a.currentPosition_, text, some (c.source, note)⟩)) := by
  intro parts
  induction parts with
  | nil => intro a; simp [CheckName_parts, saying_nil]
  | cons part rest ih =>
    intro a
    unfold CheckName_parts
    rw [firstNameNoneOrBothEqual_eq]
    cases h : InteriorNameAccepted part c.name
    · simp [ih, h, sayMismatch_eq, saying_saying, ParseTreeAnalyzer.saying]
    · simp [ih, h]

theorem CheckName_last_eq (c : Construct) (text note : MessageFormattedText)
    (a : ParseTreeAnalyzer) :
    CheckName_last c text note a =
      a.saying (match c.last with
        | some part =>
          if InteriorNameAccepted part c.name then []
          else [⟨a.currentPosition_, text, some (c.source, note)⟩]
        | none => []) := by
  unfold CheckName_last
  cases hlast : c.last with
  | none => simp [saying_nil]
  | some part =>
    simp only [firstNameNoneOrBothEqual_eq]
    cases h : InteriorNameAccepted part c.name <;>
      simp [sayMismatch_eq, saying_nil]

theorem openClose_eq (a : ParseTreeAnalyzer) (c : Construct)
    (text note : MessageFormattedText) :
    (if (!namesBothEqualOrBothNone c.name c.endName) = true then sayMismatch a text c note
      else a) =
      a.saying (if c.name = c.endName then []
        else [⟨a.currentPosition_, text, some (c.source, note)⟩]) := by
  rw [namesBothEqualOrBothNone_eq]
  by_cases h : c.name = c.endName <;> simp [h, sayMismatch_eq, saying_nil]

/-- What `CheckName` does: it only appends to the sink, first the mismatch of
the opening and closing names, then the mismatches of the interior names. -/
theorem CheckName_eq (a : ParseTreeAnalyzer) (c : Construct) :
    CheckName a c =
      a.saying ((if c.name = c.endName then [] else [constructMismatch a.currentPosition_ c]) ++
        specInteriorMismatches a.currentPosition_ c) := by
  unfold CheckName
  cases hkind : c.kind <;>
    simp only [CheckName_tag, CheckName_Block, CheckName_ChangeTeam, CheckName_If,
      CheckName_select, CheckName_Where, openClose_eq, CheckName_parts_eq, CheckName_last_eq,
      saying_saying] <;>
    simp [constructMismatch, specInteriorMismatches, checkedParts, checkedLast, partMismatch,
      lastMismatch, hkind, ParseTreeAnalyzer.saying]

/-! ## Entering and leaving constructs -/

theorem PreConstruct_block {c : Construct} (hWhere : c.kind ≠ .Where)
    (hForall : c.kind ≠ .Forall) (a : ParseTreeAnalyzer) :
    PreConstruct a c = pushConstructName a c := by
  unfold PreConstruct
  cases hkind : c.kind <;> simp_all

theorem PostConstruct_block {c : Construct} (hWhere : c.kind ≠ .Where)
    (hForall : c.kind ≠ .Forall) (a : ParseTreeAnalyzer) :
    PostConstruct a c = popConstructName a c := by
  unfold PostConstruct
  cases hkind : c.kind <;> simp_all

theorem PreConstruct_without_block {c : Construct}
    (hkind : c.kind = .Where ∨ c.kind = .Forall) (a : ParseTreeAnalyzer) :
    PreConstruct a c = pushConstructNameWithoutBlock a c := by
  unfold PreConstruct
  rcases hkind with h | h <;> simp [h]

theorem PostConstruct_without_block {c : Construct}
    (hkind : c.kind = .Where ∨ c.kind = .Forall) (a : ParseTreeAnalyzer) :
    PostConstruct a c = popConstructNameWithoutBlock a c := by
  unfold PostConstruct
  rcases hkind with h | h <;> simp [h]

theorem popConstructNameIfPresent_spec (b : ParseTreeAnalyzer) (c : Construct)
    (hnames : c.name ≠ none → b.constructNames_ ≠ []) :
    ∃ b1, popConstructNameIfPresent b c = some b1 ∧
      b1.programUnits_ = b.programUnits_ ∧ b1.currentScope_ = b.currentScope_ ∧
      b1.currentPosition_ = b.currentPosition_ ∧ b1.errorHandler_ = b.errorHandler_ ∧
      b1.constructNames_ =
        if c.name.isSome then b.constructNames_.dropLast else b.constructNames_ := by
  unfold popConstructNameIfPresent
  cases hname : c.name with
  | none => exact ⟨b, rfl, rfl, rfl, rfl, rfl, by simp⟩
  | some name =>
    have hne := hnames (by simp [hname])
    cases hstack : b.constructNames_ with
    | nil => exact absurd hstack hne
    | cons x xs => exact ⟨_, rfl, rfl, rfl, rfl, rfl, by simp [hstack]⟩

theorem popConstructName_spec (b : ParseTreeAnalyzer) (c : Construct)
    {programUnit : UnitAnalysis} {parent : ProxyForScope}
    (hunit : b.programUnits_.getLast? = some programUnit)
    (hget : programUnit.scopeModel[b.currentScope_]? = some parent)
    (hnames : c.name ≠ none → b.constructNames_ ≠ []) :
    ∃ b1, popConstructName b c = some b1 ∧
      b1.programUnits_ = b.programUnits_ ∧ b1.currentScope_ = parent ∧
      b1.currentPosition_ = b.currentPosition_ ∧
      b1.errorHandler_ = (CheckName b c).errorHandler_ ∧
      b1.constructNames_ =
        if c.name.isSome then b.constructNames_.dropLast else b.constructNames_ := by
  unfold popConstructName
  have hpop : PopScope (CheckName b c) = some { CheckName b c with currentScope_ := parent } := by
    refine @PopScope_of_getLast _ programUnit parent ?_ ?_
    · rw [CheckName_eq]; exact hunit
    · rw [CheckName_eq]; exact hget
  rw [hpop]
  obtain ⟨b1, h1, h2, h3, h4, h5, h6⟩ := popConstructNameIfPresent_spec
    { CheckName b c with currentScope_ := parent } c
    (by rw [CheckName_eq]; exact hnames)
  refine ⟨b1, h1, ?_, h3, ?_, h5, ?_⟩
  · rw [h2, CheckName_eq]; rfl
  · rw [h4, CheckName_eq]; rfl
  · rw [h6, CheckName_eq]; rfl

/-- The scopes created under a host scope `H` by entering a construct and
switching `k` times: each is a child of `H`, in inclusive scope of `H`, and
neither `H` nor another sibling is in inclusive scope of it. -/
theorem sibling_scopes {old : List Nat} (hwf : ScopeTableWF old = true) {H : Nat}
    (hH : H < old.length) (k : Nat) :
    ScopeTableWF (old ++ List.replicate (k + 1) H) = true ∧
    ∀ i, i ≤ k →
      (old ++ List.replicate (k + 1) H)[old.length + i]? = some H ∧
      InInclusiveScope (old ++ List.replicate (k + 1) H) (old.length + i) H = some true ∧
      InInclusiveScope (old ++ List.replicate (k + 1) H) H (old.length + i) = some false ∧
      ∀ j, j ≤ k → i ≠ j →
        InInclusiveScope (old ++ List.replicate (k + 1) H) (old.length + i)
          (old.length + j) = some false := by
  have hwf1 := ScopeTableWF_append hwf hH (k + 1)
  refine ⟨hwf1, ?_⟩
  intro i hi
  have hget : (old ++ List.replicate (k + 1) H)[old.length + i]? = some H :=
    getElem?_append_replicate (by omega)
  have hlen : (old ++ List.replicate (k + 1) H).length = old.length + (k + 1) := by simp
  refine ⟨hget, InInclusiveScope_parent hwf1 hget, ?_, ?_⟩
  · have hHlt : H < (old ++ List.replicate (k + 1) H).length := by omega
    have hle := parentOf_le_pred hwf1 hHlt
    exact InInclusiveScope_not_above hwf1 hHlt (by omega) (by omega)
  · intro j _ hij
    have hpar : parentOf (old ++ List.replicate (k + 1) H) (old.length + i) = H := by
      simp [parentOf, List.getD, hget]
    exact InInclusiveScope_not_above hwf1 (by omega) (by omega) (by omega)

theorem pushConstructName_spec (a : ParseTreeAnalyzer) (c : Construct)
    {programUnit : UnitAnalysis} (hunit : a.programUnits_.getLast? = some programUnit) :
    ∃ a1, pushConstructName a c = some a1 ∧
      a1.programUnits_ = a.programUnits_.dropLast ++
        [{ programUnit with scopeModel := programUnit.scopeModel ++ [a.currentScope_] }] ∧
      a1.currentScope_ = programUnit.scopeModel.length ∧
      a1.currentPosition_ = a.currentPosition_ ∧ a1.errorHandler_ = a.errorHandler_ ∧
      a1.constructNames_ = a.constructNames_ ++ c.name.toList := by
  unfold pushConstructName
  cases hname : c.name with
  | none =>
    exact ⟨_, pushSubscope_of_getLast hunit, rfl, rfl, rfl, rfl, by simp⟩
  | some name =>
    refine ⟨_, @pushSubscope_of_getLast _ programUnit (by simpa using hunit), rfl, rfl, rfl,
      rfl, by simp⟩

/-- C21: entering a block-introducing construct from the current scope `H`
appends one entry to the scope table, whose parent is `H`, and makes the new
handle current; leaving the construct makes `H` current again (at once, or
from any later state whose current scope is the new handle and whose table
still holds the entry). On the table so extended the new scope is in
inclusive scope of `H`, and `H` is not in inclusive scope of the new scope. -/
theorem enter_leave_block_construct (a : ParseTreeAnalyzer) (programUnit : UnitAnalysis)
    (c : Construct) (hWhere : c.kind ≠ .Where) (hForall : c.kind ≠ .Forall)
    (hunit : a.programUnits_.getLast? = some programUnit)
    (hwf : ScopeTableWF programUnit.scopeModel = true)
    (hH : a.currentScope_ < programUnit.scopeModel.length) :
    let H := a.currentScope_
    let new := programUnit.scopeModel.length
    let table := programUnit.scopeModel ++ [H]
    ∃ a1, PreConstruct a c = some a1 ∧
      a1.programUnits_ =
        a.programUnits_.dropLast ++ [{ programUnit with scopeModel := table }] ∧
      a1.currentScope_ = new ∧ table[new]? = some H ∧
      InInclusiveScope table new H = some true ∧
      InInclusiveScope table H new = some false ∧
      (∃ a2, PostConstruct a1 c = some a2 ∧ a2.currentScope_ = H ∧
        a2.programUnits_ = a1.programUnits_ ∧ a2.constructNames_ = a.constructNames_) ∧
      (∀ (b : ParseTreeAnalyzer) (unit2 : UnitAnalysis),
        b.programUnits_.getLast? = some unit2 → unit2.scopeModel[new]? = some H →
        b.currentScope_ = new → (c.name ≠ none → b.constructNames_ ≠ []) →
        ∃ b1, PostConstruct b c = some b1 ∧ b1.currentScope_ = H ∧
          b1.programUnits_ = b.programUnits_) := by
  intro H new table
  obtain ⟨a1, h1, hunits, hscope, hpos, herr, hnames⟩ := pushConstructName_spec a c hunit
  have hwf1 : ScopeTableWF table = true := ScopeTableWF_append hwf hH 1
  have hget : table[new]? = some H := by
    simp [table, new]
  have hlen : table.length = new + 1 := by simp [table, new]
  refine ⟨a1, by rw [PreConstruct_block hWhere hForall]; exact h1, hunits, hscope, hget,
    InInclusiveScope_parent hwf1 hget, ?_, ?_, ?_⟩
  · exact ((sibling_scopes hwf hH 0).2 0 (Nat.le_refl 0)).2.2.1
  · have hlast : a1.programUnits_.getLast? =
        some { programUnit with scopeModel := table } := by
      rw [hunits]; exact List.getLast?_concat _
    obtain ⟨a2, h2, hu2, hs2, _, _, hn2⟩ := popConstructName_spec a1 c hlast
      (by rw [hscope]; exact hget)
      (by
        intro hname
        rw [hnames]
        cases hn : c.name with
        | none => exact absurd hn hname
        | some name => simp)
    refine ⟨a2, by rw [PostConstruct_block hWhere hForall]; exact h2, hs2, hu2, ?_⟩
    rw [hn2, hnames]
    cases hn : c.name <;> simp
  · intro b unit2 hb hget2 hcur hstack
    obtain ⟨b1, h2, hu2, hs2, _, _, _⟩ := popConstructName_spec b c hb
      (by rw [hcur]; exact hget2) hstack
    exact ⟨b1, by rw [PostConstruct_block hWhere hForall]; exact h2, hs2, hu2⟩

/-- Witness for C21: an IF construct entered from scope 1 of a fresh unit. -/
theorem enter_leave_block_construct_witness :
    ∃ a1, PreConstruct sampleFreshAnalyzer sampleIfConstruct = some a1 ∧
      a1.currentScope_ = 2 ∧
      InInclusiveScope [0, 0, 1] 2 1 = some true ∧
      InInclusiveScope [0, 0, 1] 1 2 = some false ∧
      ∃ a2, PostConstruct a1 sampleIfConstruct = some a2 ∧ a2.currentScope_ = 1 := by
  obtain ⟨a1, h1, _, h3, _, h5, h6, ⟨a2, h7, h8, _⟩, _⟩ :=
    enter_leave_block_construct sampleFreshAnalyzer ⟨[], [], [], [], [0, 0]⟩
      sampleIfConstruct (by decide) (by decide) rfl (by decide) (by decide)
  exact ⟨a1, h1, h3, h5, h6, a2, h7, h8⟩

theorem switchToNewScope_spec (b : ParseTreeAnalyzer) {programUnit : UnitAnalysis}
    {parent : ProxyForScope} (hunit : b.programUnits_.getLast? = some programUnit)
    (hget : programUnit.scopeModel[b.currentScope_]? = some parent) :
    ∃ b1, switchToNewScope b = some b1 ∧
      b1.programUnits_ = b.programUnits_.dropLast ++
        [{ programUnit with scopeModel := programUnit.scopeModel ++ [parent] }] ∧
      b1.currentScope_ = programUnit.scopeModel.length ∧
      b1.currentPosition_ = b.currentPosition_ ∧ b1.errorHandler_ = b.errorHandler_ ∧
      b1.constructNames_ = b.constructNames_ := by
  unfold switchToNewScope
  rw [PopScope_of_getLast hunit hget]
  exact ⟨_, @pushSubscope_of_getLast _ programUnit hunit, rfl, rfl, rfl, rfl, rfl⟩

theorem switchToNewScopeTimes_spec (old : List Nat) (H : Nat) (init : List UnitAnalysis) :
    ∀ (k j : Nat) (b : ParseTreeAnalyzer) (programUnit : UnitAnalysis),
      b.programUnits_ = init ++ [programUnit] →
      programUnit.scopeModel = old ++ List.replicate (j + 1) H →
      b.currentScope_ = old.length + j →
      ∃ b1, switchToNewScopeTimes k b = some b1 ∧
        b1.programUnits_ = init ++
          [{ programUnit with scopeModel := old ++ List.replicate (j + k + 1) H }] ∧
        b1.currentScope_ = old.length + (j + k) ∧
        b1.currentPosition_ = b.currentPosition_ ∧ b1.errorHandler_ = b.errorHandler_ ∧
        b1.constructNames_ = b.constructNames_ := by
  intro k
  induction k with
  | zero =>
    intro j b programUnit hunits htable hcur
    refine ⟨b, rfl, ?_, hcur, rfl, rfl, rfl⟩
    rw [hunits, ← htable]
  | succ k ih =>
    intro j b programUnit hunits htable hcur
    have hlast : b.programUnits_.getLast? = some programUnit := by
      rw [hunits]; exact List.getLast?_concat _
    have hget : programUnit.scopeModel[b.currentScope_]? = some H := by
      rw [htable, hcur]
      exact getElem?_append_replicate (by omega)
    obtain ⟨b1, h1, hu1, hs1, hp1, he1, hn1⟩ := switchToNewScope_spec b hlast hget
    have hdrop : b.programUnits_.dropLast = init := by
      rw [hunits]; exact List.dropLast_concat
    rw [hdrop] at hu1
    have htable1 : programUnit.scopeModel ++ [H] = old ++ List.replicate (j + 1 + 1) H := by
      rw [htable, List.append_assoc]
      congr 1
      rw [List.replicate_succ' (j + 1)]
    obtain ⟨b2, h2, hu2, hs2, hp2, he2, hn2⟩ := ih (j + 1) b1
      { programUnit with scopeModel := programUnit.scopeModel ++ [H] } hu1 htable1
      (by rw [hs1, htable]; simp)
    refine ⟨b2, ?_, ?_, ?_, hp2.trans hp1, he2.trans he1, hn2.trans hn1⟩
    · simp only [switchToNewScopeTimes, h1]
      exact h2
    · rw [hu2]
      have : j + 1 + k + 1 = j + (k + 1) + 1 := by omega
      rw [this]
    · rw [hs2]
      congr 1
      omega

/-- C22: after entering a construct from the host scope `H` and switching to a
new sibling scope `k` times, the `k + 1` scopes created for the construct all
have `H` as their parent, are pairwise distinct, none of them is in inclusive
scope of another, and leaving the construct (its `PopScope`) makes `H` current
again. -/
theorem sibling_switches (a : ParseTreeAnalyzer) (programUnit : UnitAnalysis)
    (c : Construct) (k : Nat) (hWhere : c.kind ≠ .Where) (hForall : c.kind ≠ .Forall)
    (hunit : a.programUnits_.getLast? = some programUnit)
    (hwf : ScopeTableWF programUnit.scopeModel = true)
    (hH : a.currentScope_ < programUnit.scopeModel.length) :
    let H := a.currentScope_
    let n := programUnit.scopeModel.length
    let table := programUnit.scopeModel ++ List.replicate (k + 1) H
    ∃ a1 b, PreConstruct a c = some a1 ∧ switchToNewScopeTimes k a1 = some b ∧
      b.programUnits_ =
        a.programUnits_.dropLast ++ [{ programUnit with scopeModel := table }] ∧
      b.currentScope_ = n + k ∧
      (∀ i, i ≤ k → table[n + i]? = some H) ∧
      (∀ i j, i ≤ k → j ≤ k → i ≠ j →
        n + i ≠ n + j ∧ InInclusiveScope table (n + i) (n + j) = some false) ∧
      (∃ b1, PopScope b = some b1 ∧ b1.currentScope_ = H) ∧
      (∃ b2, PostConstruct b c = some b2 ∧ b2.currentScope_ = H ∧
        b2.constructNames_ = a.constructNames_) := by
  intro H n table
  obtain ⟨a1, h1, hunits, hscope, hpos, herr, hnames⟩ := pushConstructName_spec a c hunit
  obtain ⟨b, hb, hbu, hbs, _, _, hbn⟩ := switchToNewScopeTimes_spec programUnit.scopeModel
    a.currentScope_ a.programUnits_.dropLast k 0 a1
    { programUnit with scopeModel := programUnit.scopeModel ++ [a.currentScope_] }
    hunits rfl (by rw [hscope]; rfl)
  have hsib := sibling_scopes hwf hH k
  have htable : (0 + k + 1) = k + 1 := by omega
  rw [htable] at hbu
  have hbs1 : b.currentScope_ = n + k := by
    rw [hbs]
    congr 1
    omega
  have hlast : b.programUnits_.getLast? =
      some { programUnit with scopeModel := table } := by
    rw [hbu]; exact List.getLast?_concat _
  have hget : table[b.currentScope_]? = some H := by
    rw [hbs1]
    exact (hsib.2 k (Nat.le_refl k)).1
  refine ⟨a1, b, by rw [PreConstruct_block hWhere hForall]; exact h1, hb, hbu, hbs1,
    fun i hi => (hsib.2 i hi).1, ?_, ⟨_, PopScope_of_getLast hlast hget, rfl⟩, ?_⟩
  · intro i j hi hj hij
    exact ⟨by omega, (hsib.2 i hi).2.2.2 j hj hij⟩
  · obtain ⟨b2, h2, _, hs2, _, _, hn2⟩ := popConstructName_spec b c hlast hget
      (by
        intro hname
        rw [hbn, hnames]
        cases hn : c.name with
        | none => exact absurd hn hname
        | some name => simp)
    refine ⟨b2, by rw [PostConstruct_block hWhere hForall]; exact h2, hs2, ?_⟩
    rw [hn2, hbn, hnames]
    cases hn : c.name <;> simp

/-- Witness for C22: an IF construct entered from scope 1 of a fresh unit, with
two sibling switches: the scopes 2, 3 and 4 are children of scope 1. -/
theorem sibling_switches_witness :
    ∃ a1 b, PreConstruct sampleFreshAnalyzer sampleIfConstruct = some a1 ∧
      switchToNewScopeTimes 2 a1 = some b ∧
      b.programUnits_ = [⟨[], [], [], [], [0, 0, 1, 1, 1]⟩] ∧ b.currentScope_ = 4 ∧
      InInclusiveScope [0, 0, 1, 1, 1] 2 4 = some false ∧
      ∃ b1, PopScope b = some b1 ∧ b1.currentScope_ = 1 := by
  obtain ⟨a1, b, h1, h2, h3, h4, _, h6, h7, _⟩ :=
    sibling_switches sampleFreshAnalyzer ⟨[], [], [], [], [0, 0]⟩ sampleIfConstruct 2
      (by decide) (by decide) rfl (by decide) (by decide)
  exact ⟨a1, b, h1, h2, h3, h4, (h6 0 2 (by decide) (by decide) (by decide)).2, h7⟩

/-- C23: entering and leaving a WHERE or FORALL construct changes neither the
tables of the unit (the scope table among them) nor the current scope: on
entry the name of the opening statement is pushed exactly when there is one,
on exit it is popped under the same condition, and entering then leaving
restores the stack of names. A label defined inside the body is therefore
recorded with the enclosing scope. -/
theorem where_forall_keep_scope (a : ParseTreeAnalyzer) (c : Construct)
    (hkind : c.kind = .Where ∨ c.kind = .Forall) :
    ∃ a1, PreConstruct a c = some a1 ∧
      a1.programUnits_ = a.programUnits_ ∧ a1.currentScope_ = a.currentScope_ ∧
      a1.currentPosition_ = a.currentPosition_ ∧ a1.errorHandler_ = a.errorHandler_ ∧
      a1.constructNames_ = a.constructNames_ ++ c.name.toList ∧
      (∀ b : ParseTreeAnalyzer, (c.name ≠ none → b.constructNames_ ≠ []) →
        ∃ b1, PostConstruct b c = some b1 ∧
          b1.programUnits_ = b.programUnits_ ∧ b1.currentScope_ = b.currentScope_ ∧
          b1.constructNames_ =
            if c.name.isSome then b.constructNames_.dropLast else b.constructNames_) ∧
      (∃ a2, PostConstruct a1 c = some a2 ∧
        a2.programUnits_ = a.programUnits_ ∧ a2.currentScope_ = a.currentScope_ ∧
        a2.constructNames_ = a.constructNames_) ∧
      (∀ (statement : Statement) (programUnit : UnitAnalysis) (N : Label),
        a.programUnits_.getLast? = some programUnit → statement.label = some N →
        programUnit.targetStmts.lookup N = none →
        ∃ a2 unit2, PreStatement a1 statement = some a2 ∧
          a2.programUnits_.getLast? = some unit2 ∧
          (GetLabel unit2.targetStmts N).proxyForScope = a.currentScope_) := by
  have hpush : ∃ a1, pushConstructNameWithoutBlock a c = some a1 ∧
      a1.programUnits_ = a.programUnits_ ∧ a1.currentScope_ = a.currentScope_ ∧
      a1.currentPosition_ = a.currentPosition_ ∧ a1.errorHandler_ = a.errorHandler_ ∧
      a1.constructNames_ = a.constructNames_ ++ c.name.toList := by
    unfold pushConstructNameWithoutBlock
    cases hname : c.name with
    | none => exact ⟨a, rfl, rfl, rfl, rfl, rfl, by simp⟩
    | some name => exact ⟨_, rfl, rfl, rfl, rfl, rfl, by simp⟩
  have hpop : ∀ b : ParseTreeAnalyzer, (c.name ≠ none → b.constructNames_ ≠ []) →
      ∃ b1, PostConstruct b c = some b1 ∧
        b1.programUnits_ = b.programUnits_ ∧ b1.currentScope_ = b.currentScope_ ∧
        b1.constructNames_ =
          if c.name.isSome then b.constructNames_.dropLast else b.constructNames_ := by
    intro b hstack
    obtain ⟨b1, h1, h2, h3, _, _, h6⟩ := popConstructNameIfPresent_spec (CheckName b c) c
      (by rw [CheckName_eq]; exact hstack)
    refine ⟨b1, ?_, ?_, ?_, ?_⟩
    · rw [PostConstruct_without_block hkind]; exact h1
    · rw [h2, CheckName_eq]; rfl
    · rw [h3, CheckName_eq]; rfl
    · rw [h6, CheckName_eq]; rfl
  obtain ⟨a1, h1, hu, hs, hp, he, hn⟩ := hpush
  refine ⟨a1, by rw [PreConstruct_without_block hkind]; exact h1, hu, hs, hp, he, hn, hpop,
    ?_, ?_⟩
  · obtain ⟨a2, h2, hu2, hs2, hn2⟩ := hpop a1 (by
      intro hname
      rw [hn]
      cases hc : c.name with
      | none => exact absurd hc hname
      | some name => simp)
    refine ⟨a2, h2, hu2.trans hu, hs2.trans hs, ?_⟩
    rw [hn2, hn]
    cases hc : c.name <;> simp
  · intro statement programUnit N hunit hlabel hnone
    have hlast : ({ a1 with currentPosition_ := statement.source } :
        ParseTreeAnalyzer).programUnits_.getLast? = some programUnit := by
      simpa [hu] using hunit
    have hpre : PreStatement a1 statement = addTargetLabelDefinition
        { a1 with currentPosition_ := statement.source } N
        (constructBranchTargetFlags statement) := by
      simp only [PreStatement, hlabel]
    rw [hpre, addTargetLabelDefinition_of_getLast N (constructBranchTargetFlags statement)
      hlast]
    refine ⟨_, _, rfl, List.getLast?_concat _, ?_⟩
    simp only [TargetStmtMap.emplace, hnone]
    rw [GetLabel_of_lookup (lookup_append_of_none _ hnone)]
    exact hs

/-- Witness for C23: a WHERE construct named `W` entered in scope 1. -/
theorem where_forall_keep_scope_witness :
    ∃ a1, PreConstruct sampleFreshAnalyzer sampleWhereConstruct = some a1 ∧
      a1.programUnits_ = sampleFreshAnalyzer.programUnits_ ∧ a1.currentScope_ = 1 ∧
      a1.constructNames_ = ["W"] := by
  obtain ⟨a1, h1, h2, h3, _, _, h6, _⟩ :=
    where_forall_keep_scope sampleFreshAnalyzer sampleWhereConstruct (Or.inl rfl)
  exact ⟨a1, h1, h2, h3, h6⟩

/-! ## CYCLE and EXIT -/

theorem find_reverse_isNone (names : List String) (n : String) :
    (names.reverse.find? fun name => name == n).isNone = decide (n ∉ names) := by
  rw [Bool.eq_iff_iff]
  simp only [Option.isNone_iff_eq_none, List.find?_eq_none, List.mem_reverse, beq_iff_eq,
    decide_eq_true_eq]
  constructor
  · intro h hmem
    exact h n hmem rfl
  · intro h x hx hxn
    exact h (hxn ▸ hx)

/-- C25: for a CYCLE or EXIT statement with the construct name `n`, the fatal
"construct-name is not in scope" is said, at the statement, exactly when `n`
occurs nowhere in the stack of construct names; without a name operand nothing
is checked and nothing is said. -/
theorem cycle_exit_name_checked (a : ParseTreeAnalyzer) (n : String) :
    let notInScope : String → Message := fun stmtString => ⟨a.currentPosition_,
      err_en_US "%s construct-name '%s' is not in scope"
        [.stringArg stmtString, .stringArg n], none⟩
    PostCycleStmt a (some n) =
      a.saying (if n ∈ a.constructNames_ then [] else [notInScope "CYCLE"]) ∧
    PostExitStmt a (some n) =
      a.saying (if n ∈ a.constructNames_ then [] else [notInScope "EXIT"]) ∧
    (notInScope "CYCLE").IsFatal = true ∧ (notInScope "EXIT").IsFatal = true ∧
    PostCycleStmt a none = a ∧ PostExitStmt a none = a := by
  intro notInScope
  have h : ∀ stmtString, CheckLabelContext a stmtString n =
      a.saying (if n ∈ a.constructNames_ then [] else [notInScope stmtString]) := by
    intro stmtString
    unfold CheckLabelContext
    rw [find_reverse_isNone]
    by_cases hmem : n ∈ a.constructNames_
    · simp [hmem, saying_nil]
    · simp [hmem, ParseTreeAnalyzer.saying, Messages.Say, notInScope]
  exact ⟨h "CYCLE", h "EXIT", rfl, rfl, rfl, rfl⟩

/-! ## Names of the opening, closing and interior statements -/

theorem constructMismatch_facts (position : CharBlock) (c : Construct) :
    (constructMismatch position c).IsFatal = true ∧
    (constructMismatch position c).location = position ∧
    (constructMismatch position c).attachment.map Prod.fst = some c.source := by
  unfold constructMismatch
  cases c.kind <;> exact ⟨rfl, rfl, rfl⟩

/-- C26: for every construct, the check of the name of the opening statement
against the name of the closing statement says nothing when both names are
absent or both are present and equal, and says one fatal mismatch, at the
current (closing) statement with the opening statement attached, in the three
other cases: a named opening with an unnamed END, an unnamed opening with a
named END, and two different names. What follows it in the sink are the
diagnostics of the interior names, none for a construct without interior
statements. -/
theorem open_close_name_check (a : ParseTreeAnalyzer) (c : Construct) :
    let msg := constructMismatch a.currentPosition_ c
    let interior := specInteriorMismatches a.currentPosition_ c
    CheckName a c = a.saying ((if c.name = c.endName then [] else [msg]) ++ interior) ∧
    (c.name = c.endName ↔
      (c.name = none ∧ c.endName = none) ∨ ∃ x, c.name = some x ∧ c.endName = some x) ∧
    (c.name = none → c.endName = none → CheckName a c = a.saying interior) ∧
    (∀ x, c.name = some x → c.endName = some x → CheckName a c = a.saying interior) ∧
    (∀ x, c.name = some x → c.endName = none →
      CheckName a c = a.saying (msg :: interior)) ∧
    (∀ y, c.name = none → c.endName = some y →
      CheckName a c = a.saying (msg :: interior)) ∧
    (∀ x y, c.name = some x → c.endName = some y → x ≠ y →
      CheckName a c = a.saying (msg :: interior)) ∧
    msg.IsFatal = true ∧ msg.location = a.currentPosition_ ∧
    msg.attachment.map Prod.fst = some c.source ∧
    (checkedParts c = [] → checkedLast c = none → interior = []) := by
  intro msg interior
  have hfacts := constructMismatch_facts a.currentPosition_ c
  have heq := CheckName_eq a c
  refine ⟨heq, ?_, ?_, ?_, ?_, ?_, ?_, hfacts.1, hfacts.2.1, hfacts.2.2, ?_⟩
  · cases hn : c.name <;> cases he : c.endName <;> simp [eq_comm]
  · intro h1 h2
    rw [heq, h1, h2]; rfl
  · intro x h1 h2
    rw [heq, h1, h2]; simp
  · intro x h1 h2
    rw [heq, h1, h2]; simp [msg, interior]
  · intro y h1 h2
    rw [heq, h1, h2]; simp [msg, interior]
  · intro x y h1 h2 hxy
    rw [heq, h1, h2]; simp [hxy, msg, interior]
  · intro hparts hlast
    simp [interior, specInteriorMismatches, hparts, hlast]

/-- Witness for C26: a WHERE construct named `W` closed by an unnamed END
WHERE gets one mismatch; the IF construct `X ... END IF X` gets none for its
opening and closing names. -/
theorem open_close_name_check_witness :
    CheckName sampleFreshAnalyzer sampleWhereConstruct =
      sampleFreshAnalyzer.saying
        [⟨sampleBlock 0 10, err_en_US "WHERE construct name mismatch" [],
          some (sampleBlock 0 10, en_US "mismatched WHERE" [])⟩] ∧
    CheckName sampleFreshAnalyzer sampleIfConstruct =
      sampleFreshAnalyzer.saying
        (specInteriorMismatches (sampleBlock 0 10) sampleIfConstruct) :=
  ⟨(open_close_name_check sampleFreshAnalyzer sampleWhereConstruct).2.2.2.2.1 "W" rfl rfl,
   (open_close_name_check sampleFreshAnalyzer sampleIfConstruct).2.2.2.1 "X" rfl rfl⟩

theorem specInteriorMismatches_length (position : CharBlock) (c : Construct) :
    (specInteriorMismatches position c).length = offendingParts c := by
  unfold specInteriorMismatches offendingParts
  rw [List.length_append, List.length_map, List.countP_eq_length_filter]
  congr 1
  cases checkedLast c with
  | none => rfl
  | some part => cases hacc : InteriorNameAccepted part c.name <;> simp [hacc]

theorem specInteriorMismatches_facts (position : CharBlock) (c : Construct) :
    ∀ m ∈ specInteriorMismatches position c,
      m.IsFatal = true ∧ m.location = position ∧
      m.attachment.map Prod.fst = some c.source := by
  intro m hm
  have hpart : (partMismatch position c).IsFatal = true ∧
      (partMismatch position c).location = position ∧
      (partMismatch position c).attachment.map Prod.fst = some c.source := by
    unfold partMismatch
    cases c.kind <;> exact ⟨rfl, rfl, rfl⟩
  have hlast : (lastMismatch position c).IsFatal = true ∧
      (lastMismatch position c).location = position ∧
      (lastMismatch position c).attachment.map Prod.fst = some c.source := by
    unfold lastMismatch
    cases c.kind <;> exact ⟨rfl, rfl, rfl⟩
  simp only [specInteriorMismatches, List.mem_append, List.mem_map] at hm
  rcases hm with ⟨_, _, rfl⟩ | hm
  · exact hpart
  · cases hl : checkedLast c with
    | none => simp [hl] at hm
    | some part =>
      rw [hl] at hm
      cases hacc : InteriorNameAccepted part c.name
      · simp [hacc] at hm
        rw [hm]; exact hlast
      · simp [hacc] at hm

/-- C27: the check of an interior name against the name of the construct
accepts exactly when the interior name is absent, or the construct is named
and the two names are equal. For every construct the interior diagnostics said
after the check of the closing name are one fatal mismatch, with the opening
statement attached, for each offending interior statement, so their number is
the number of offending interior statements: an IF named X with an unnamed
ELSE gets none, an ELSE named Y different from X gets one, and so does a named
ELSE of an unnamed IF. -/
theorem interior_name_check (a : ParseTreeAnalyzer) (c : Construct) :
    let interior := specInteriorMismatches a.currentPosition_ c
    (∀ part outer : Option String, firstNameNoneOrBothEqual part outer = true ↔
      (part = none ∨ ∃ x, part = some x ∧ outer = some x)) ∧
    (∃ openClose, openClose.length ≤ 1 ∧
      (CheckName a c).errorHandler_ = a.errorHandler_ ++ openClose ++ interior ∧
      (c.name = c.endName → openClose = [])) ∧
    interior.length = offendingParts c ∧
    (∀ m ∈ interior, m.IsFatal = true ∧ m.location = a.currentPosition_ ∧
      m.attachment.map Prod.fst = some c.source) ∧
    (c.kind = .If → c.parts = [] → c.last = some none → interior = []) ∧
    (∀ x y, c.kind = .If → c.parts = [] → c.name = some x → c.last = some (some y) →
      y ≠ x → interior = [⟨a.currentPosition_,
        err_en_US "ELSE statement name mismatch" [],
        some (c.source, en_US "mismatched IF" [])⟩]) ∧
    (∀ y, c.kind = .If → c.parts = [] → c.name = none → c.last = some (some y) →
      interior = [⟨a.currentPosition_, err_en_US "ELSE statement name mismatch" [],
        some (c.source, en_US "mismatched IF" [])⟩]) := by
  intro interior
  refine ⟨?_, ?_, specInteriorMismatches_length _ c, specInteriorMismatches_facts _ c,
    ?_, ?_, ?_⟩
  · intro part outer
    rw [firstNameNoneOrBothEqual_eq]
    simp [InteriorNameAccepted]
  · refine ⟨if c.name = c.endName then [] else [constructMismatch a.currentPosition_ c],
      ?_, ?_, ?_⟩
    · split <;> simp
    · rw [CheckName_eq]
      simp [ParseTreeAnalyzer.saying, interior]
    · intro h
      simp [h]
  · intro hkind hparts hlast
    simp [interior, specInteriorMismatches, checkedParts, checkedLast, hkind, hparts, hlast,
      InteriorNameAccepted]
  · intro x y hkind hparts hname hlast hxy
    simp [interior, specInteriorMismatches, checkedParts, checkedLast, hkind, hparts, hlast,
      hname, InteriorNameAccepted, hxy, lastMismatch]
    exact fun h => hxy h.symm
  · intro y hkind hparts hname hlast
    simp [interior, specInteriorMismatches, checkedParts, checkedLast, hkind, hparts, hlast,
      hname, InteriorNameAccepted, lastMismatch]

/-- Witness for C27: in the IF construct named `X` with an unnamed ELSE IF, an
ELSE IF named `Y` and an ELSE named `Z`, two interior statements offend. -/
theorem interior_name_check_witness :
    (specInteriorMismatches sampleFreshAnalyzer.currentPosition_ sampleIfConstruct).length =
      2 ∧
    specInteriorMismatches sampleFreshAnalyzer.currentPosition_
        ⟨.If, sampleBlock 0 10, some "X", some "X", [], some (some "Y")⟩ =
      [⟨sampleBlock 0 10, err_en_US "ELSE statement name mismatch" [],
        some (sampleBlock 0 10, en_US "mismatched IF" [])⟩] :=
  ⟨(interior_name_check sampleFreshAnalyzer sampleIfConstruct).2.2.1,
   (interior_name_check sampleFreshAnalyzer
      ⟨.If, sampleBlock 0 10, some "X", some "X", [], some (some "Y")⟩).2.2.2.2.2.1
      "X" "Y" rfl rfl rfl rfl (by decide)⟩

/-! ## The three lists of references -/

theorem addLabelReference_spec (a : ParseTreeAnalyzer) (label : Label)
    {init : List UnitAnalysis} {programUnit : UnitAnalysis}
    (hunits : a.programUnits_ = init ++ [programUnit]) :
    ∃ a1, addLabelReference a label = some a1 ∧
      a1.programUnits_ = init ++ [{ programUnit with otherStmtSources :=
        programUnit.otherStmtSources ++ [⟨label, a.currentScope_, a.currentPosition_⟩] }] ∧
      a1.currentScope_ = a.currentScope_ ∧ a1.currentPosition_ = a.currentPosition_ ∧
      a1.constructNames_ = a.constructNames_ := by
  have hlast : a.programUnits_.getLast? = some programUnit := by
    rw [hunits]; exact List.getLast?_concat _
  refine ⟨_, addLabelReference_of_getLast label hlast, ?_, ?_, ?_, ?_⟩
  · simp [hunits]
  · simp
  · simp
  · simp

theorem addLabelReferences_spec (init : List UnitAnalysis) :
    ∀ (labels : List Label) (a : ParseTreeAnalyzer) (programUnit : UnitAnalysis),
      a.programUnits_ = init ++ [programUnit] →
      ∃ a1, addLabelReferences a labels = some a1 ∧
        a1.programUnits_ = init ++
          [{ programUnit with
              otherStmtSources := programUnit.otherStmtSources ++ labels.map
                fun label => ⟨label, a.currentScope_, a.currentPosition_⟩ }] ∧
        a1.currentScope_ = a.currentScope_ ∧ a1.currentPosition_ = a.currentPosition_ ∧
        a1.constructNames_ = a.constructNames_ := by
  intro labels
  induction labels with
  | nil =>
    intro a programUnit hunits
    exact ⟨a, rfl, by simp [hunits], rfl, rfl, rfl⟩
  | cons label rest ih =>
    intro a programUnit hunits
    obtain ⟨a1, h1, hu1, hs1, hp1, hn1⟩ := addLabelReference_spec a label hunits
    obtain ⟨a2, h2, hu2, hs2, hp2, hn2⟩ := ih a1 _ hu1
    refine ⟨a2, ?_, ?_, hs2.trans hs1, hp2.trans hp1, hn2.trans hn1⟩
    · simp only [addLabelReferences, h1]
      exact h2
    · rw [hu2, hs1, hp1]
      simp

/-- C28: every recorded reference goes to exactly one of the three lists and
leaves the rest of the tables as they were: the terminal label of a labelled
DO goes to the DO list, a FORMAT given by label to the FORMAT list, every
other reference to the generic list; the other two lists, the definition map
and the scope table are unchanged, and so are the current scope, the position
and the stack of names. An arithmetic IF appends its three labels, a computed
or assigned GOTO its `n` labels, in operand order, each with the current scope
and position. -/
theorem references_partitioned (a : ParseTreeAnalyzer) (programUnit : UnitAnalysis)
    (hunit : a.programUnits_.getLast? = some programUnit) :
    let ref : Label → SourceStatementInfoTuplePOD := fun label =>
      ⟨label, a.currentScope_, a.currentPosition_⟩
    let kept : ParseTreeAnalyzer → Prop := fun a1 =>
      a1.currentScope_ = a.currentScope_ ∧ a1.currentPosition_ = a.currentPosition_ ∧
      a1.constructNames_ = a.constructNames_
    (∀ label, ∃ a1, PostLabelDoStmt a label = some a1 ∧ kept a1 ∧
      a1.programUnits_ = a.programUnits_.dropLast ++
          [{ programUnit with
              doStmtSources := programUnit.doStmtSources ++ [ref label] }]) ∧
    (∀ label, ∃ a1, PostFormat a (some label) = some a1 ∧ kept a1 ∧
      a1.programUnits_ = a.programUnits_.dropLast ++
          [{ programUnit with
              formatStmtSources := programUnit.formatStmtSources ++ [ref label] }]) ∧
    PostFormat a none = some a ∧
    (∀ post ∈ [PostGotoStmt, PostAssignStmt, PostAltReturnSpec, PostErrLabel, PostEndLabel,
        PostEorLabel],
      ∀ label, ∃ a1, post a label = some a1 ∧ kept a1 ∧
        a1.programUnits_ = a.programUnits_.dropLast ++
          [{ programUnit with
              otherStmtSources := programUnit.otherStmtSources ++ [ref label] }]) ∧
    (∀ label1 label2 label3, ∃ a1,
      PostArithmeticIfStmt a label1 label2 label3 = some a1 ∧ kept a1 ∧
      a1.programUnits_ = a.programUnits_.dropLast ++
          [{ programUnit with
              otherStmtSources := programUnit.otherStmtSources ++ [ref label1, ref label2, ref label3] }]) ∧
    (∀ post ∈ [PostComputedGotoStmt, PostAssignedGotoStmt],
      ∀ labels : List Label, ∃ a1, post a labels = some a1 ∧ kept a1 ∧
        a1.programUnits_ = a.programUnits_.dropLast ++
          [{ programUnit with
              otherStmtSources := programUnit.otherStmtSources ++ labels.map ref }]) := by
  intro ref kept
  have hunits : a.programUnits_ = a.programUnits_.dropLast ++ [programUnit] :=
    (List.dropLast_append_getLast? programUnit hunit).symm
  have hmany : ∀ labels : List Label, ∃ a1, addLabelReferences a labels = some a1 ∧ kept a1 ∧
      a1.programUnits_ = a.programUnits_.dropLast ++
          [{ programUnit with
              otherStmtSources := programUnit.otherStmtSources ++ labels.map ref }] := by
    intro labels
    obtain ⟨a1, h1, hu1, hs1, hp1, hn1⟩ :=
      addLabelReferences_spec a.programUnits_.dropLast labels a programUnit hunits
    exact ⟨a1, h1, ⟨hs1, hp1, hn1⟩, hu1⟩
  have hone : ∀ label, ∃ a1, addLabelReference a label = some a1 ∧ kept a1 ∧
      a1.programUnits_ = a.programUnits_.dropLast ++
          [{ programUnit with
              otherStmtSources := programUnit.otherStmtSources ++ [ref label] }] := by
    intro label
    obtain ⟨a1, h1, hk, hu⟩ := hmany [label]
    refine ⟨a1, ?_, hk, hu⟩
    simp only [addLabelReferences] at h1
    cases h : addLabelReference a label with
    | none => simp [h] at h1
    | some b1 => simpa [h] using h1
  refine ⟨?_, ?_, rfl, ?_, ?_, ?_⟩
  · intro label
    exact ⟨_, addLabelReferenceFromDoStmt_of_getLast label hunit, ⟨by simp, by simp, by simp⟩,
      rfl⟩
  · intro label
    exact ⟨_, addLabelReferenceToFormatStmt_of_getLast label hunit,
      ⟨by simp, by simp, by simp⟩, rfl⟩
  · intro post hpost label
    simp only [List.mem_cons, List.mem_singleton, List.not_mem_nil, or_false] at hpost
    rcases hpost with rfl | rfl | rfl | rfl | rfl | rfl <;> exact hone label
  · intro label1 label2 label3
    obtain ⟨a1, h1, hk, hu⟩ := hmany [label1, label2, label3]
    refine ⟨a1, ?_, hk, hu⟩
    simp only [addLabelReferences] at h1
    unfold PostArithmeticIfStmt
    cases h : addLabelReference a label1 with
    | none => simp [h] at h1
    | some b1 =>
      simp only [h] at h1 ⊢
      cases h2 : addLabelReference b1 label2 with
      | none => simp [h2] at h1
      | some b2 =>
        simp only [h2] at h1 ⊢
        cases h3 : addLabelReference b2 label3 with
        | none => simp [h3] at h1
        | some b3 => simpa [h3] using h1
  · intro post hpost labels
    simp only [List.mem_cons, List.mem_singleton, List.not_mem_nil, or_false] at hpost
    rcases hpost with rfl | rfl <;> exact hmany labels

/-- Witness for C28: an arithmetic IF with the labels 10, 20, 30 in the unit
`DO 10 I=1,5 ... 10 CONTINUE`. -/
theorem references_partitioned_witness :
    ∃ a1, PostArithmeticIfStmt (sampleAnalyzer sampleDoContinueUnit) 10 20 30 = some a1 ∧
      a1.programUnits_ = [{ sampleDoContinueUnit with otherStmtSources :=
        [⟨10, 1, sampleGotoPosition⟩, ⟨20, 1, sampleGotoPosition⟩,
          ⟨30, 1, sampleGotoPosition⟩] }] := by
  obtain ⟨a1, h1, _, h3⟩ :=
    (references_partitioned (sampleAnalyzer sampleDoContinueUnit) sampleDoContinueUnit
      rfl).2.2.2.2.1 10 20 30
  exact ⟨a1, h1, h3⟩

/-! ## The checks only append to the sink -/

theorem CheckBranchesIntoDoBody_append (labels : TargetStmtMap)
    (scopes : List ProxyForScope) (loopBodies : IndexList) :
    ∀ (branches : SourceStmtList) (errorHandler : Messages),
      CheckBranchesIntoDoBody branches labels scopes loopBodies errorHandler =
        errorHandler ++ CheckBranchesIntoDoBody branches labels scopes loopBodies [] := by
  intro branches
  induction branches with
  | nil => intro errorHandler; simp [CheckBranchesIntoDoBody]
  | cons branch rest ih =>
    intro errorHandler
    simp only [CheckBranchesIntoDoBody, CheckBranchesIntoDoBody_bodies_eq_spec]
    split
    · rw [ih (errorHandler ++ _), ih ([] ++ _)]
      simp
    · exact ih errorHandler

theorem CheckDoNesting_inner_append (v1 : CharBlock × CharBlock) :
    ∀ (rest : IndexList) (errorHandler : Messages),
      CheckDoNesting_inner v1 rest errorHandler =
        errorHandler ++ CheckDoNesting_inner v1 rest [] := by
  intro rest
  induction rest with
  | nil => intro errorHandler; simp [CheckDoNesting_inner]
  | cons v2 rest ih =>
    intro errorHandler
    simp only [CheckDoNesting_inner]
    split
    · rw [ih (Messages.SayAttach errorHandler _ _ _ _), ih (Messages.SayAttach [] _ _ _ _)]
      simp [Messages.SayAttach]
    · exact ih errorHandler

theorem CheckDoNesting_append :
    ∀ (loopBodies : IndexList) (errorHandler : Messages),
      CheckDoNesting loopBodies errorHandler =
        errorHandler ++ CheckDoNesting loopBodies [] := by
  intro loopBodies
  induction loopBodies with
  | nil => intro errorHandler; simp [CheckDoNesting]
  | cons v1 rest ih =>
    intro errorHandler
    simp only [CheckDoNesting]
    rw [ih (CheckDoNesting_inner v1 rest errorHandler), ih (CheckDoNesting_inner v1 rest []),
      CheckDoNesting_inner_append v1 rest errorHandler]
    simp

theorem CheckBranchTargetConstraints_append (labels : TargetStmtMap) :
    ∀ (stmts : SourceStmtList) (errorHandler : Messages),
      CheckBranchTargetConstraints stmts labels errorHandler =
        errorHandler ++ CheckBranchTargetConstraints stmts labels [] := by
  intro stmts
  induction stmts with
  | nil => intro errorHandler; simp [CheckBranchTargetConstraints]
  | cons stmt rest ih =>
    intro errorHandler
    simp only [CheckBranchTargetConstraints]
    split
    · split
      · rw [ih (Messages.SayAttach errorHandler _ _ _ _),
          ih (Messages.SayAttach [] _ _ _ _)]
        simp [Messages.SayAttach]
      · split
        · rw [ih (Messages.SayAttach errorHandler _ _ _ _),
            ih (Messages.SayAttach [] _ _ _ _)]
          simp [Messages.SayAttach]
        · exact ih errorHandler
    · exact ih errorHandler

theorem CheckDataXferTargetConstraints_append (labels : TargetStmtMap) :
    ∀ (stmts : SourceStmtList) (errorHandler : Messages),
      CheckDataXferTargetConstraints stmts labels errorHandler =
        errorHandler ++ CheckDataXferTargetConstraints stmts labels [] := by
  intro stmts
  induction stmts with
  | nil => intro errorHandler; simp [CheckDataXferTargetConstraints]
  | cons stmt rest ih =>
    intro errorHandler
    simp only [CheckDataXferTargetConstraints]
    split
    · split
      · rw [ih (Messages.SayAttach errorHandler _ _ _ _),
          ih (Messages.SayAttach [] _ _ _ _)]
        simp [Messages.SayAttach]
      · exact ih errorHandler
    · exact ih errorHandler

theorem CheckScopeConstraints_append (labels : TargetStmtMap) (scopes : List ProxyForScope) :
    ∀ (stmts : SourceStmtList) (errorHandler : Messages),
      CheckScopeConstraints stmts labels scopes errorHandler =
        (CheckScopeConstraints stmts labels scopes []).map (errorHandler ++ ·) := by
  intro stmts
  induction stmts with
  | nil => intro errorHandler; simp [CheckScopeConstraints]
  | cons stmt rest ih =>
    intro errorHandler
    simp only [CheckScopeConstraints]
    split
    · rw [ih (Messages.Say errorHandler _ _), ih (Messages.Say [] _ _)]
      simp [Messages.Say, Option.map_map, Function.comp_def]
    · cases hin : InInclusiveScope scopes stmt.proxyForScope
          (GetLabel labels stmt.parserLabel).proxyForScope with
      | none => simp
      | some inScope =>
        simp only
        split
        · rw [ih (Messages.Say errorHandler _ _), ih (Messages.Say [] _ _)]
          simp [Messages.Say, Option.map_map, Function.comp_def]
        · exact ih errorHandler

theorem CheckLabelDoConstraints_stmt_append (stmt : SourceStatementInfoTuplePOD)
    (labels : TargetStmtMap) (scopes : List ProxyForScope) (loopBodies : IndexList)
    (errorHandler : Messages) :
    CheckLabelDoConstraints_stmt stmt labels scopes loopBodies errorHandler =
      (CheckLabelDoConstraints_stmt stmt labels scopes [] []).map
        fun r => (loopBodies ++ r.1, errorHandler ++ r.2) := by
  simp only [CheckLabelDoConstraints_stmt]
  split
  · simp [Messages.Say]
  · split
    · simp [Messages.Say]
    · cases hin : InInclusiveScope scopes stmt.proxyForScope
          (GetLabel labels stmt.parserLabel).proxyForScope with
      | none => simp
      | some inScope =>
        simp only
        split
        · simp [Messages.Say]
        · split
          · simp [Messages.Say]
          · split
            · simp [Messages.Say]
            · simp

theorem CheckLabelDoConstraints_loop_append (labels : TargetStmtMap)
    (scopes : List ProxyForScope) :
    ∀ (dos : SourceStmtList) (loopBodies : IndexList) (errorHandler : Messages),
      CheckLabelDoConstraints_loop dos labels scopes loopBodies errorHandler =
        (CheckLabelDoConstraints_loop dos labels scopes [] []).map
          fun r => (loopBodies ++ r.1, errorHandler ++ r.2) := by
  intro dos
  induction dos with
  | nil => intro loopBodies errorHandler; simp [CheckLabelDoConstraints_loop]
  | cons stmt rest ih =>
    intro loopBodies errorHandler
    simp only [CheckLabelDoConstraints_loop]
    rw [CheckLabelDoConstraints_stmt_append stmt labels scopes loopBodies errorHandler]
    cases hstmt : CheckLabelDoConstraints_stmt stmt labels scopes [] [] with
    | none => simp
    | some r =>
      obtain ⟨bodies1, said1⟩ := r
      simp only [Option.map_some']
      rw [ih (loopBodies ++ bodies1) (errorHandler ++ said1), ih bodies1 said1]
      cases CheckLabelDoConstraints_loop rest labels scopes [] [] with
      | none => simp
      | some r2 => simp [List.append_assoc]

theorem CheckLabelDoConstraints_append (dos branches : SourceStmtList)
    (labels : TargetStmtMap) (scopes : List ProxyForScope) (errorHandler : Messages) :
    CheckLabelDoConstraints dos branches labels scopes errorHandler =
      (CheckLabelDoConstraints_loop dos labels scopes [] []).map fun r =>
        errorHandler ++ r.2 ++ CheckBranchesIntoDoBody branches labels scopes r.1 [] ++
          CheckDoNesting r.1 [] := by
  unfold CheckLabelDoConstraints
  rw [CheckLabelDoConstraints_loop_append labels scopes dos [] errorHandler]
  cases CheckLabelDoConstraints_loop dos labels scopes [] [] with
  | none => simp
  | some r =>
    simp only [Option.map_some', List.nil_append]
    rw [CheckDoNesting_append, CheckBranchesIntoDoBody_append]

theorem CheckBranchConstraints_append (branches : SourceStmtList) (labels : TargetStmtMap)
    (scopes : List ProxyForScope) (errorHandler : Messages) :
    CheckBranchConstraints branches labels scopes errorHandler =
      (CheckScopeConstraints branches labels scopes []).map fun said =>
        errorHandler ++ said ++ CheckBranchTargetConstraints branches labels [] := by
  unfold CheckBranchConstraints
  rw [CheckScopeConstraints_append labels scopes branches errorHandler]
  cases CheckScopeConstraints branches labels scopes [] with
  | none => simp
  | some said =>
    simp only [Option.map_some']
    rw [CheckBranchTargetConstraints_append]

theorem CheckDataTransferConstraints_append (dataTransfers : SourceStmtList)
    (labels : TargetStmtMap) (scopes : List ProxyForScope) (errorHandler : Messages) :
    CheckDataTransferConstraints dataTransfers labels scopes errorHandler =
      (CheckScopeConstraints dataTransfers labels scopes []).map fun said =>
        errorHandler ++ said ++ CheckDataXferTargetConstraints dataTransfers labels [] := by
  unfold CheckDataTransferConstraints
  rw [CheckScopeConstraints_append labels scopes dataTransfers errorHandler]
  cases CheckScopeConstraints dataTransfers labels scopes [] with
  | none => simp
  | some said =>
    simp only [Option.map_some']
    rw [CheckDataXferTargetConstraints_append]

/-- The diagnostics of one program unit do not depend on the sink they are
appended to. -/
theorem CheckConstraints_unit_append (programUnit : UnitAnalysis) (errorHandler : Messages) :
    CheckConstraints_unit programUnit errorHandler =
      (CheckConstraints_unit programUnit []).map (errorHandler ++ ·) := by
  unfold CheckConstraints_unit
  simp only
  rw [CheckLabelDoConstraints_append _ _ _ _ errorHandler,
    CheckLabelDoConstraints_append _ _ _ _ []]
  cases CheckLabelDoConstraints_loop programUnit.doStmtSources programUnit.targetStmts
      programUnit.scopeModel [] [] with
  | none => simp
  | some r =>
    simp only [Option.map_some']
    rw [CheckBranchConstraints_append _ _ _ (errorHandler ++ _ ++ _ ++ _),
      CheckBranchConstraints_append _ _ _ ([] ++ _ ++ _ ++ _)]
    cases CheckScopeConstraints programUnit.otherStmtSources programUnit.targetStmts
        programUnit.scopeModel [] with
    | none => simp
    | some said =>
      simp only [Option.map_some']
      rw [CheckDataTransferConstraints_append _ _ _ (errorHandler ++ _ ++ _ ++ _ ++ _ ++ _),
        CheckDataTransferConstraints_append _ _ _ ([] ++ _ ++ _ ++ _ ++ _ ++ _)]
      cases CheckScopeConstraints programUnit.formatStmtSources programUnit.targetStmts
          programUnit.scopeModel [] with
      | none => simp
      | some said2 => simp [List.append_assoc]

/-- The diagnostics of a list of program units do not depend on the sink they
are appended to. -/
theorem CheckConstraints_loop_append :
    ∀ (units : List UnitAnalysis) (errorHandler : Messages),
      CheckConstraints_loop units errorHandler =
        (CheckConstraints_loop units []).map (errorHandler ++ ·) := by
  intro units
  induction units with
  | nil => intro errorHandler; simp [CheckConstraints_loop]
  | cons programUnit rest ih =>
    intro errorHandler
    simp only [CheckConstraints_loop]
    rw [CheckConstraints_unit_append programUnit errorHandler]
    cases CheckConstraints_unit programUnit [] with
    | none => simp
    | some said =>
      simp only [Option.map_some', List.nil_append]
      rw [ih (errorHandler ++ said), ih said]
      cases CheckConstraints_loop rest [] with
      | none => simp
      | some said2 => simp [List.append_assoc]

/-! ## The checks return on the tables of the walk -/

theorem CheckScopeConstraints_total (labels : TargetStmtMap) {scopes : List ProxyForScope}
    (hwf : ScopeTableWF scopes = true) :
    ∀ (stmts : SourceStmtList), (∀ s ∈ stmts, s.proxyForScope < scopes.length) →
      ∀ errorHandler, ∃ said, CheckScopeConstraints stmts labels scopes errorHandler =
        some said := by
  intro stmts
  induction stmts with
  | nil => intro _ errorHandler; exact ⟨errorHandler, rfl⟩
  | cons stmt rest ih =>
    intro hvalid errorHandler
    have hrest : ∀ s ∈ rest, s.proxyForScope < scopes.length :=
      fun s hs => hvalid s (List.mem_cons_of_mem _ hs)
    obtain ⟨b, hb, _⟩ := InInclusiveScope_spec hwf (hvalid stmt (List.mem_cons_self _ _))
      (GetLabel labels stmt.parserLabel).proxyForScope
    simp only [CheckScopeConstraints, hb]
    split
    · exact ih hrest _
    · split
      · exact ih hrest _
      · exact ih hrest _

theorem CheckLabelDoConstraints_loop_total (labels : TargetStmtMap)
    {scopes : List ProxyForScope} (hwf : ScopeTableWF scopes = true) :
    ∀ (dos : SourceStmtList), (∀ s ∈ dos, s.proxyForScope < scopes.length) →
      ∀ loopBodies errorHandler, ∃ r,
        CheckLabelDoConstraints_loop dos labels scopes loopBodies errorHandler = some r := by
  intro dos
  induction dos with
  | nil => intro _ loopBodies errorHandler; exact ⟨_, rfl⟩
  | cons stmt rest ih =>
    intro hvalid loopBodies errorHandler
    have hrest : ∀ s ∈ rest, s.proxyForScope < scopes.length :=
      fun s hs => hvalid s (List.mem_cons_of_mem _ hs)
    obtain ⟨b, hb, _⟩ := InInclusiveScope_spec hwf (hvalid stmt (List.mem_cons_self _ _))
      (GetLabel labels stmt.parserLabel).proxyForScope
    have hstmt : ∃ r, CheckLabelDoConstraints_stmt stmt labels scopes loopBodies
        errorHandler = some r := by
      simp only [CheckLabelDoConstraints_stmt, hb]
      split
      · exact ⟨_, rfl⟩
      · split
        · exact ⟨_, rfl⟩
        · split
          · exact ⟨_, rfl⟩
          · split
            · exact ⟨_, rfl⟩
            · split
              · exact ⟨_, rfl⟩
              · exact ⟨_, rfl⟩
    obtain ⟨⟨bodies1, said1⟩, hr⟩ := hstmt
    simp only [CheckLabelDoConstraints_loop, hr]
    exact ih hrest _ _

theorem UnitTablesValid_spec {programUnit : UnitAnalysis}
    (h : UnitTablesValid programUnit = true) :
    ScopeTableWF programUnit.scopeModel = true ∧
    (∀ s ∈ programUnit.doStmtSources, s.proxyForScope < programUnit.scopeModel.length) ∧
    (∀ s ∈ programUnit.otherStmtSources, s.proxyForScope < programUnit.scopeModel.length) ∧
    (∀ s ∈ programUnit.formatStmtSources,
      s.proxyForScope < programUnit.scopeModel.length) := by
  simp only [UnitTablesValid, Bool.and_eq_true, List.all_eq_true, List.mem_append,
    decide_eq_true_eq] at h
  exact ⟨h.1, fun s hs => h.2 s (Or.inl (Or.inl hs)), fun s hs => h.2 s (Or.inl (Or.inr hs)),
    fun s hs => h.2 s (Or.inr hs)⟩

/-- On valid tables the checks of a unit return, and what they say is the
concatenation of the outputs of the checks, each computed on its own. -/
theorem CheckConstraints_unit_valid {programUnit : UnitAnalysis}
    (h : UnitTablesValid programUnit = true) (errorHandler : Messages) :
    ∃ bodies doSaid scopeSaid formatScopeSaid,
      CheckLabelDoConstraints_loop programUnit.doStmtSources programUnit.targetStmts
        programUnit.scopeModel [] [] = some (bodies, doSaid) ∧
      CheckScopeConstraints programUnit.otherStmtSources programUnit.targetStmts
        programUnit.scopeModel [] = some scopeSaid ∧
      CheckScopeConstraints programUnit.formatStmtSources programUnit.targetStmts
        programUnit.scopeModel [] = some formatScopeSaid ∧
      CheckConstraints_unit programUnit errorHandler = some (errorHandler ++ (doSaid ++
        CheckBranchesIntoDoBody programUnit.otherStmtSources programUnit.targetStmts
          programUnit.scopeModel bodies [] ++
        CheckDoNesting bodies [] ++
        (scopeSaid ++
          CheckBranchTargetConstraints programUnit.otherStmtSources
            programUnit.targetStmts []) ++
        (formatScopeSaid ++
          CheckDataXferTargetConstraints programUnit.formatStmtSources
            programUnit.targetStmts []))) := by
  obtain ⟨hwf, hdos, hothers, hformats⟩ := UnitTablesValid_spec h
  obtain ⟨⟨bodies, doSaid⟩, h1⟩ := CheckLabelDoConstraints_loop_total
    programUnit.targetStmts hwf programUnit.doStmtSources hdos [] []
  obtain ⟨scopeSaid, h2⟩ := CheckScopeConstraints_total programUnit.targetStmts hwf
    programUnit.otherStmtSources hothers []
  obtain ⟨formatScopeSaid, h3⟩ := CheckScopeConstraints_total programUnit.targetStmts hwf
    programUnit.formatStmtSources hformats []
  refine ⟨bodies, doSaid, scopeSaid, formatScopeSaid, h1, h2, h3, ?_⟩
  unfold CheckConstraints_unit
  simp only
  rw [CheckLabelDoConstraints_append, h1]
  simp only [Option.map_some']
  rw [CheckBranchConstraints_append, h2]
  simp only [Option.map_some']
  rw [CheckDataTransferConstraints_append, h3]
  simp [List.append_assoc]

theorem CheckConstraints_loop_total :
    ∀ (units : List UnitAnalysis), (∀ u ∈ units, UnitTablesValid u = true) →
      ∀ errorHandler, ∃ said, CheckConstraints_loop units errorHandler = some said := by
  intro units
  induction units with
  | nil => intro _ errorHandler; exact ⟨errorHandler, rfl⟩
  | cons programUnit rest ih =>
    intro hvalid errorHandler
    obtain ⟨_, _, _, _, _, _, _, hunit⟩ :=
      CheckConstraints_unit_valid (hvalid programUnit (List.mem_cons_self _ _)) errorHandler
    simp only [CheckConstraints_loop, hunit]
    exact ih (fun u hu => hvalid u (List.mem_cons_of_mem _ hu)) _

theorem CheckConstraints_loop_concat (units1 : List UnitAnalysis) :
    ∀ (units2 : List UnitAnalysis) (errorHandler : Messages),
      CheckConstraints_loop (units1 ++ units2) errorHandler =
        (CheckConstraints_loop units1 errorHandler).bind (CheckConstraints_loop units2) := by
  induction units1 with
  | nil => intro units2 errorHandler; simp [CheckConstraints_loop]
  | cons programUnit rest ih =>
    intro units2 errorHandler
    simp only [List.cons_append, CheckConstraints_loop]
    cases CheckConstraints_unit programUnit errorHandler with
    | none => simp
    | some said => exact ih units2 said

/-! ## Program units -/

theorem PushNewScope_spec (a : ParseTreeAnalyzer) :
    ∃ a1, PushNewScope a = some a1 ∧
      a1.programUnits_ = a.programUnits_ ++ [⟨[], [], [], [], [0, a.currentScope_]⟩] ∧
      a1.currentScope_ = 1 ∧ a1.currentPosition_ = a.currentPosition_ ∧
      a1.errorHandler_ = a.errorHandler_ ∧ a1.constructNames_ = a.constructNames_ := by
  unfold PushNewScope
  refine ⟨_, @pushSubscope_of_getLast _ UnitAnalysis.new (List.getLast?_concat _), ?_, rfl,
    rfl, rfl, rfl⟩
  simp [UnitAnalysis.new]

theorem CheckConstraints_unit_single_undefined (stmt : SourceStatementInfoTuplePOD)
    (labels : TargetStmtMap) (scopes : List ProxyForScope) (errorHandler : Messages)
    (hundef : labels.lookup stmt.parserLabel = none) :
    CheckConstraints_unit ⟨[], [], [stmt], labels, scopes⟩ errorHandler =
      some (errorHandler ++ [⟨stmt.parserCharBlock,
        err_en_US "label '%u' was not found" [.unsignedArg (SayLabel stmt.parserLabel)],
        none⟩]) := by
  have hget := GetLabel_of_lookup_none hundef
  simp [CheckConstraints_unit, CheckLabelDoConstraints, CheckLabelDoConstraints_loop,
    CheckDoNesting, CheckBranchConstraints, CheckDataTransferConstraints,
    CheckDataXferTargetConstraints, hget, HasScope, Messages.Say,
    CheckScopeConstraints, CheckBranchTargetConstraints, CheckBranchesIntoDoBody]

/-- C24: the label tables are per program unit. Entering a program unit starts
fresh tables, so a label defined in it is inserted and gets no "not distinct",
whatever the earlier units define; a reference in a unit to a label that this
unit does not define is "not found", whatever the other units define; and the
checks of a unit read only the tables of that unit: what they say does not
depend on the units checked before. -/
theorem label_tables_per_unit (a : ParseTreeAnalyzer) (statement : Statement) (N : Label)
    (hlabel : statement.label = some N) :
    (∃ a1 a2, PushNewScope a = some a1 ∧
      a1.programUnits_ = a.programUnits_ ++ [⟨[], [], [], [], [0, a.currentScope_]⟩] ∧
      PreStatement a1 statement = some a2 ∧
      a2.programUnits_ = a.programUnits_ ++ [⟨[], [], [],
        [(N, ⟨1, statement.source, constructBranchTargetFlags statement⟩)],
        [0, a.currentScope_]⟩] ∧
      a2.errorHandler_ = a.errorHandler_ ++
        if N < 1 ∨ 99999 < N then
          [⟨statement.source,
            err_en_US "label '%u' is out of range" [.unsignedArg (SayLabel N)], none⟩]
        else []) ∧
    (∀ (unit1 : UnitAnalysis) (stmt : SourceStatementInfoTuplePOD) (labels2 : TargetStmtMap)
        (scopes2 : List ProxyForScope) (rest : List UnitAnalysis)
        (errorHandler said1 : Messages),
      labels2.lookup stmt.parserLabel = none →
      CheckConstraints_unit unit1 errorHandler = some said1 →
      CheckConstraints_loop (unit1 :: ⟨[], [], [stmt], labels2, scopes2⟩ :: rest)
          errorHandler =
        CheckConstraints_loop rest (said1 ++ [⟨stmt.parserCharBlock,
          err_en_US "label '%u' was not found"
            [.unsignedArg (SayLabel stmt.parserLabel)], none⟩])) ∧
    (∀ (programUnit : UnitAnalysis) (rest : List UnitAnalysis) (errorHandler : Messages),
      CheckConstraints_loop (programUnit :: rest) errorHandler =
        (CheckConstraints_unit programUnit []).bind fun said =>
          CheckConstraints_loop rest (errorHandler ++ said)) := by
  refine ⟨?_, ?_, ?_⟩
  · obtain ⟨a1, h1, hu1, hs1, hp1, he1, _⟩ := PushNewScope_spec a
    have hlast : ({ a1 with currentPosition_ := statement.source } :
        ParseTreeAnalyzer).programUnits_.getLast? =
        some ⟨[], [], [], [], [0, a.currentScope_]⟩ := by
      simp [hu1]
    have hpre : PreStatement a1 statement = addTargetLabelDefinition
        { a1 with currentPosition_ := statement.source } N
        (constructBranchTargetFlags statement) := by
      simp only [PreStatement, hlabel]
    have hdef := addTargetLabelDefinition_of_getLast N (constructBranchTargetFlags statement)
      hlast
    refine ⟨a1, _, h1, hu1, hpre.trans hdef, ?_, ?_⟩
    · simp [hu1, TargetStmtMap.emplace, hs1]
    · simp [CheckLabelInRange_errorHandler, he1]
  · intro unit1 stmt labels2 scopes2 rest errorHandler said1 hundef hunit1
    simp only [CheckConstraints_loop, hunit1,
      CheckConstraints_unit_single_undefined stmt labels2 scopes2 said1 hundef]
  · intro programUnit rest errorHandler
    simp only [CheckConstraints_loop]
    rw [CheckConstraints_unit_append programUnit errorHandler]
    cases CheckConstraints_unit programUnit [] <;> simp

/-- Witness for C24: after the unit `DO 10 I=1,5 ... 10 CONTINUE`, a second
unit defines label 10 again without any diagnostic. -/
theorem label_tables_per_unit_witness :
    ∃ a1 a2, PushNewScope (sampleAnalyzer sampleDoContinueUnit) = some a1 ∧
      PreStatement a1 ⟨sampleTargetPosition, some 10, .ActionStmt .ContinueStmt⟩ = some a2 ∧
      a2.errorHandler_ = [] := by
  obtain ⟨a1, a2, h1, _, h3, _, h5⟩ :=
    (label_tables_per_unit (sampleAnalyzer sampleDoContinueUnit)
      ⟨sampleTargetPosition, some 10, .ActionStmt .ContinueStmt⟩ 10 rfl).1
  exact ⟨a1, a2, h1, h3, h5⟩

/-! ## The result of the validation -/

theorem AnyFatalError_eq_false_iff (errorHandler : Messages) :
    errorHandler.AnyFatalError = false ↔ ∀ m ∈ errorHandler, m.IsFatal = false := by
  simp [Messages.AnyFatalError]

/-- C29, as stated, fails: after the walk of a unit that holds two statements
labelled 10, the five constraint checks say nothing at all, and
`CheckConstraints` returns false, because of the fatal "label not distinct"
that the walk left in the sink. -/
theorem CheckConstraints_walk_fatal_counterexample :
    sampleDuplicateWalk.map (fun a =>
        (CheckConstraints_loop a.programUnits_ [], CheckConstraints a)) =
      some (some [], some (false, [⟨⟨60, "10 CONTINUE".toList⟩,
        err_en_US "label '%u' is not distinct" [.unsignedArg 10], none⟩])) := by
  decide

/-- C29, amended: `CheckConstraints` returns true exactly when the sink holds no
fatal diagnostic once the checks have run: none among the diagnostics raised by
the five constraint checks over all program units, and none among those the
sink held before (raised during the walk, or left there by the caller). -/
theorem CheckConstraints_result (a : ParseTreeAnalyzer)
    (hvalid : ∀ u ∈ a.programUnits_, UnitTablesValid u = true) :
    ∃ emitted result, CheckConstraints_loop a.programUnits_ [] = some emitted ∧
      CheckConstraints a = some (result, a.errorHandler_ ++ emitted) ∧
      (result = true ↔
        (∀ m ∈ emitted, m.IsFatal = false) ∧ ∀ m ∈ a.errorHandler_, m.IsFatal = false) := by
  obtain ⟨emitted, hloop⟩ := CheckConstraints_loop_total a.programUnits_ hvalid []
  refine ⟨emitted, !(a.errorHandler_ ++ emitted).AnyFatalError, hloop, ?_, ?_⟩
  · unfold CheckConstraints
    rw [CheckConstraints_loop_append, hloop]
    rfl
  · rw [Bool.not_eq_true', AnyFatalError_eq_false_iff]
    simp only [List.mem_append]
    constructor
    · intro h
      exact ⟨fun m hm => h m (Or.inr hm), fun m hm => h m (Or.inl hm)⟩
    · rintro ⟨h1, h2⟩ m (hm | hm)
      · exact h2 m hm
      · exact h1 m hm

/-- Witness for C29: the unit `DO 10 I=1,5 ... 10 CONTINUE` with an empty
sink. -/
theorem CheckConstraints_result_witness :
    ∃ emitted result, CheckConstraints_loop [sampleDoContinueUnit] [] = some emitted ∧
      CheckConstraints (sampleAnalyzer sampleDoContinueUnit) =
        some (result, [] ++ emitted) ∧
      (result = true ↔
        (∀ m ∈ emitted, m.IsFatal = false) ∧
          ∀ m ∈ ([] : Messages), m.IsFatal = false) :=
  CheckConstraints_result (sampleAnalyzer sampleDoContinueUnit) (by decide)

/-- C30: for a program unit (with the tables the walk builds) the checks
return, and what `CheckConstraints` appends for it is the concatenation, in
this order, of what the DO-terminator check, the branch-into-loop check, the
loop-nesting check, the branch check (scope, then target) and the
data-transfer check (scope, then FORMAT) say, each computed over its whole
list and from an empty sink, so that no earlier diagnostic suppresses a later
check; the units are processed in the order of the list, each after the
diagnostics of the units before it. -/
theorem constraint_checks_in_order (programUnit : UnitAnalysis) (rest : List UnitAnalysis)
    (errorHandler : Messages) (hvalid : UnitTablesValid programUnit = true) :
    ∃ bodies doSaid scopeSaid formatScopeSaid,
      CheckLabelDoConstraints_loop programUnit.doStmtSources programUnit.targetStmts
        programUnit.scopeModel [] [] = some (bodies, doSaid) ∧
      CheckScopeConstraints programUnit.otherStmtSources programUnit.targetStmts
        programUnit.scopeModel [] = some scopeSaid ∧
      CheckScopeConstraints programUnit.formatStmtSources programUnit.targetStmts
        programUnit.scopeModel [] = some formatScopeSaid ∧
      CheckConstraints_unit programUnit errorHandler = some (errorHandler ++ (doSaid ++
        CheckBranchesIntoDoBody programUnit.otherStmtSources programUnit.targetStmts
          programUnit.scopeModel bodies [] ++
        CheckDoNesting bodies [] ++
        (scopeSaid ++
          CheckBranchTargetConstraints programUnit.otherStmtSources
            programUnit.targetStmts []) ++
        (formatScopeSaid ++
          CheckDataXferTargetConstraints programUnit.formatStmtSources
            programUnit.targetStmts []))) ∧
      CheckConstraints_loop (programUnit :: rest) errorHandler =
        (CheckConstraints_unit programUnit errorHandler).bind (CheckConstraints_loop rest) ∧
      (∀ (units1 units2 : List UnitAnalysis) (sink : Messages),
        CheckConstraints_loop (units1 ++ units2) sink =
          (CheckConstraints_loop units1 sink).bind (CheckConstraints_loop units2)) ∧
      (∀ (units : List UnitAnalysis) (sink : Messages),
        CheckConstraints_loop units sink =
          (CheckConstraints_loop units []).map (sink ++ ·)) := by
  obtain ⟨bodies, doSaid, scopeSaid, formatScopeSaid, h1, h2, h3, h4⟩ :=
    CheckConstraints_unit_valid hvalid errorHandler
  refine ⟨bodies, doSaid, scopeSaid, formatScopeSaid, h1, h2, h3, h4, ?_,
    fun units1 units2 sink => CheckConstraints_loop_concat units1 units2 sink,
    CheckConstraints_loop_append⟩
  simp only [CheckConstraints_loop]
  cases CheckConstraints_unit programUnit errorHandler <;> rfl

/-- Witness for C30: a unit whose DO terminator and FORMAT target are a GOTO
statement: the DO diagnostic comes first, the "not a FORMAT" last. -/
theorem constraint_checks_in_order_witness :
    CheckConstraints_unit sampleMixedUnit [] =
      some [⟨sampleGotoTargetPosition,
          err_en_US "'%u' invalid DO terminal statement" [.unsignedArg 10], none⟩,
        ⟨sampleGotoTargetPosition, err_en_US "'%u' not a FORMAT" [.unsignedArg 10],
          some (sampleFormatReference.parserCharBlock,
            en_US "data transfer use of '%u'" [.unsignedArg 10])⟩] := by
  obtain ⟨bodies, doSaid, scopeSaid, formatScopeSaid, h1, h2, h3, h4, _⟩ :=
    constraint_checks_in_order sampleMixedUnit [] [] (by decide)
  have e1 : CheckLabelDoConstraints_loop sampleMixedUnit.doStmtSources
      sampleMixedUnit.targetStmts sampleMixedUnit.scopeModel [] [] =
      some ([], [⟨sampleGotoTargetPosition,
        err_en_US "'%u' invalid DO terminal statement" [.unsignedArg 10], none⟩]) := by
    decide
  have e2 : CheckScopeConstraints sampleMixedUnit.otherStmtSources
      sampleMixedUnit.targetStmts sampleMixedUnit.scopeModel [] = some [] := by decide
  have e3 : CheckScopeConstraints sampleMixedUnit.formatStmtSources
      sampleMixedUnit.targetStmts sampleMixedUnit.scopeModel [] = some [] := by decide
  rw [e1] at h1
  rw [e2] at h2
  rw [e3] at h3
  cases h1
  cases h2
  cases h3
  rw [h4]
  decide

/-! ## Failures are local to one reference -/

theorem CheckScopeConstraints_concat (labels : TargetStmtMap) (scopes : List ProxyForScope) :
    ∀ (xs ys : SourceStmtList) (errorHandler : Messages),
      CheckScopeConstraints (xs ++ ys) labels scopes errorHandler =
        (CheckScopeConstraints xs labels scopes errorHandler).bind
          (CheckScopeConstraints ys labels scopes) := by
  intro xs
  induction xs with
  | nil => intro ys errorHandler; rfl
  | cons stmt rest ih =>
    intro ys errorHandler
    simp only [List.cons_append, CheckScopeConstraints]
    split
    · exact ih _ _
    · cases InInclusiveScope scopes stmt.proxyForScope
          (GetLabel labels stmt.parserLabel).proxyForScope with
      | none => rfl
      | some inScope =>
        simp only []
        split
        · exact ih _ _
        · exact ih _ _

theorem CheckBranchTargetConstraints_concat (labels : TargetStmtMap) :
    ∀ (xs ys : SourceStmtList) (errorHandler : Messages),
      CheckBranchTargetConstraints (xs ++ ys) labels errorHandler =
        CheckBranchTargetConstraints ys labels
          (CheckBranchTargetConstraints xs labels errorHandler) := by
  intro xs
  induction xs with
  | nil => intro ys errorHandler; rfl
  | cons stmt rest ih =>
    intro ys errorHandler
    simp only [List.cons_append, CheckBranchTargetConstraints]
    split
    · split
      · exact ih _ _
      · split
        · exact ih _ _
        · exact ih _ _
    · exact ih _ _

theorem CheckDataXferTargetConstraints_concat (labels : TargetStmtMap) :
    ∀ (xs ys : SourceStmtList) (errorHandler : Messages),
      CheckDataXferTargetConstraints (xs ++ ys) labels errorHandler =
        CheckDataXferTargetConstraints ys labels
          (CheckDataXferTargetConstraints xs labels errorHandler) := by
  intro xs
  induction xs with
  | nil => intro ys errorHandler; rfl
  | cons stmt rest ih =>
    intro ys errorHandler
    simp only [List.cons_append, CheckDataXferTargetConstraints]
    split
    · split
      · exact ih _ _
      · exact ih _ _
    · exact ih _ _

theorem CheckScopeConstraints_split (labels : TargetStmtMap) {scopes : List ProxyForScope}
    (hwf : ScopeTableWF scopes = true) (xs ys : SourceStmtList)
    (hvalid : ∀ s ∈ xs ++ ys, s.proxyForScope < scopes.length) :
    ∃ saidX saidY, CheckScopeConstraints xs labels scopes [] = some saidX ∧
      CheckScopeConstraints ys labels scopes [] = some saidY ∧
      CheckScopeConstraints (xs ++ ys) labels scopes [] = some (saidX ++ saidY) := by
  obtain ⟨saidX, hx⟩ := CheckScopeConstraints_total labels hwf xs
    (fun s hs => hvalid s (List.mem_append_left _ hs)) []
  obtain ⟨saidY, hy⟩ := CheckScopeConstraints_total labels hwf ys
    (fun s hs => hvalid s (List.mem_append_right _ hs)) []
  refine ⟨saidX, saidY, hx, hy, ?_⟩
  rw [CheckScopeConstraints_concat, hx, Option.some_bind, CheckScopeConstraints_append, hy]
  rfl

/-- C31: failures are local to one reference. For a fixed definition map and
scope table (as the walk builds it) the scope check returns on `xs`, on `ys`
and on `xs ++ ys`, and what it says for `xs ++ ys` is what it says for `xs`
followed by what it says for `ys`; the same holds for the branch-target check
and for the FORMAT check. So in any list the diagnostics of one reference are
those of that reference taken alone, between those of the references before
it and those of the references after it. -/
theorem failures_local_to_reference (labels : TargetStmtMap) (scopes : List ProxyForScope)
    (xs ys : SourceStmtList) (stmt : SourceStatementInfoTuplePOD)
    (hwf : ScopeTableWF scopes = true)
    (hvalid : ∀ s ∈ xs ++ stmt :: ys, s.proxyForScope < scopes.length) :
    (∃ saidX saidY, CheckScopeConstraints xs labels scopes [] = some saidX ∧
      CheckScopeConstraints ys labels scopes [] = some saidY ∧
      CheckScopeConstraints (xs ++ ys) labels scopes [] = some (saidX ++ saidY) ∧
      ∃ saidStmt, CheckScopeConstraints [stmt] labels scopes [] = some saidStmt ∧
        CheckScopeConstraints (xs ++ stmt :: ys) labels scopes [] =
          some (saidX ++ saidStmt ++ saidY)) ∧
    CheckBranchTargetConstraints (xs ++ ys) labels [] =
      CheckBranchTargetConstraints xs labels [] ++
        CheckBranchTargetConstraints ys labels [] ∧
    CheckBranchTargetConstraints (xs ++ stmt :: ys) labels [] =
      CheckBranchTargetConstraints xs labels [] ++
        CheckBranchTargetConstraints [stmt] labels [] ++
        CheckBranchTargetConstraints ys labels [] ∧
    CheckDataXferTargetConstraints (xs ++ ys) labels [] =
      CheckDataXferTargetConstraints xs labels [] ++
        CheckDataXferTargetConstraints ys labels [] ∧
    CheckDataXferTargetConstraints (xs ++ stmt :: ys) labels [] =
      CheckDataXferTargetConstraints xs labels [] ++
        CheckDataXferTargetConstraints [stmt] labels [] ++
        CheckDataXferTargetConstraints ys labels [] := by
  have hxs : ∀ s ∈ xs, s.proxyForScope < scopes.length :=
    fun s hs => hvalid s (List.mem_append_left _ hs)
  have hys : ∀ s ∈ ys, s.proxyForScope < scopes.length :=
    fun s hs => hvalid s (List.mem_append_right _ (List.mem_cons_of_mem _ hs))
  have hstmt : stmt.proxyForScope < scopes.length :=
    hvalid stmt (List.mem_append_right _ (List.mem_cons_self _ _))
  refine ⟨?_, ?_, ?_, ?_, ?_⟩
  · obtain ⟨saidX, saidY, hx, hy, hxy⟩ := CheckScopeConstraints_split labels hwf xs ys
      (fun s hs => (List.mem_append.1 hs).elim (hxs s) (hys s))
    obtain ⟨saidStmt, saidY1, hs, hy1, hsy⟩ := CheckScopeConstraints_split labels hwf [stmt] ys
      (fun s hs => by
        rcases List.mem_append.1 hs with h | h
        · rw [List.mem_singleton.1 h]; exact hstmt
        · exact hys s h)
    rw [hy] at hy1
    cases hy1
    refine ⟨saidX, saidY, hx, hy, hxy, saidStmt, hs, ?_⟩
    have hcons : stmt :: ys = [stmt] ++ ys := rfl
    rw [CheckScopeConstraints_concat, hx, Option.some_bind, CheckScopeConstraints_append,
      hcons, hsy]
    simp
  · rw [CheckBranchTargetConstraints_concat, CheckBranchTargetConstraints_append]
  · have hcons : xs ++ stmt :: ys = (xs ++ [stmt]) ++ ys := by simp
    rw [hcons, CheckBranchTargetConstraints_concat, CheckBranchTargetConstraints_append,
      CheckBranchTargetConstraints_concat labels xs,
      CheckBranchTargetConstraints_append labels [stmt]]
  · rw [CheckDataXferTargetConstraints_concat, CheckDataXferTargetConstraints_append]
  · have hcons : xs ++ stmt :: ys = (xs ++ [stmt]) ++ ys := by simp
    rw [hcons, CheckDataXferTargetConstraints_concat, CheckDataXferTargetConstraints_append,
      CheckDataXferTargetConstraints_concat labels xs,
      CheckDataXferTargetConstraints_append labels [stmt]]

/-- Witness for C31: a GOTO 10, a WRITE with format 10 and another GOTO 10,
label 10 being a FORMAT statement. -/
theorem failures_local_to_reference_witness :
    CheckBranchTargetConstraints ([sampleGotoReference] ++ sampleFormatReference ::
        [sampleGotoReference]) (sampleLabels 1 sampleFormatPosition .IndirectionFormatStmt) [] =
      CheckBranchTargetConstraints [sampleGotoReference]
          (sampleLabels 1 sampleFormatPosition .IndirectionFormatStmt) [] ++
        CheckBranchTargetConstraints [sampleFormatReference]
          (sampleLabels 1 sampleFormatPosition .IndirectionFormatStmt) [] ++
        CheckBranchTargetConstraints [sampleGotoReference]
          (sampleLabels 1 sampleFormatPosition .IndirectionFormatStmt) [] :=
  (failures_local_to_reference (sampleLabels 1 sampleFormatPosition .IndirectionFormatStmt)
    [0, 0] [sampleGotoReference] [sampleGotoReference] sampleFormatReference
    (by decide) (by decide)).2.2.1

/-! ## Loop bodies recorded by the DO-terminator check -/

theorem drop_length_takeWhile (p : Char → Bool) :
    ∀ l : List Char, l.drop (l.takeWhile p).length = l.dropWhile p := by
  intro l
  induction l with
  | nil => rfl
  | cons c t ih =>
    by_cases h : p c = true
    · simp [List.takeWhile, List.dropWhile, h, ih]
    · simp [List.takeWhile, List.dropWhile, h]

theorem length_takeWhile_le (p : Char → Bool) (l : List Char) :
    (l.takeWhile p).length + (l.dropWhile p).length = l.length := by
  have h := congrArg List.length (List.takeWhile_append_dropWhile p l)
  rw [List.length_append] at h
  exact h

theorem SkipLabel_eq_stripLeadingLabel (position : CharBlock) :
    SkipLabel position = stripLeadingLabel position := by
  obtain ⟨start, text⟩ := position
  cases text with
  | nil => rfl
  | cons c t =>
    by_cases h : IsDecimalDigit c = true
    · have hdrop : (c :: t).drop (1 + (t.takeWhile IsDecimalDigit).length) =
          (c :: t).dropWhile IsDecimalDigit := by
        have := drop_length_takeWhile IsDecimalDigit (c :: t)
        simp only [List.takeWhile, h, List.length_cons] at this
        rw [← this]
        congr 1
        omega
      simp only [SkipLabel, CharBlock.size, List.length_cons, List.head?_cons, Option.map_some',
        Option.getD_some, h, Bool.and_true, advanceWhile, List.drop_succ_cons, List.drop_zero,
        stripLeadingLabel, List.takeWhile, List.isEmpty_cons, Bool.false_eq_true, ↓reduceIte,
        hdrop]
      have hne : (t.length + 1 != 0) = true := by simp
      simp only [hne, ↓reduceIte]
      congr 1
      · omega
      · rw [← List.drop_drop, hdrop, drop_length_takeWhile]
    · have hf : IsDecimalDigit c = false := by simpa using h
      simp [SkipLabel, stripLeadingLabel, List.takeWhile, hf]

theorem SkipLabel_begin_le (position : CharBlock) :
    position.begin ≤ (SkipLabel position).begin ∧
      (SkipLabel position).begin ≤ position.end_ := by
  rw [SkipLabel_eq_stripLeadingLabel]
  unfold stripLeadingLabel
  simp only
  split
  · exact ⟨Nat.le_refl _, by simp [CharBlock.end_]⟩
  · have h1 := length_takeWhile_le IsDecimalDigit position.text
    have h2 := length_takeWhile_le isspace (position.text.dropWhile IsDecimalDigit)
    simp only [CharBlock.end_, CharBlock.size]
    omega

theorem SkipLabel_begin_lt (position : CharBlock)
    (hdigit : (position.text.head?.map IsDecimalDigit).getD false = true) :
    position.begin < (SkipLabel position).begin := by
  rw [SkipLabel_eq_stripLeadingLabel]
  obtain ⟨start, text⟩ := position
  cases text with
  | nil => simp at hdigit
  | cons c t =>
    have h : IsDecimalDigit c = true := by simpa using hdigit
    simp [stripLeadingLabel, List.takeWhile, h]

theorem CheckLabelDoConstraints_stmt_cases (stmt : SourceStatementInfoTuplePOD)
    (labels : TargetStmtMap) (scopes : List ProxyForScope) (r : IndexList × Messages)
    (h : CheckLabelDoConstraints_stmt stmt labels scopes [] [] = some r) :
    ((r.2 = [] ∧ r.1 = [doReferenceBody stmt labels]) ∨ (r.1 = [] ∧ ∃ m, r.2 = [m])) ∧
      ((GetLabel labels stmt.parserLabel).labeledStmtClassificationSet.test .Do = false →
        r.1 = []) := by
  unfold CheckLabelDoConstraints_stmt at h
  simp only [List.nil_append, Messages.Say] at h
  split at h
  · cases h; exact ⟨Or.inr ⟨rfl, _, rfl⟩, fun _ => rfl⟩
  · split at h
    · cases h; exact ⟨Or.inr ⟨rfl, _, rfl⟩, fun _ => rfl⟩
    · split at h
      · cases h
      · split at h
        · cases h; exact ⟨Or.inr ⟨rfl, _, rfl⟩, fun _ => rfl⟩
        · split at h
          · cases h; exact ⟨Or.inr ⟨rfl, _, rfl⟩, fun _ => rfl⟩
          · split at h
            · cases h; exact ⟨Or.inr ⟨rfl, _, rfl⟩, fun _ => rfl⟩
            · cases h
              rename_i hdo
              refine ⟨Or.inl ⟨rfl, ?_⟩, fun hno => ?_⟩
              · simp [doReferenceBody, SkipLabel_eq_stripLeadingLabel]
              · simp [hno] at hdo

theorem CheckLabelDoConstraints_loop_eq (labels : TargetStmtMap) (scopes : List ProxyForScope) :
    ∀ (dos : SourceStmtList) (r : IndexList × Messages),
      CheckLabelDoConstraints_loop dos labels scopes [] [] = some r →
      r.1 = (dos.filter fun stmt => (doReferenceSaid stmt labels scopes).isEmpty).map
          (fun stmt => doReferenceBody stmt labels) ∧
        r.2 = (dos.map fun stmt => doReferenceSaid stmt labels scopes).flatten := by
  intro dos
  induction dos with
  | nil =>
    intro r h
    simp only [CheckLabelDoConstraints_loop] at h
    cases h
    exact ⟨rfl, rfl⟩
  | cons stmt rest ih =>
    intro r h
    simp only [CheckLabelDoConstraints_loop] at h
    cases hs : CheckLabelDoConstraints_stmt stmt labels scopes [] [] with
    | none => simp [hs] at h
    | some r1 =>
      obtain ⟨bodies1, said1⟩ := r1
      simp only [hs] at h
      rw [CheckLabelDoConstraints_loop_append] at h
      cases hr : CheckLabelDoConstraints_loop rest labels scopes [] [] with
      | none => simp [hr] at h
      | some r2 =>
        simp only [hr, Option.map_some', Option.some.injEq] at h
        obtain ⟨ih1, ih2⟩ := ih r2 hr
        have hsaid : doReferenceSaid stmt labels scopes = said1 := by
          simp [doReferenceSaid, hs]
        obtain ⟨hcase, _⟩ := CheckLabelDoConstraints_stmt_cases stmt labels scopes _ hs
        subst h
        simp only [List.map_cons, List.flatten_cons, hsaid, ← ih2, List.filter_cons, true_and,
          and_true]
        rcases hcase with ⟨h2, h1⟩ | ⟨h1, m, h2⟩
        · simp only at h1 h2
          subst h1 h2
          simp [ih1]
        · simp only at h1 h2
          subst h1 h2
          simp [ih1]

/-- C32: in the DO-terminator check every DO reference gets at most one
diagnostic, and a loop body is recorded for it exactly when it gets none; in
particular none is recorded when the terminator is not classified `Do`, as for
a compatibility-only terminator. The recorded body is the pair of the position
of the DO statement, with its leading label digits and the white space after
them removed, and the position of the terminator; the bodies are recorded in
the order of the DO references. -/
theorem do_terminator_bodies (dos : SourceStmtList) (labels : TargetStmtMap)
    (scopes : List ProxyForScope) (hwf : ScopeTableWF scopes = true)
    (hvalid : ∀ s ∈ dos, s.proxyForScope < scopes.length) :
    (∀ stmt ∈ dos, ∃ r, CheckLabelDoConstraints_stmt stmt labels scopes [] [] = some r ∧
      ((r.2 = [] ∧ r.1 = [(SkipLabel stmt.parserCharBlock,
          (GetLabel labels stmt.parserLabel).parserCharBlock)]) ∨
        (r.1 = [] ∧ ∃ m, r.2 = [m])) ∧
      ((GetLabel labels stmt.parserLabel).labeledStmtClassificationSet.test .Do = false →
        r.1 = [])) ∧
    (∀ position, SkipLabel position = stripLeadingLabel position) ∧
    ∃ bodies said,
      CheckLabelDoConstraints_loop dos labels scopes [] [] = some (bodies, said) ∧
      bodies = (dos.filter fun stmt => (doReferenceSaid stmt labels scopes).isEmpty).map
        (fun stmt => doReferenceBody stmt labels) ∧
      said = (dos.map fun stmt => doReferenceSaid stmt labels scopes).flatten ∧
      bodies.length + said.length = dos.length := by
  refine ⟨?_, SkipLabel_eq_stripLeadingLabel, ?_⟩
  · intro stmt hstmt
    obtain ⟨r, hr⟩ := CheckLabelDoConstraints_loop_total labels hwf [stmt]
      (fun s hs => by rw [List.mem_singleton.1 hs]; exact hvalid stmt hstmt) [] []
    simp only [CheckLabelDoConstraints_loop] at hr
    cases hs : CheckLabelDoConstraints_stmt stmt labels scopes [] [] with
    | none => simp [hs] at hr
    | some r1 =>
      have := CheckLabelDoConstraints_stmt_cases stmt labels scopes r1 hs
      refine ⟨r1, rfl, ?_, this.2⟩
      simpa [doReferenceBody, SkipLabel_eq_stripLeadingLabel] using this.1
  · obtain ⟨r, hr⟩ := CheckLabelDoConstraints_loop_total labels hwf dos hvalid [] []
    obtain ⟨h1, h2⟩ := CheckLabelDoConstraints_loop_eq labels scopes dos r hr
    refine ⟨r.1, r.2, hr, h1, h2, ?_⟩
    rw [h1, h2]
    clear h1 h2 hr
    induction dos with
    | nil => rfl
    | cons stmt rest ih =>
      obtain ⟨r1, hr1⟩ := CheckLabelDoConstraints_loop_total labels hwf [stmt]
        (fun s hs => by
          rw [List.mem_singleton.1 hs]; exact hvalid stmt (List.mem_cons_self _ _)) [] []
      simp only [CheckLabelDoConstraints_loop] at hr1
      cases hs : CheckLabelDoConstraints_stmt stmt labels scopes [] [] with
      | none => simp [hs] at hr1
      | some r2 =>
        have hsaid : doReferenceSaid stmt labels scopes = r2.2 := by
          simp [doReferenceSaid, hs]
        have ih1 := ih (fun s hs => hvalid s (List.mem_cons_of_mem _ hs))
        obtain ⟨hcase, _⟩ := CheckLabelDoConstraints_stmt_cases stmt labels scopes r2 hs
        simp only [List.filter_cons, hsaid, List.map_cons, List.flatten_cons, List.length_append,
          List.length_cons]
        rcases hcase with ⟨h2, _⟩ | ⟨_, m, h2⟩
        · rw [h2]
          simp only [List.isEmpty_nil, ↓reduceIte, List.map_cons, List.length_cons,
            List.length_nil]
          omega
        · rw [h2]
          simp only [List.isEmpty_cons, Bool.false_eq_true, ↓reduceIte, List.length_cons,
            List.length_nil]
          omega

/-- Witness for C32: `DO 10` ended by `10 CONTINUE` and `DO 20` ended by the
assignment `20 X = 1`: one loop body, for the first, and one diagnostic, for
the second. -/
theorem do_terminator_bodies_witness :
    ∃ bodies said,
      CheckLabelDoConstraints_loop sampleTwoDoReferences sampleTwoDoLabels [0, 0] [] [] =
        some (bodies, said) ∧
      bodies = (sampleTwoDoReferences.filter fun stmt =>
        (doReferenceSaid stmt sampleTwoDoLabels [0, 0]).isEmpty).map
        (fun stmt => doReferenceBody stmt sampleTwoDoLabels) ∧
      said = (sampleTwoDoReferences.map fun stmt =>
        doReferenceSaid stmt sampleTwoDoLabels [0, 0]).flatten ∧
      bodies.length + said.length = sampleTwoDoReferences.length :=
  (do_terminator_bodies sampleTwoDoReferences sampleTwoDoLabels [0, 0]
    (by decide) (by decide)).2.2

/-! ## Loops that share a terminator, and the extent of a loop body -/

theorem CheckDoNesting_inner_concat (v1 : CharBlock × CharBlock) :
    ∀ (xs ys : IndexList) (errorHandler : Messages),
      CheckDoNesting_inner v1 (xs ++ ys) errorHandler =
        CheckDoNesting_inner v1 ys (CheckDoNesting_inner v1 xs errorHandler) := by
  intro xs
  induction xs with
  | nil => intro ys errorHandler; rfl
  | cons v2 rest ih =>
    intro ys errorHandler
    simp only [List.cons_append, CheckDoNesting_inner]
    split
    · exact ih _ _
    · exact ih _ _

theorem CheckDoNesting_inner_shared (v1 v2 : CharBlock × CharBlock)
    (hshared : v1.2.begin = v2.2.begin) (rest : IndexList) (errorHandler : Messages) :
    CheckDoNesting_inner v1 (v2 :: rest) errorHandler =
      CheckDoNesting_inner v1 rest errorHandler := by
  simp [CheckDoNesting_inner, hshared]

theorem CheckDoNesting_inner_all_shared (v1 : CharBlock × CharBlock) (terminator : CharBlock)
    (h1 : v1.2 = terminator) :
    ∀ (rest : IndexList) (errorHandler : Messages), (∀ v ∈ rest, v.2 = terminator) →
      CheckDoNesting_inner v1 rest errorHandler = errorHandler := by
  intro rest
  induction rest with
  | nil => intro errorHandler _; rfl
  | cons v2 rest ih =>
    intro errorHandler hall
    rw [CheckDoNesting_inner_shared v1 v2
      (by rw [h1, hall v2 (List.mem_cons_self _ _)])]
    exact ih errorHandler (fun v hv => hall v (List.mem_cons_of_mem _ hv))

theorem CheckDoNesting_all_shared (terminator : CharBlock) :
    ∀ (loopBodies : IndexList) (errorHandler : Messages),
      (∀ v ∈ loopBodies, v.2 = terminator) →
      CheckDoNesting loopBodies errorHandler = errorHandler := by
  intro loopBodies
  induction loopBodies with
  | nil => intro errorHandler _; rfl
  | cons v1 rest ih =>
    intro errorHandler hall
    simp only [CheckDoNesting]
    rw [CheckDoNesting_inner_all_shared v1 terminator (hall v1 (List.mem_cons_self _ _)) rest
      errorHandler (fun v hv => hall v (List.mem_cons_of_mem _ hv))]
    exact ih errorHandler (fun v hv => hall v (List.mem_cons_of_mem _ hv))

/-- C38: labelled DO loops that end on the same statement never get "DO loop
doesn't properly nest" for one another, wherever their DO statements are. For
DO references that all name the label `label` the DO-terminator check returns,
every loop body it records ends at the statement that defines `label`, and the
nesting check of these bodies says nothing. In any list of loop bodies, a body
with the same terminator as `v1` adds nothing to what the nesting check says
for `v1`. -/
theorem shared_terminator_never_misnested (dos : SourceStmtList) (labels : TargetStmtMap)
    (scopes : List ProxyForScope) (label : Label) (errorHandler : Messages)
    (hwf : ScopeTableWF scopes = true)
    (hvalid : ∀ s ∈ dos, s.proxyForScope < scopes.length)
    (hshared : ∀ s ∈ dos, s.parserLabel = label) :
    (∃ bodies said,
      CheckLabelDoConstraints_loop dos labels scopes [] [] = some (bodies, said) ∧
      (∀ v ∈ bodies, v.2 = (GetLabel labels label).parserCharBlock) ∧
      CheckDoNesting bodies errorHandler = errorHandler) ∧
    ∀ (v1 v2 : CharBlock × CharBlock) (before after : IndexList) (sink : Messages),
      v1.2 = v2.2 →
      CheckDoNesting_inner v1 (before ++ v2 :: after) sink =
        CheckDoNesting_inner v1 (before ++ after) sink := by
  constructor
  · obtain ⟨r, hr⟩ := CheckLabelDoConstraints_loop_total labels hwf dos hvalid [] []
    obtain ⟨h1, _⟩ := CheckLabelDoConstraints_loop_eq labels scopes dos r hr
    have hall : ∀ v ∈ r.1, v.2 = (GetLabel labels label).parserCharBlock := by
      intro v hv
      rw [h1] at hv
      obtain ⟨stmt, hstmt, rfl⟩ := List.mem_map.1 hv
      have hmem : stmt ∈ dos := (List.mem_filter.1 hstmt).1
      simp [doReferenceBody, hshared stmt hmem]
    exact ⟨r.1, r.2, hr, hall, CheckDoNesting_all_shared _ r.1 errorHandler hall⟩
  · intro v1 v2 before after sink h
    rw [CheckDoNesting_inner_concat, CheckDoNesting_inner_shared v1 v2 (by rw [h]),
      ← CheckDoNesting_inner_concat]

/-- Witness for C38: `DO 10` at offset 0 and `DO 10` at offset 40, both ended
by the `10 CONTINUE` at offset 60. -/
theorem shared_terminator_never_misnested_witness :
    ∃ bodies said,
      CheckLabelDoConstraints_loop [sampleDoReference, sampleLateDoReference]
        (sampleLabels 1 ⟨60, "10 CONTINUE".toList⟩ (.ActionStmt .ContinueStmt)) [0, 0] [] [] =
        some (bodies, said) ∧
      (∀ v ∈ bodies, v.2 = (GetLabel
        (sampleLabels 1 ⟨60, "10 CONTINUE".toList⟩ (.ActionStmt .ContinueStmt))
        10).parserCharBlock) ∧
      CheckDoNesting bodies [] = [] :=
  (shared_terminator_never_misnested [sampleDoReference, sampleLateDoReference]
    (sampleLabels 1 ⟨60, "10 CONTINUE".toList⟩ (.ActionStmt .ContinueStmt)) [0, 0] 10 []
    (by decide) (by decide) (by decide)).1

/-- C37: a position is in a loop body exactly when it starts at or after the
recorded start and before the end of the terminator. So, for the loop body
recorded for a DO statement and its terminator (a statement that is not empty
and comes after the DO statement), a branch from before the DO statement or
from after the terminator to the terminator itself is reported as a branch
into the loop body; and a branch to the DO statement, whose position starts at
its label, is not reported for this loop body, wherever it comes from. -/
theorem loop_body_extent (branch : SourceStatementInfoTuplePOD) (labels : TargetStmtMap)
    (scopes : List ProxyForScope) (target : LabeledStatementInfoTuplePOD)
    (doPosition terminator : CharBlock) (errorHandler : Messages)
    (hdef : labels.lookup branch.parserLabel = some target)
    (hscope : target.proxyForScope ≠ 0)
    (hdigit : (doPosition.text.head?.map IsDecimalDigit).getD false = true)
    (hterm : 0 < terminator.size) (hafter : doPosition.end_ ≤ terminator.begin) :
    (∀ (position : CharBlock) (body : CharBlock × CharBlock),
      InBody position body = true ↔
        body.1.begin ≤ position.begin ∧ position.begin < body.2.end_) ∧
    (target.parserCharBlock = terminator →
      (branch.parserCharBlock.begin < doPosition.begin ∨
        terminator.end_ ≤ branch.parserCharBlock.begin) →
      CheckBranchesIntoDoBody [branch] labels scopes [(SkipLabel doPosition, terminator)]
          errorHandler =
        errorHandler ++ [⟨branch.parserCharBlock, en_US "branch into loop body from outside" [],
          some (SkipLabel doPosition, en_US "the loop branched into" [])⟩]) ∧
    (target.parserCharBlock = doPosition →
      CheckBranchesIntoDoBody [branch] labels scopes [(SkipLabel doPosition, terminator)]
          errorHandler = errorHandler) := by
  have hInBody : ∀ (position : CharBlock) (body : CharBlock × CharBlock),
      InBody position body = true ↔
        body.1.begin ≤ position.begin ∧ position.begin < body.2.end_ := by
    intro position body
    unfold InBody
    by_cases h1 : position.begin ≥ body.1.begin <;> by_cases h2 : position.begin < body.2.end_ <;>
      simp [h1, h2]
  have hget : GetLabel labels branch.parserLabel = target := GetLabel_of_lookup hdef
  have hhas : HasScope target.proxyForScope = true := by simpa [HasScope] using hscope
  have hle := SkipLabel_begin_le doPosition
  have hlt := SkipLabel_begin_lt doPosition hdigit
  refine ⟨hInBody, ?_, ?_⟩
  · intro htarget hfrom
    have hout : InBody branch.parserCharBlock (SkipLabel doPosition, terminator) = false := by
      rw [Bool.eq_false_iff]
      intro hin
      have := (hInBody _ _).1 hin
      simp only at this
      omega
    have hin : InBody terminator (SkipLabel doPosition, terminator) = true := by
      rw [hInBody]
      simp only [CharBlock.end_] at *
      omega
    simp [CheckBranchesIntoDoBody, CheckBranchesIntoDoBody_bodies, hget, hhas, htarget, hout,
      hin, Messages.SayAttach]
  · intro htarget
    have hnot : InBody doPosition (SkipLabel doPosition, terminator) = false := by
      rw [Bool.eq_false_iff]
      intro hin
      have := (hInBody _ _).1 hin
      simp only at this
      omega
    simp [CheckBranchesIntoDoBody, CheckBranchesIntoDoBody_bodies, hget, hhas, htarget, hnot]

/-- Witness for C37: the loop `20 DO 10 I=1,5 ... 10 CONTINUE` and a `GOTO 10`
at offset 40, after the loop. -/
theorem loop_body_extent_witness :
    CheckBranchesIntoDoBody [sampleGotoReference]
        (sampleLabels 1 sampleTargetPosition (.ActionStmt .ContinueStmt)) [0, 0]
        [(SkipLabel sampleLabelledDoPosition, sampleTargetPosition)] [] =
      [] ++ [⟨sampleGotoReference.parserCharBlock,
        en_US "branch into loop body from outside" [],
        some (SkipLabel sampleLabelledDoPosition, en_US "the loop branched into" [])⟩] :=
  (loop_body_extent sampleGotoReference
    (sampleLabels 1 sampleTargetPosition (.ActionStmt .ContinueStmt)) [0, 0]
    (sampleTarget 1 sampleTargetPosition (.ActionStmt .ContinueStmt))
    sampleLabelledDoPosition sampleTargetPosition [] (by decide) (by decide) (by decide)
    (by decide) (by decide)).2.1 rfl (Or.inr (by decide))

/-! ## Labels out of range -/

theorem PreStatement_labelled_spec (a : ParseTreeAnalyzer) (statement : Statement)
    (label : Label) {init : List UnitAnalysis} {programUnit : UnitAnalysis}
    (hunits : a.programUnits_ = init ++ [programUnit])
    (hlabel : statement.label = some label) :
    ∃ a1, PreStatement a statement = some a1 ∧
      a1.programUnits_ = init ++ [{ programUnit with
        targetStmts := (programUnit.targetStmts.emplace label
          ⟨a.currentScope_, statement.source, constructBranchTargetFlags statement⟩).1 }] ∧
      a1.currentScope_ = a.currentScope_ ∧ a1.currentPosition_ = statement.source ∧
      a1.constructNames_ = a.constructNames_ ∧
      a1.errorHandler_ = a.errorHandler_ ++
        (if label < 1 ∨ 99999 < label then
          [⟨statement.source,
            err_en_US "label '%u' is out of range" [.unsignedArg (SayLabel label)], none⟩]
        else []) ++
        (if (programUnit.targetStmts.lookup label).isSome then
          [⟨statement.source,
            err_en_US "label '%u' is not distinct" [.unsignedArg (SayLabel label)], none⟩]
        else []) := by
  have hlast : ({ a with currentPosition_ := statement.source } :
      ParseTreeAnalyzer).programUnits_.getLast? = some programUnit := by
    simp [hunits]
  have hpre : PreStatement a statement =
      addTargetLabelDefinition { a with currentPosition_ := statement.source } label
        (constructBranchTargetFlags statement) := by
    simp [PreStatement, hlabel]
  have hdef := addTargetLabelDefinition_of_getLast label (constructBranchTargetFlags statement)
    hlast
  rw [← hpre] at hdef
  refine ⟨_, hdef, ?_, ?_, ?_, ?_, ?_⟩
  · simp [hunits]
  · simp
  · simp
  · simp
  · simp [CheckLabelInRange_errorHandler]

theorem addLabelReference_said (a : ParseTreeAnalyzer) (label : Label)
    {init : List UnitAnalysis} {programUnit : UnitAnalysis}
    (hunits : a.programUnits_ = init ++ [programUnit]) :
    ∃ a1, addLabelReference a label = some a1 ∧
      a1.programUnits_ = init ++ [{ programUnit with otherStmtSources :=
        programUnit.otherStmtSources ++ [⟨label, a.currentScope_, a.currentPosition_⟩] }] ∧
      a1.errorHandler_ = a.errorHandler_ ++
        (if label < 1 ∨ 99999 < label then
          [⟨a.currentPosition_,
            err_en_US "label '%u' is out of range" [.unsignedArg (SayLabel label)], none⟩]
        else []) := by
  have hlast : a.programUnits_.getLast? = some programUnit := by
    rw [hunits]; exact List.getLast?_concat _
  refine ⟨_, addLabelReference_of_getLast label hlast, ?_, ?_⟩
  · simp [hunits]
  · simp [CheckLabelInRange_errorHandler]

/-- C33: a label outside 1..99999 is diagnosed where it is recorded and is
otherwise a label like any other. The statement that defines it, when the unit
has no definition of that number yet, is inserted in the definition map (and
"out of range" is said); a reference to it is appended to its list, the
generic one (where "out of range" is said again), the DO list or the FORMAT
list; and the scope check of that reference finds the definition: it says
nothing for a reference made in the scope of the definition, in particular no
"was not found". -/
theorem out_of_range_label_recorded (a : ParseTreeAnalyzer) (init : List UnitAnalysis)
    (programUnit : UnitAnalysis) (statement : Statement) (label : Label)
    (errorHandler : Messages)
    (hunits : a.programUnits_ = init ++ [programUnit])
    (hlabel : statement.label = some label)
    (hrange : label < 1 ∨ 99999 < label)
    (hfresh : programUnit.targetStmts.lookup label = none)
    (hscope : a.currentScope_ ≠ 0) :
    ∃ a1 a2, PreStatement a statement = some a1 ∧
      a1.programUnits_ = init ++ [{ programUnit with
        targetStmts := programUnit.targetStmts ++
          [(label, ⟨a.currentScope_, statement.source,
            constructBranchTargetFlags statement⟩)] }] ∧
      a1.errorHandler_ = a.errorHandler_ ++ [⟨statement.source,
        err_en_US "label '%u' is out of range" [.unsignedArg (SayLabel label)], none⟩] ∧
      addLabelReference a1 label = some a2 ∧
      a2.programUnits_ = init ++ [{ programUnit with
        targetStmts := programUnit.targetStmts ++
          [(label, ⟨a.currentScope_, statement.source,
            constructBranchTargetFlags statement⟩)]
        otherStmtSources := programUnit.otherStmtSources ++
          [⟨label, a.currentScope_, statement.source⟩] }] ∧
      a2.errorHandler_ = a1.errorHandler_ ++ [⟨statement.source,
        err_en_US "label '%u' is out of range" [.unsignedArg (SayLabel label)], none⟩] ∧
      (addLabelReferenceFromDoStmt a1 label).map (fun b => b.programUnits_) =
        some (init ++ [{ programUnit with
          targetStmts := programUnit.targetStmts ++
            [(label, ⟨a.currentScope_, statement.source,
              constructBranchTargetFlags statement⟩)]
          doStmtSources := programUnit.doStmtSources ++
            [⟨label, a.currentScope_, statement.source⟩] }]) ∧
      (addLabelReferenceToFormatStmt a1 label).map (fun b => b.programUnits_) =
        some (init ++ [{ programUnit with
          targetStmts := programUnit.targetStmts ++
            [(label, ⟨a.currentScope_, statement.source,
              constructBranchTargetFlags statement⟩)]
          formatStmtSources := programUnit.formatStmtSources ++
            [⟨label, a.currentScope_, statement.source⟩] }]) ∧
      CheckScopeConstraints [⟨label, a.currentScope_, statement.source⟩]
        (programUnit.targetStmts ++
          [(label, ⟨a.currentScope_, statement.source,
            constructBranchTargetFlags statement⟩)])
        programUnit.scopeModel errorHandler = some errorHandler := by
  obtain ⟨a1, h1, hu1, hs1, hp1, _, he1⟩ := PreStatement_labelled_spec a statement label
    hunits hlabel
  obtain ⟨a2, h2, hu2, he2⟩ := addLabelReference_said a1 label hu1
  have hlast1 := congrArg List.getLast? hu1
  rw [List.getLast?_concat] at hlast1
  refine ⟨a1, a2, h1, ?_, ?_, h2, ?_, ?_, ?_, ?_, ?_⟩
  · rw [hu1]; simp [TargetStmtMap.emplace, hfresh]
  · rw [he1, if_pos hrange]; simp [hfresh]
  · rw [hu2, hs1, hp1]; simp [TargetStmtMap.emplace, hfresh]
  · rw [he2, hp1, if_pos hrange]
  · rw [addLabelReferenceFromDoStmt_of_getLast label hlast1]
    simp [hu1, hs1, hp1, TargetStmtMap.emplace, hfresh]
  · rw [addLabelReferenceToFormatStmt_of_getLast label hlast1]
    simp [hu1, hs1, hp1, TargetStmtMap.emplace, hfresh]
  · have hlook := @lookup_append_of_none programUnit.targetStmts label
      ⟨a.currentScope_, statement.source, constructBranchTargetFlags statement⟩ hfresh
    have hhas : HasScope a.currentScope_ = true := by simpa [HasScope] using hscope
    simp [CheckScopeConstraints, GetLabel_of_lookup hlook, hhas, InInclusiveScope,
      InInclusiveScopeLoop]

/-- Witness for C33: the statement `0 CONTINUE` in scope 1 of a fresh unit,
then a reference to label 0. -/
theorem out_of_range_label_recorded_witness :
    ∃ a1 a2, PreStatement sampleFreshAnalyzer sampleZeroLabelStatement = some a1 ∧
      a1.errorHandler_ = [⟨sampleZeroLabelStatement.source,
        err_en_US "label '%u' is out of range" [.unsignedArg 0], none⟩] ∧
      addLabelReference a1 0 = some a2 ∧
      CheckScopeConstraints [⟨0, 1, sampleZeroLabelStatement.source⟩]
        [(0, ⟨1, sampleZeroLabelStatement.source,
          constructBranchTargetFlags sampleZeroLabelStatement⟩)] [0, 0] [] = some [] := by
  obtain ⟨a1, a2, h1, _, he1, h2, _, _, _, _, hcheck⟩ :=
    out_of_range_label_recorded sampleFreshAnalyzer [] ⟨[], [], [], [], [0, 0]⟩
      sampleZeroLabelStatement 0 [] rfl rfl (Or.inl (by decide)) rfl (by decide)
  exact ⟨a1, a2, h1, he1, h2, hcheck⟩

/-! ## Invariants of the classification and of the scope lookup -/

/-- C39: for every statement the classification set never holds both
`Do` and `CompatibleDo`, never holds both `Branch` and `CompatibleBranch`, and
holds `Format` only when it holds no other flag. -/
theorem classification_flags_exclusive (statement : Statement) :
    ¬ ((constructBranchTargetFlags statement).test .Do = true ∧
      (constructBranchTargetFlags statement).test .CompatibleDo = true) ∧
    ¬ ((constructBranchTargetFlags statement).test .Branch = true ∧
      (constructBranchTargetFlags statement).test .CompatibleBranch = true) ∧
    ((constructBranchTargetFlags statement).test .Format = true →
      (constructBranchTargetFlags statement).test .Do = false ∧
      (constructBranchTargetFlags statement).test .CompatibleDo = false ∧
      (constructBranchTargetFlags statement).test .Branch = false ∧
      (constructBranchTargetFlags statement).test .CompatibleBranch = false) := by
  obtain ⟨source, label, kind⟩ := statement
  cases kind with
  | ActionStmt u =>
    cases u <;>
      simp [constructBranchTargetFlags, IsLegalDoTerm, IsLegalBranchTarget, IsFormat,
        LabeledStmtClassificationSet.set, LabeledStmtClassificationSet.test,
        LabeledStmtClassificationSet.empty]
  | _ =>
    simp [constructBranchTargetFlags, IsLegalDoTerm, IsLegalBranchTarget, IsFormat,
      LabeledStmtClassificationSet.set, LabeledStmtClassificationSet.test,
      LabeledStmtClassificationSet.empty]

theorem InInclusiveScopeReads_spec {scopes : List Nat}
    (hwf : ScopeTableWF scopes = true) (head : Nat) :
    ∀ (tail fuel : Nat), tail < scopes.length → tail < fuel →
      (InInclusiveScopeReads fuel scopes tail head).length ≤ tail ∧
        ∀ i ∈ InInclusiveScopeReads fuel scopes tail head, i < scopes.length := by
  intro tail
  induction tail using Nat.strong_induction_on with
  | _ tail ih =>
    intro fuel hlen hfuel
    obtain ⟨fuel, rfl⟩ : ∃ f, fuel = f + 1 := ⟨fuel - 1, by omega⟩
    unfold InInclusiveScopeReads
    by_cases hth : tail = head
    · subst hth
      simp
    · by_cases h0 : tail = 0
      · subst h0
        simp [hth, HasScope]
      · obtain ⟨p, hget⟩ : ∃ p : Nat, scopes[tail]? = some p :=
          ⟨scopes[tail], List.getElem?_eq_getElem hlen⟩
        have hp : (p : Nat) < tail := ScopeTableWF_lt hwf h0 hget
        obtain ⟨hcount, hbound⟩ := ih p hp fuel (by omega) (by omega)
        have hs : HasScope tail = true := by simp [HasScope, h0]
        simp only [bne_iff_ne, ne_eq, hth, not_false_eq_true, ↓reduceIte, hs,
          Bool.not_true, Bool.false_eq_true, hget, List.length_cons, List.mem_cons]
        refine ⟨by omega, ?_⟩
        rintro i (rfl | hi)
        · exact hlen
        · exact hbound i hi

/-- C40: on a scope table whose entry 0 is 0 and whose every other entry is
smaller than its index, and for a `tail` that is a valid index, the loop of
`InInclusiveScope` returns, whatever `head` is: `tail + 1` evaluations of its
condition are enough, so it takes at most `tail` parent steps, and every index
at which it reads the table is inside the table. -/
theorem InInclusiveScope_terminates (scopes : List ProxyForScope) (tail head : ProxyForScope)
    (hwf : ScopeTableWF scopes = true) (htail : tail < scopes.length) :
    ∃ b, InInclusiveScopeLoop (tail + 1) scopes tail head = some b ∧
      InInclusiveScope scopes tail head = some b ∧
      (InInclusiveScopeReads (scopes.length + 1) scopes tail head).length ≤ tail ∧
      ∀ i ∈ InInclusiveScopeReads (scopes.length + 1) scopes tail head,
        i < scopes.length := by
  obtain ⟨b, hb, hiff⟩ := InInclusiveScopeLoop_spec hwf head tail (tail + 1) htail
    (Nat.lt_succ_self _)
  obtain ⟨b1, hb1, hiff1⟩ := InInclusiveScope_spec hwf htail head
  have hbb : b1 = b := by
    cases b <;> cases b1 <;> simp_all
  subst hbb
  obtain ⟨hcount, hbound⟩ := InInclusiveScopeReads_spec hwf head tail (scopes.length + 1)
    htail (Nat.lt_succ_of_lt htail)
  exact ⟨b1, hb, hb1, hcount, hbound⟩

/-- Witness for C40: scope 3 of the table `[0, 0, 1, 2]` against scope 1. -/
theorem InInclusiveScope_terminates_witness :
    ∃ b, InInclusiveScopeLoop (3 + 1) [0, 0, 1, 2] 3 1 = some b ∧
      InInclusiveScope [0, 0, 1, 2] 3 1 = some b ∧
      (InInclusiveScopeReads ([0, 0, 1, 2].length + 1) [0, 0, 1, 2] 3 1).length ≤ 3 ∧
      ∀ i ∈ InInclusiveScopeReads ([0, 0, 1, 2].length + 1) [0, 0, 1, 2] 3 1,
        i < [0, 0, 1, 2].length :=
  InInclusiveScope_terminates [0, 0, 1, 2] 3 1 (by decide) (by decide)

/-! ## The walk of a program unit -/

theorem UnitTablesValid_iff (u : UnitAnalysis) :
    UnitTablesValid u = true ↔ ScopeTableWF u.scopeModel = true ∧
      (∀ s ∈ u.doStmtSources, s.proxyForScope < u.scopeModel.length) ∧
      (∀ s ∈ u.otherStmtSources, s.proxyForScope < u.scopeModel.length) ∧
      ∀ s ∈ u.formatStmtSources, s.proxyForScope < u.scopeModel.length := by
  simp [UnitTablesValid]

theorem UnitScopesNonzero_iff (u : UnitAnalysis) :
    UnitScopesNonzero u = true ↔ (∀ d ∈ u.targetStmts, d.2.proxyForScope ≠ 0) ∧
      (∀ s ∈ u.doStmtSources, s.proxyForScope ≠ 0) ∧
      (∀ s ∈ u.otherStmtSources, s.proxyForScope ≠ 0) ∧
      ∀ s ∈ u.formatStmtSources, s.proxyForScope ≠ 0 := by
  simp [UnitScopesNonzero, HasScope]

theorem parentOf_append {scopes : List Nat} (extra : List Nat) {scope : Nat}
    (h : scope < scopes.length) : parentOf (scopes ++ extra) scope = parentOf scopes scope := by
  simp [parentOf, List.getD, List.getElem?_append_left h]

theorem parentOf_iterate_append {scopes : List Nat} (hwf : ScopeTableWF scopes = true)
    (extra : List Nat) :
    ∀ (k scope : Nat), scope < scopes.length →
      (parentOf (scopes ++ extra))^[k] scope = (parentOf scopes)^[k] scope := by
  intro k
  induction k with
  | zero => intro scope _; rfl
  | succ k ih =>
    intro scope h
    rw [Function.iterate_succ_apply, Function.iterate_succ_apply, parentOf_append extra h]
    exact ih _ (parentOf_lt_length hwf h)

theorem parentOf_new (scopes : List Nat) (parent : Nat) :
    parentOf (scopes ++ [parent]) scopes.length = parent := by
  simp [parentOf, List.getD]

theorem getElem?_parentOf {scopes : List Nat} {scope : Nat} (h : scope < scopes.length) :
    scopes[scope]? = some (parentOf scopes scope) := by
  simp [parentOf, List.getD, List.getElem?_eq_getElem h]

theorem scopeDepth_cons (c : Construct) (stack : List Construct) :
    scopeDepth (c :: stack) = if opensScope c then scopeDepth stack + 1 else scopeDepth stack := by
  unfold scopeDepth
  by_cases h : opensScope c = true <;> simp [List.filter_cons, h]

theorem stackNames_cons (c : Construct) (stack : List Construct) :
    stackNames (c :: stack) = stackNames stack ++ c.name.toList := by
  unfold stackNames
  rw [List.reverse_cons, List.filterMap_append]
  cases h : c.name <;> simp [List.filterMap_cons, h]

theorem opensScope_iff (c : Construct) :
    opensScope c = true ↔ c.kind ≠ .Where ∧ c.kind ≠ .Forall := by
  unfold opensScope
  cases c.kind <;> simp

theorem opensScope_of_hasSiblingBlocks {c : Construct} (h : hasSiblingBlocks c.kind = true) :
    opensScope c = true := by
  unfold opensScope
  cases hk : c.kind <;> simp [hk, hasSiblingBlocks] at h ⊢

theorem dropLast_concat_unit (init : List UnitAnalysis) (u : UnitAnalysis) :
    (init ++ [u]).dropLast = init := List.dropLast_concat

/-- A new scope under `parent` keeps the state of the walk; `cur` is the
current scope before, `d` the depth after. -/
theorem WalkState_grow {init : List UnitAnalysis} {base : List String} {H : Nat}
    {unit0 : UnitAnalysis} {u : UnitAnalysis} {parent d : Nat} {names : List String}
    (hvalid : UnitTablesValid u = true) (hstarts : unit0.scopeModel <+: u.scopeModel)
    (hparent : parent < u.scopeModel.length)
    (hhost : (parentOf u.scopeModel)^[d] parent = H)
    (hnonzero : H ≠ 0 → UnitScopesNonzero unit0 = true → UnitScopesNonzero u = true)
    (stack1 : List Construct) (hdepth : scopeDepth stack1 = d + 1)
    (hnames : names = base ++ stackNames stack1) (a1 : ParseTreeAnalyzer)
    (hunits : a1.programUnits_ =
      init ++ [{ u with scopeModel := u.scopeModel ++ [parent] }])
    (hcur : a1.currentScope_ = u.scopeModel.length) (hn : a1.constructNames_ = names) :
    WalkState init base H unit0 stack1 a1 := by
  obtain ⟨hwf, hdo, hother, hformat⟩ := (UnitTablesValid_iff u).1 hvalid
  refine ⟨_, hunits, ?_, ?_, ?_, ?_, ?_, ?_⟩
  · rw [UnitTablesValid_iff]
    simp only [List.length_append, List.length_singleton]
    exact ⟨ScopeTableWF_append hwf hparent 1, fun s hs => Nat.lt_succ_of_lt (hdo s hs),
      fun s hs => Nat.lt_succ_of_lt (hother s hs),
      fun s hs => Nat.lt_succ_of_lt (hformat s hs)⟩
  · exact hstarts.trans (List.prefix_append _ _)
  · rw [hcur]; simp
  · rw [hdepth, hcur, Function.iterate_succ_apply, parentOf_new,
      parentOf_iterate_append hwf _ _ _ hparent]
    exact hhost
  · rw [hn, hnames]
  · intro hH h0
    have := (UnitScopesNonzero_iff u).1 (hnonzero hH h0)
    rw [UnitScopesNonzero_iff]
    exact this

theorem currentScope_ne_zero {scopes : List Nat} (hwf : ScopeTableWF scopes = true)
    {d scope H : Nat} (hhost : (parentOf scopes)^[d] scope = H) (hH : H ≠ 0) : scope ≠ 0 := by
  intro h
  subst h
  rw [parentOf_iterate_zero hwf] at hhost
  exact hH hhost.symm

/-- An event that records definitions or references in the current scope, and
leaves the scope table, the current scope and the names as they are, keeps the
state of the walk. -/
theorem WalkState_record {init : List UnitAnalysis} {base : List String} {H : Nat}
    {unit0 : UnitAnalysis} {stack : List Construct} {a a1 : ParseTreeAnalyzer}
    {u u1 : UnitAnalysis} (hunits : a.programUnits_ = init ++ [u])
    (hinv : WalkState init base H unit0 stack a)
    (hunits1 : a1.programUnits_ = init ++ [u1])
    (hcur : a1.currentScope_ = a.currentScope_)
    (hnames : a1.constructNames_ = a.constructNames_)
    (htable : u1.scopeModel = u.scopeModel)
    (hdefs : ∀ d ∈ u1.targetStmts, d ∈ u.targetStmts ∨ d.2.proxyForScope = a.currentScope_)
    (hdo : ∀ s ∈ u1.doStmtSources,
      s ∈ u.doStmtSources ∨ s.proxyForScope = a.currentScope_)
    (hother : ∀ s ∈ u1.otherStmtSources,
      s ∈ u.otherStmtSources ∨ s.proxyForScope = a.currentScope_)
    (hformat : ∀ s ∈ u1.formatStmtSources,
      s ∈ u.formatStmtSources ∨ s.proxyForScope = a.currentScope_) :
    WalkState init base H unit0 stack a1 := by
  obtain ⟨u0, hu0, hvalid, hstarts, hlt, hhost, hn, hnonzero⟩ := hinv
  have hsame : u0 = u := by
    rw [hunits] at hu0
    have := List.append_cancel_left hu0
    simpa using this.symm
  subst hsame
  obtain ⟨hwf, hvdo, hvother, hvformat⟩ := (UnitTablesValid_iff u0).1 hvalid
  refine ⟨u1, hunits1, ?_, ?_, ?_, ?_, ?_, ?_⟩
  · rw [UnitTablesValid_iff, htable]
    refine ⟨hwf, ?_, ?_, ?_⟩
    · intro s hs
      rcases hdo s hs with h | h
      · exact hvdo s h
      · rw [h]; exact hlt
    · intro s hs
      rcases hother s hs with h | h
      · exact hvother s h
      · rw [h]; exact hlt
    · intro s hs
      rcases hformat s hs with h | h
      · exact hvformat s h
      · rw [h]; exact hlt
  · rw [htable]; exact hstarts
  · rw [htable, hcur]; exact hlt
  · rw [htable, hcur]; exact hhost
  · rw [hnames]; exact hn
  · intro hH h0
    obtain ⟨hzd, hzdo, hzother, hzformat⟩ := (UnitScopesNonzero_iff u0).1 (hnonzero hH h0)
    have hne : a.currentScope_ ≠ 0 := currentScope_ne_zero hwf hhost hH
    rw [UnitScopesNonzero_iff]
    refine ⟨?_, ?_, ?_, ?_⟩
    · intro d hd
      rcases hdefs d hd with h | h
      · exact hzd d h
      · rw [h]; exact hne
    · intro s hs
      rcases hdo s hs with h | h
      · exact hzdo s h
      · rw [h]; exact hne
    · intro s hs
      rcases hother s hs with h | h
      · exact hzother s h
      · rw [h]; exact hne
    · intro s hs
      rcases hformat s hs with h | h
      · exact hzformat s h
      · rw [h]; exact hne

theorem mem_emplace {labels : TargetStmtMap} {label : Label}
    {info : LabeledStatementInfoTuplePOD} {d : Label × LabeledStatementInfoTuplePOD}
    (h : d ∈ (labels.emplace label info).1) : d ∈ labels ∨ d = (label, info) := by
  unfold TargetStmtMap.emplace at h
  cases hl : labels.lookup label with
  | none =>
    rw [hl] at h
    simpa using h
  | some found =>
    rw [hl] at h
    exact Or.inl h

theorem CheckLabelContext_frame (a : ParseTreeAnalyzer) (stmtString constructName : String) :
    (CheckLabelContext a stmtString constructName).programUnits_ = a.programUnits_ ∧
    (CheckLabelContext a stmtString constructName).currentScope_ = a.currentScope_ ∧
    (CheckLabelContext a stmtString constructName).constructNames_ = a.constructNames_ ∧
    (CheckLabelContext a stmtString constructName).currentPosition_ = a.currentPosition_ := by
  unfold CheckLabelContext
  split <;> exact ⟨rfl, rfl, rfl, rfl⟩

/-- The events that record or check, and do not touch the scope table. -/
theorem visit_record {init : List UnitAnalysis} {a : ParseTreeAnalyzer} {u : UnitAnalysis}
    (hunits : a.programUnits_ = init ++ [u]) (event : WalkEvent)
    (hevent : (∀ c, event ≠ .enterConstruct c) ∧ (∀ c, event ≠ .leaveConstruct c) ∧
      event ≠ .siblingBlock) :
    ∃ a1 u1, visit a event = some a1 ∧ a1.programUnits_ = init ++ [u1] ∧
      a1.currentScope_ = a.currentScope_ ∧ a1.constructNames_ = a.constructNames_ ∧
      u1.scopeModel = u.scopeModel ∧
      (∀ d ∈ u1.targetStmts, d ∈ u.targetStmts ∨ d.2.proxyForScope = a.currentScope_) ∧
      (∀ s ∈ u1.doStmtSources, s ∈ u.doStmtSources ∨ s.proxyForScope = a.currentScope_) ∧
      (∀ s ∈ u1.otherStmtSources,
        s ∈ u.otherStmtSources ∨ s.proxyForScope = a.currentScope_) ∧
      (∀ s ∈ u1.formatStmtSources,
        s ∈ u.formatStmtSources ∨ s.proxyForScope = a.currentScope_) := by
  have hlast : a.programUnits_.getLast? = some u := by
    rw [hunits]; exact List.getLast?_concat _
  have hkeep : ∀ a1 : ParseTreeAnalyzer, a1.programUnits_ = a.programUnits_ →
      a1.currentScope_ = a.currentScope_ → a1.constructNames_ = a.constructNames_ →
      ∃ a2 u1, some a1 = some a2 ∧ a2.programUnits_ = init ++ [u1] ∧
        a2.currentScope_ = a.currentScope_ ∧ a2.constructNames_ = a.constructNames_ ∧
        u1.scopeModel = u.scopeModel ∧
        (∀ d ∈ u1.targetStmts, d ∈ u.targetStmts ∨ d.2.proxyForScope = a.currentScope_) ∧
        (∀ s ∈ u1.doStmtSources, s ∈ u.doStmtSources ∨ s.proxyForScope = a.currentScope_) ∧
        (∀ s ∈ u1.otherStmtSources,
          s ∈ u.otherStmtSources ∨ s.proxyForScope = a.currentScope_) ∧
        (∀ s ∈ u1.formatStmtSources,
          s ∈ u.formatStmtSources ∨ s.proxyForScope = a.currentScope_) :=
    fun a1 h1 h2 h3 => ⟨a1, u, rfl, h1.trans hunits, h2, h3, rfl, fun _ h => Or.inl h,
      fun _ h => Or.inl h, fun _ h => Or.inl h, fun _ h => Or.inl h⟩
  cases event with
  | enterConstruct c => exact absurd rfl (hevent.1 c)
  | leaveConstruct c => exact absurd rfl (hevent.2.1 c)
  | siblingBlock => exact absurd rfl hevent.2.2
  | statement s =>
    cases hlabel : s.label with
    | none =>
      have : visit a (.statement s) = some { a with currentPosition_ := s.source } := by
        simp [visit, PreStatement, hlabel]
      rw [this]
      exact hkeep _ rfl rfl rfl
    | some label =>
      obtain ⟨a1, h1, hu1, hs1, _, hn1, _⟩ := PreStatement_labelled_spec a s label hunits hlabel
      refine ⟨a1, _, h1, hu1, hs1, hn1, rfl, ?_, fun _ h => Or.inl h, fun _ h => Or.inl h,
        fun _ h => Or.inl h⟩
      intro d hd
      rcases mem_emplace hd with h | h
      · exact Or.inl h
      · right; rw [h]
  | labelDo label =>
    refine ⟨_, { u with doStmtSources := u.doStmtSources ++
        [⟨label, a.currentScope_, a.currentPosition_⟩] },
      addLabelReferenceFromDoStmt_of_getLast label hlast, ?_, ?_, ?_, rfl,
      fun _ h => Or.inl h, ?_, fun _ h => Or.inl h, fun _ h => Or.inl h⟩
    · simp [hunits]
    · simp
    · simp
    · intro s hs
      simp only [List.mem_append, List.mem_singleton] at hs
      rcases hs with h | h
      · exact Or.inl h
      · right; rw [h]
  | format labelPointer =>
    cases labelPointer with
    | none => exact hkeep _ rfl rfl rfl
    | some label =>
      refine ⟨_, { u with formatStmtSources := u.formatStmtSources ++
          [⟨label, a.currentScope_, a.currentPosition_⟩] },
        addLabelReferenceToFormatStmt_of_getLast label hlast, ?_, ?_, ?_, rfl,
        fun _ h => Or.inl h, fun _ h => Or.inl h, fun _ h => Or.inl h, ?_⟩
      · simp [hunits]
      · simp
      · simp
      · intro s hs
        simp only [List.mem_append, List.mem_singleton] at hs
        rcases hs with h | h
        · exact Or.inl h
        · right; rw [h]
  | branch labels =>
    obtain ⟨a1, h1, hu1, hs1, _, hn1⟩ := addLabelReferences_spec init labels a u hunits
    refine ⟨a1, _, h1, hu1, hs1, hn1, rfl, fun _ h => Or.inl h, fun _ h => Or.inl h, ?_,
      fun _ h => Or.inl h⟩
    intro s hs
    simp only [List.mem_append, List.mem_map] at hs
    rcases hs with h | ⟨label, _, h⟩
    · exact Or.inl h
    · right; rw [← h]
  | cycle name =>
    cases name with
    | none => exact hkeep _ rfl rfl rfl
    | some n =>
      have hf := CheckLabelContext_frame a "CYCLE" n
      exact hkeep _ hf.1 hf.2.1 hf.2.2.1
  | exit name =>
    cases name with
    | none => exact hkeep _ rfl rfl rfl
    | some n =>
      have hf := CheckLabelContext_frame a "EXIT" n
      exact hkeep _ hf.1 hf.2.1 hf.2.2.1

theorem pushConstructNameWithoutBlock_spec (a : ParseTreeAnalyzer) (c : Construct) :
    ∃ a1, pushConstructNameWithoutBlock a c = some a1 ∧
      a1.programUnits_ = a.programUnits_ ∧ a1.currentScope_ = a.currentScope_ ∧
      a1.currentPosition_ = a.currentPosition_ ∧ a1.errorHandler_ = a.errorHandler_ ∧
      a1.constructNames_ = a.constructNames_ ++ c.name.toList := by
  unfold pushConstructNameWithoutBlock
  cases hname : c.name with
  | none => exact ⟨a, rfl, rfl, rfl, rfl, rfl, by simp⟩
  | some name => exact ⟨_, rfl, rfl, rfl, rfl, rfl, by simp⟩

theorem names_after_pop (base rest : List String) (name : Option String) :
    (if name.isSome then (base ++ rest ++ name.toList).dropLast
      else base ++ rest ++ name.toList) = base ++ rest := by
  cases name with
  | none => simp
  | some n => simp [List.dropLast_concat]

theorem names_before_pop (base rest : List String) (name : Option String) :
    name ≠ none → base ++ rest ++ name.toList ≠ [] := by
  cases name with
  | none => intro h; exact absurd rfl h
  | some n => intro _; simp

/-- One event of a well-nested walk keeps the state of the walk. -/
theorem visit_step {init : List UnitAnalysis} {base : List String} {H : Nat}
    {unit0 : UnitAnalysis} {stack stack1 : List Construct} {a : ParseTreeAnalyzer}
    (event : WalkEvent) (hinv : WalkState init base H unit0 stack a)
    (hstep : wellNestedStep stack event = some stack1) :
    ∃ a1, visit a event = some a1 ∧ WalkState init base H unit0 stack1 a1 := by
  have hinv0 := hinv
  obtain ⟨u, hu, hvalid, hstarts, hlt, hhost, hn, hnz⟩ := hinv
  have hlast : a.programUnits_.getLast? = some u := by
    rw [hu]; exact List.getLast?_concat _
  have hdrop : a.programUnits_.dropLast = init := by
    rw [hu]; exact List.dropLast_concat
  obtain ⟨hwf, _, _, _⟩ := (UnitTablesValid_iff u).1 hvalid
  have hget : u.scopeModel[a.currentScope_]? = some (parentOf u.scopeModel a.currentScope_) :=
    getElem?_parentOf hlt
  have hrecord : (∀ c, event ≠ .enterConstruct c) ∧ (∀ c, event ≠ .leaveConstruct c) ∧
      event ≠ .siblingBlock → stack1 = stack →
      ∃ a1, visit a event = some a1 ∧ WalkState init base H unit0 stack1 a1 := by
    intro hevent hstack
    obtain ⟨a1, u1, h1, hu1, hs1, hn1, ht1, hd, hdo, hother, hformat⟩ :=
      visit_record hu event hevent
    rw [hstack]
    exact ⟨a1, h1, WalkState_record hu hinv0 hu1 hs1 hn1 ht1 hd hdo hother hformat⟩
  cases event with
  | enterConstruct c =>
    simp only [wellNestedStep, Option.some.injEq] at hstep
    subst hstep
    by_cases hopen : opensScope c = true
    · obtain ⟨hw, hf⟩ := (opensScope_iff c).1 hopen
      obtain ⟨a1, h1, hu1, hs1, _, _, hn1⟩ := pushConstructName_spec a c hlast
      rw [hdrop] at hu1
      refine ⟨a1, by simp only [visit]; rw [PreConstruct_block hw hf]; exact h1, ?_⟩
      refine WalkState_grow hvalid hstarts hlt hhost hnz (c :: stack)
        (by rw [scopeDepth_cons, if_pos hopen]) ?_ a1 hu1 hs1 hn1
      rw [hn, stackNames_cons, List.append_assoc]
    · have hkind : c.kind = .Where ∨ c.kind = .Forall := by
        by_contra hk
        push_neg at hk
        exact hopen ((opensScope_iff c).2 hk)
      obtain ⟨a1, h1, hu1, hs1, _, _, hn1⟩ := pushConstructNameWithoutBlock_spec a c
      refine ⟨a1, by simp only [visit]; rw [PreConstruct_without_block hkind]; exact h1, ?_⟩
      refine ⟨u, hu1.trans hu, hvalid, hstarts, by rw [hs1]; exact hlt, ?_, ?_, hnz⟩
      · rw [scopeDepth_cons, if_neg hopen, hs1]; exact hhost
      · rw [hn1, hn, stackNames_cons, List.append_assoc]
  | leaveConstruct c =>
    cases stack with
    | nil => simp [wellNestedStep] at hstep
    | cons top below =>
      simp only [wellNestedStep] at hstep
      split at hstep
      · rename_i hc
        subst hc
        simp only [Option.some.injEq] at hstep
        subst hstep
        rw [stackNames_cons, ← List.append_assoc] at hn
        have hnames : c.name ≠ none → a.constructNames_ ≠ [] := by
          rw [hn]; exact names_before_pop base (stackNames below) c.name
        by_cases hopen : opensScope c = true
        · obtain ⟨hw, hf⟩ := (opensScope_iff c).1 hopen
          obtain ⟨a1, h1, hu1, hs1, _, _, hn1⟩ := popConstructName_spec a c hlast hget hnames
          refine ⟨a1, by simp only [visit]; rw [PostConstruct_block hw hf]; exact h1, ?_⟩
          rw [scopeDepth_cons, if_pos hopen, Function.iterate_succ_apply] at hhost
          refine ⟨u, hu1.trans hu, hvalid, hstarts, ?_, ?_, ?_, hnz⟩
          · rw [hs1]; exact parentOf_lt_length hwf hlt
          · rw [hs1]; exact hhost
          · rw [hn1, hn]; exact names_after_pop base (stackNames below) c.name
        · have hkind : c.kind = .Where ∨ c.kind = .Forall := by
            by_contra hk
            push_neg at hk
            exact hopen ((opensScope_iff c).2 hk)
          have hcheck : CheckName a c = a.saying _ := CheckName_eq a c
          obtain ⟨a1, h1, hu1, hs1, _, _, hn1⟩ := popConstructNameIfPresent_spec
            (CheckName a c) c (by rw [hcheck]; exact hnames)
          rw [hcheck] at hu1 hs1 hn1
          simp only [ParseTreeAnalyzer.saying] at hu1 hs1 hn1
          rw [scopeDepth_cons, if_neg hopen] at hhost
          refine ⟨a1, ?_, ?_⟩
          · simp only [visit]
            rw [PostConstruct_without_block hkind]
            exact h1
          · refine ⟨u, hu1.trans hu, hvalid, hstarts, ?_, ?_, ?_, hnz⟩
            · rw [hs1]; exact hlt
            · rw [hs1]; exact hhost
            · rw [hn1, hn]
              exact names_after_pop base (stackNames below) c.name
      · cases hstep
  | siblingBlock =>
    cases stack with
    | nil => simp [wellNestedStep] at hstep
    | cons top below =>
      simp only [wellNestedStep] at hstep
      split at hstep
      · rename_i hsib
        simp only [Option.some.injEq] at hstep
        subst hstep
        have hopen := opensScope_of_hasSiblingBlocks hsib
        obtain ⟨a1, h1, hu1, hs1, _, _, hn1⟩ := switchToNewScope_spec a hlast hget
        rw [hdrop] at hu1
        rw [scopeDepth_cons, if_pos hopen, Function.iterate_succ_apply] at hhost
        refine ⟨a1, h1, ?_⟩
        exact WalkState_grow hvalid hstarts (parentOf_lt_length hwf hlt) hhost hnz
          (top :: below) (by rw [scopeDepth_cons, if_pos hopen]) hn a1 hu1 hs1 hn1
      · cases hstep
  | statement s =>
    exact hrecord ⟨fun c => by simp, fun c => by simp, by simp⟩
      (by simpa [wellNestedStep] using hstep.symm)
  | labelDo label =>
    exact hrecord ⟨fun c => by simp, fun c => by simp, by simp⟩
      (by simpa [wellNestedStep] using hstep.symm)
  | format labelPointer =>
    exact hrecord ⟨fun c => by simp, fun c => by simp, by simp⟩
      (by simpa [wellNestedStep] using hstep.symm)
  | branch labels =>
    exact hrecord ⟨fun c => by simp, fun c => by simp, by simp⟩
      (by simpa [wellNestedStep] using hstep.symm)
  | cycle name =>
    exact hrecord ⟨fun c => by simp, fun c => by simp, by simp⟩
      (by simpa [wellNestedStep] using hstep.symm)
  | exit name =>
    exact hrecord ⟨fun c => by simp, fun c => by simp, by simp⟩
      (by simpa [wellNestedStep] using hstep.symm)

/-- A well-nested walk returns, and ends in the host scope with the names it
started with. -/
theorem visitAll_wellNested {init : List UnitAnalysis} {base : List String} {H : Nat}
    {unit0 : UnitAnalysis} :
    ∀ (events : List WalkEvent) (stack : List Construct) (a : ParseTreeAnalyzer),
      WalkState init base H unit0 stack a → wellNested stack events = true →
      ∃ a1, visitAll events a = some a1 ∧ WalkState init base H unit0 [] a1 := by
  intro events
  induction events with
  | nil =>
    intro stack a hinv hnested
    cases stack with
    | nil => exact ⟨a, rfl, hinv⟩
    | cons top below => simp [wellNested] at hnested
  | cons event rest ih =>
    intro stack a hinv hnested
    simp only [wellNested] at hnested
    cases hstep : wellNestedStep stack event with
    | none => simp [hstep] at hnested
    | some stack1 =>
      simp only [hstep] at hnested
      obtain ⟨a1, h1, hinv1⟩ := visit_step event hinv hstep
      obtain ⟨a2, h2, hinv2⟩ := ih stack1 a1 hinv1 hnested
      exact ⟨a2, by simp only [visitAll, h1]; exact h2, hinv2⟩

/-! ## The scope table of a program unit -/

theorem ScopeOp_apply_spec {init : List UnitAnalysis} {a : ParseTreeAnalyzer} {u : UnitAnalysis}
    (hunits : a.programUnits_ = init ++ [u]) (hwf : ScopeTableWF u.scopeModel = true)
    (hlt : a.currentScope_ < u.scopeModel.length) (op : ScopeOp) :
    ∃ a1 extra, op.apply a = some a1 ∧
      a1.programUnits_ = init ++ [{ u with scopeModel := u.scopeModel ++ extra }] ∧
      ScopeTableWF (u.scopeModel ++ extra) = true ∧
      a1.currentScope_ < (u.scopeModel ++ extra).length := by
  have hlast : a.programUnits_.getLast? = some u := by
    rw [hunits]; exact List.getLast?_concat _
  have hdrop : a.programUnits_.dropLast = init := by
    rw [hunits]; exact List.dropLast_concat
  have hget : u.scopeModel[a.currentScope_]? = some (parentOf u.scopeModel a.currentScope_) :=
    getElem?_parentOf hlt
  cases op with
  | pushSubscope =>
    refine ⟨_, [a.currentScope_], pushSubscope_of_getLast hlast, ?_,
      ScopeTableWF_append hwf hlt 1, ?_⟩
    · simp [hdrop]
    · simp
  | PopScope =>
    refine ⟨_, [], PopScope_of_getLast hlast hget, ?_, ?_, ?_⟩
    · simp [hunits]
    · simpa using hwf
    · simpa using parentOf_lt_length hwf hlt
  | switchToNewScope =>
    obtain ⟨a1, h1, hu1, hs1, _⟩ := switchToNewScope_spec a hlast hget
    refine ⟨a1, [parentOf u.scopeModel a.currentScope_], h1, ?_,
      ScopeTableWF_append hwf (parentOf_lt_length hwf hlt) 1, ?_⟩
    · rw [hu1, hdrop]
    · rw [hs1]; simp

theorem runScopeOps_spec {init : List UnitAnalysis} :
    ∀ (ops : List ScopeOp) (a : ParseTreeAnalyzer) (u : UnitAnalysis),
      a.programUnits_ = init ++ [u] → ScopeTableWF u.scopeModel = true →
      a.currentScope_ < u.scopeModel.length →
      ∃ a1 extra, runScopeOps ops a = some a1 ∧
        a1.programUnits_ = init ++ [{ u with scopeModel := u.scopeModel ++ extra }] ∧
        ScopeTableWF (u.scopeModel ++ extra) = true ∧
        a1.currentScope_ < (u.scopeModel ++ extra).length := by
  intro ops
  induction ops with
  | nil =>
    intro a u hunits hwf hlt
    exact ⟨a, [], rfl, by simpa using hunits, by simpa using hwf, by simpa using hlt⟩
  | cons op rest ih =>
    intro a u hunits hwf hlt
    obtain ⟨a1, extra1, h1, hu1, hwf1, hlt1⟩ := ScopeOp_apply_spec hunits hwf hlt op
    obtain ⟨a2, extra2, h2, hu2, hwf2, hlt2⟩ := ih a1 _ hu1 hwf1 hlt1
    refine ⟨a2, extra1 ++ extra2, ?_, ?_, ?_, ?_⟩
    · simp only [runScopeOps, h1]; exact h2
    · rw [hu2]; simp
    · simpa using hwf2
    · simpa using hlt2

theorem runScopeOps_append :
    ∀ (ops1 ops2 : List ScopeOp) (a : ParseTreeAnalyzer),
      runScopeOps (ops1 ++ ops2) a = (runScopeOps ops1 a).bind (runScopeOps ops2) := by
  intro ops1
  induction ops1 with
  | nil => intro ops2 a; rfl
  | cons op rest ih =>
    intro ops2 a
    simp only [List.cons_append, runScopeOps]
    cases op.apply a with
    | none => rfl
    | some a1 => exact ih ops2 a1

/-- The state of the walk just after `Pre(ProgramUnit)`, when the current scope
was the sentinel. -/
theorem WalkState_enter_unit (a a1 : ParseTreeAnalyzer)
    (hu1 : a1.programUnits_ = a.programUnits_ ++ [⟨[], [], [], [], [0, 0]⟩])
    (hs1 : a1.currentScope_ = 1) (hn1 : a1.constructNames_ = a.constructNames_) :
    WalkState a.programUnits_ a.constructNames_ 1 ⟨[], [], [], [], [0, 0]⟩ [] a1 :=
  ⟨_, hu1, by decide, List.prefix_refl _, by rw [hs1]; decide, by rw [hs1]; rfl,
    by rw [hn1]; simp [stackNames], fun _ h => h⟩

theorem mem_of_lookup {labels : TargetStmtMap} {label : Label}
    {info : LabeledStatementInfoTuplePOD} (h : labels.lookup label = some info) :
    (label, info) ∈ labels := by
  induction labels with
  | nil => simp at h
  | cons p rest ih =>
    obtain ⟨k, v⟩ := p
    by_cases hk : label = k
    · subst hk
      simp only [List.lookup, beq_self_eq_true, Option.some.injEq] at h
      subst h
      exact List.mem_cons_self _ _
    · have hne : (label == k) = false := by simpa using hk
      simp only [List.lookup, hne] at h
      exact List.mem_cons_of_mem _ (ih h)

/-- The walk of a program unit entered with the sentinel as current scope. -/
theorem walkUnit_spec (a : ParseTreeAnalyzer) (events : List WalkEvent)
    (hscope : a.currentScope_ = 0) (hnested : wellNested [] events = true) :
    ∃ a1 a2 a3 u, PushNewScope a = some a1 ∧
      a1.programUnits_ = a.programUnits_ ++ [⟨[], [], [], [], [0, 0]⟩] ∧
      a1.currentScope_ = 1 ∧
      visitAll events a1 = some a2 ∧ a2.programUnits_ = a.programUnits_ ++ [u] ∧
      a2.currentScope_ = 1 ∧ a2.constructNames_ = a.constructNames_ ∧
      UnitTablesValid u = true ∧ [0, 0] <+: u.scopeModel ∧ UnitScopesNonzero u = true ∧
      PopScope a2 = some a3 ∧ a3 = { a2 with currentScope_ := 0 } ∧
      walkUnit events a = some a3 := by
  obtain ⟨a1, h1, hu1, hs1, _, _, hn1⟩ := PushNewScope_spec a
  rw [hscope] at hu1
  obtain ⟨a2, h2, u, hu2, hvalid, hstarts, hlt, hhost, hn2, hnz⟩ :=
    visitAll_wellNested events [] a1 (WalkState_enter_unit a a1 hu1 hs1 hn1) hnested
  have hcur : a2.currentScope_ = 1 := hhost
  have hlast : a2.programUnits_.getLast? = some u := by
    rw [hu2]; exact List.getLast?_concat _
  have hget : u.scopeModel[a2.currentScope_]? = some 0 := by
    obtain ⟨rest, hrest⟩ := hstarts
    rw [hcur, ← hrest]
    simp
  have h3 := PopScope_of_getLast hlast hget
  refine ⟨a1, a2, _, u, h1, hu1, hs1, h2, hu2, hcur, ?_, hvalid, hstarts,
    hnz (by decide) (by decide), h3, rfl, ?_⟩
  · rw [hn2]; simp [stackNames]
  · simp only [walkUnit, h1, h2]
    exact h3

/-- C34: entering a program unit with the sentinel as current scope gives the
table `[0, 0]` and the current scope 1. From there every sequence of
`pushSubscope`, `PopScope` and `switchToNewScope` returns and keeps entry 0
equal to 0, every other entry smaller than its index and the current scope
inside the table, and a longer sequence only appends to the table of a shorter
one. After a well-nested sequence of events the current scope is 1 again, and
leaving the unit makes it 0. -/
theorem scope_table_invariant (a : ParseTreeAnalyzer) (ops1 ops2 : List ScopeOp)
    (events : List WalkEvent) (hscope : a.currentScope_ = 0)
    (hnested : wellNested [] events = true) :
    ∃ a1, PushNewScope a = some a1 ∧
      a1.programUnits_ = a.programUnits_ ++ [⟨[], [], [], [], [0, 0]⟩] ∧
      a1.currentScope_ = 1 ∧
      (∃ a2 a3 table extra, runScopeOps ops1 a1 = some a2 ∧
        runScopeOps (ops1 ++ ops2) a1 = some a3 ∧
        a2.programUnits_ = a.programUnits_ ++ [⟨[], [], [], [], table⟩] ∧
        a3.programUnits_ = a.programUnits_ ++ [⟨[], [], [], [], table ++ extra⟩] ∧
        [0, 0] <+: table ∧
        (table ++ extra)[0]? = some 0 ∧
        (∀ i p : Nat, i ≠ 0 → (table ++ extra)[i]? = some p → p < i) ∧
        a3.currentScope_ < (table ++ extra).length) ∧
      ∃ a4 a5, visitAll events a1 = some a4 ∧ a4.currentScope_ = 1 ∧
        PopScope a4 = some a5 ∧ a5.currentScope_ = 0 ∧ walkUnit events a = some a5 := by
  obtain ⟨a1, a4, a5, u, h1, hu1, hs1, h4, _, hs4, _, _, _, _, h5, ha5, hwalk⟩ :=
    walkUnit_spec a events hscope hnested
  refine ⟨a1, h1, hu1, hs1, ?_, a4, a5, h4, hs4, h5, by rw [ha5], hwalk⟩
  obtain ⟨a2, extra1, h2, hu2, hwf2, hlt2⟩ := runScopeOps_spec ops1 a1 _ hu1 (by decide)
    (by rw [hs1]; decide)
  obtain ⟨a3, extra2, h3, hu3, hwf3, hlt3⟩ := runScopeOps_spec ops2 a2 _ hu2 hwf2 hlt2
  refine ⟨a2, a3, [0, 0] ++ extra1, extra2, h2, ?_, hu2, hu3, List.prefix_append _ _,
    ScopeTableWF_zero hwf3, fun i p hi hp => ScopeTableWF_lt hwf3 hi hp, hlt3⟩
  rw [runScopeOps_append, h2]
  exact h3

/-- Witness for C34: two scope operations, then two more, and the walk of the
unit `X: DO`, `X: IF`, `END IF X`, `CYCLE X`, `END DO X`. -/
theorem scope_table_invariant_witness :
    ∃ a3 a5, (PushNewScope (ParseTreeAnalyzer.new [])).bind
        (runScopeOps ([.pushSubscope, .switchToNewScope] ++ [.PopScope, .PopScope])) =
        some a3 ∧
      walkUnit sampleShadowedNameEvents (ParseTreeAnalyzer.new []) = some a5 ∧
      a5.currentScope_ = 0 := by
  obtain ⟨a1, h1, _, _, ⟨_, a3, _, _, _, h3, _⟩, _, a5, _, _, _, h5, hwalk⟩ :=
    scope_table_invariant (ParseTreeAnalyzer.new []) [.pushSubscope, .switchToNewScope]
      [.PopScope, .PopScope] sampleShadowedNameEvents rfl (by decide)
  exact ⟨a3, a5, by rw [h1]; exact h3, hwalk, h5⟩

/-- C35: in the walk of a program unit (entered with the sentinel as current
scope, its construct events well nested) every definition and every reference
is recorded with a scope that is not the sentinel. So in the tables of the
unit `GetLabel` returns a record with scope 0 exactly for the labels that have
no definition. -/
theorem recorded_scopes_nonzero (a : ParseTreeAnalyzer) (events : List WalkEvent)
    (hscope : a.currentScope_ = 0) (hnested : wellNested [] events = true) :
    ∃ a1 u, walkUnit events a = some a1 ∧ a1.programUnits_ = a.programUnits_ ++ [u] ∧
      (∀ d ∈ u.targetStmts, d.2.proxyForScope ≠ 0) ∧
      (∀ s ∈ u.doStmtSources, s.proxyForScope ≠ 0) ∧
      (∀ s ∈ u.otherStmtSources, s.proxyForScope ≠ 0) ∧
      (∀ s ∈ u.formatStmtSources, s.proxyForScope ≠ 0) ∧
      (∀ label, (GetLabel u.targetStmts label).proxyForScope = 0 ↔
        u.targetStmts.lookup label = none) ∧
      (∀ label, HasScope (GetLabel u.targetStmts label).proxyForScope = true ↔
        ∃ info, u.targetStmts.lookup label = some info) := by
  obtain ⟨a1, a2, a3, u, _, _, _, _, hu2, _, _, _, _, hnz, _, ha3, hwalk⟩ :=
    walkUnit_spec a events hscope hnested
  obtain ⟨hd, hdo, hother, hformat⟩ := (UnitScopesNonzero_iff u).1 hnz
  have hiff : ∀ label, (GetLabel u.targetStmts label).proxyForScope = 0 ↔
      u.targetStmts.lookup label = none := by
    intro label
    cases hl : u.targetStmts.lookup label with
    | none => simp [GetLabel_of_lookup_none hl]
    | some info =>
      rw [GetLabel_of_lookup hl]
      simpa using hd _ (mem_of_lookup hl)
  refine ⟨a3, u, hwalk, by rw [ha3]; exact hu2, hd, hdo, hother, hformat, hiff, ?_⟩
  intro label
  have := hiff label
  cases hl : u.targetStmts.lookup label with
  | none =>
    rw [hl] at this
    simp [HasScope, this.2 rfl]
  | some info =>
    rw [hl] at this
    have hne : (GetLabel u.targetStmts label).proxyForScope ≠ 0 := fun h => by
      simpa using this.1 h
    simp [HasScope, hne]

/-- Witness for C35: the unit `DO 10`, an IF construct with a `GOTO 10` and an
ELSE block with a `WRITE (*, 10)`, and `10 CONTINUE`. -/
theorem recorded_scopes_nonzero_witness :
    ∃ a1 u, walkUnit sampleUnitEvents (ParseTreeAnalyzer.new []) = some a1 ∧
      a1.programUnits_ = [] ++ [u] ∧
      (∀ d ∈ u.targetStmts, d.2.proxyForScope ≠ 0) ∧
      (∀ s ∈ u.doStmtSources, s.proxyForScope ≠ 0) ∧
      (∀ s ∈ u.otherStmtSources, s.proxyForScope ≠ 0) ∧
      (∀ s ∈ u.formatStmtSources, s.proxyForScope ≠ 0) ∧
      (∀ label, (GetLabel u.targetStmts label).proxyForScope = 0 ↔
        u.targetStmts.lookup label = none) ∧
      (∀ label, HasScope (GetLabel u.targetStmts label).proxyForScope = true ↔
        ∃ info, u.targetStmts.lookup label = some info) :=
  recorded_scopes_nonzero (ParseTreeAnalyzer.new []) sampleUnitEvents rfl (by decide)

/-! ## The stack of construct names -/

theorem CheckLabelContext_errorHandler (a : ParseTreeAnalyzer) (stmtString n : String) :
    (CheckLabelContext a stmtString n).errorHandler_ = a.errorHandler_ ++
      (if n ∈ a.constructNames_ then []
      else [⟨a.currentPosition_, err_en_US "%s construct-name '%s' is not in scope"
        [.stringArg stmtString, .stringArg n], none⟩]) := by
  unfold CheckLabelContext
  rw [find_reverse_isNone]
  by_cases hmem : n ∈ a.constructNames_
  · simp [hmem]
  · simp [hmem, Messages.Say]

/-- C36, as stated, fails: in `X: DO`, `X: IF`, `END IF X`, `CYCLE X`,
`END DO X` the CYCLE names the IF construct `X`, which has been left, and
nothing is said, because the DO construct `X` is still open. -/
theorem construct_names_counterexample :
    wellNested [] sampleShadowedNameEvents = true ∧
      (walkUnit sampleShadowedNameEvents (ParseTreeAnalyzer.new [])).map
        (fun a => a.errorHandler_) = some [] := by
  decide

/-- C36, amended: the stack of construct names is balanced. Entering a
construct pushes its name exactly when the opening statement has one, and
after the events of the construct and its END statement, whatever its name,
the stack is what it was before the construct, and so is the current scope.
Hence a CYCLE or EXIT that follows and names `n` is diagnosed as not in scope
exactly when no construct that is still open bears the name `n`; so it is when
`n` is the name of the construct that has been left, unless an enclosing
construct has the same name. -/
theorem construct_names_balanced (a : ParseTreeAnalyzer) (init : List UnitAnalysis)
    (u : UnitAnalysis) (c : Construct) (body : List WalkEvent) (stmtString n : String)
    (hunits : a.programUnits_ = init ++ [u]) (hvalid : UnitTablesValid u = true)
    (hscope : a.currentScope_ < u.scopeModel.length)
    (hnested : wellNested [] (.enterConstruct c :: body ++ [.leaveConstruct c]) = true) :
    ∃ a1 a2, PreConstruct a c = some a1 ∧
      a1.constructNames_ = a.constructNames_ ++ c.name.toList ∧
      visitAll (body ++ [.leaveConstruct c]) a1 = some a2 ∧
      a2.constructNames_ = a.constructNames_ ∧ a2.currentScope_ = a.currentScope_ ∧
      (CheckLabelContext a2 stmtString n).errorHandler_ = a2.errorHandler_ ++
        (if n ∈ a.constructNames_ then []
        else [⟨a2.currentPosition_, err_en_US "%s construct-name '%s' is not in scope"
          [.stringArg stmtString, .stringArg n], none⟩]) := by
  have hinv : WalkState init a.constructNames_ a.currentScope_ u [] a :=
    ⟨u, hunits, hvalid, List.prefix_refl _, hscope, rfl, by simp [stackNames],
      fun _ h => h⟩
  simp only [List.cons_append, wellNested, wellNestedStep] at hnested
  obtain ⟨a1, h1, hinv1⟩ := @visit_step _ _ _ _ _ [c] _ (.enterConstruct c) hinv rfl
  have hn1 : a1.constructNames_ = a.constructNames_ ++ c.name.toList := by
    obtain ⟨_, _, _, _, _, _, hn, _⟩ := hinv1
    rw [hn, stackNames_cons]
    simp [stackNames]
  obtain ⟨a2, h2, _, _, _, _, _, hhost, hn2, _⟩ :=
    visitAll_wellNested (body ++ [.leaveConstruct c]) [c] a1 hinv1 hnested
  refine ⟨a1, a2, h1, hn1, h2, by rw [hn2]; simp [stackNames], hhost, ?_⟩
  rw [CheckLabelContext_errorHandler, hn2]
  simp [stackNames]

/-- Witness for C36: `X: DO` closed at once by `END DO Y`, then `CYCLE X`. -/
theorem construct_names_balanced_witness :
    ∃ a2, visitAll [.enterConstruct sampleMisnamedDoConstruct,
        .leaveConstruct sampleMisnamedDoConstruct] sampleFreshAnalyzer = some a2 ∧
      a2.constructNames_ = [] ∧
      (CheckLabelContext a2 "CYCLE" "X").errorHandler_ = a2.errorHandler_ ++
        [⟨a2.currentPosition_, err_en_US "%s construct-name '%s' is not in scope"
          [.stringArg "CYCLE", .stringArg "X"], none⟩] := by
  obtain ⟨a1, a2, h1, _, h2, hn, _, hcheck⟩ :=
    construct_names_balanced sampleFreshAnalyzer [] ⟨[], [], [], [], [0, 0]⟩
      sampleMisnamedDoConstruct [] "CYCLE" "X" rfl (by decide) (by decide) (by decide)
  refine ⟨a2, ?_, hn, ?_⟩
  · simp only [visitAll, visit, h1]
    exact h2
  · rw [hcheck]
    rfl

end ResolveLabels
